import Mathlib

/-!
# Chunk assembly of `NoMetadataSource` (ASKAP ingest pipeline)

A shallow embedding of
`Code/Components/Services/ingest/current/ingestpipeline/sourcetask/NoMetadataSource.cc`:
`createVisChunk`, `addVis`, `next` and `parseBeamMap`, of `operator*` of
`Code/Base/scimath/trunk/fitting/ComplexDiffMatrix.h`, and of the averaging loop of
`splitMainTable` in `Code/Components/Synthesis/synthesis/current/apps/mssplit.cc`,
followed by theorems about them.

Conventions of the embedding.

* `casa::uInt` is a `Nat` reduced modulo `2 ^ 32` after every arithmetic
  operation of the source, `casa::uLong` / `uint64_t` / `size_t` modulo `2 ^ 64`.
* The sample type (`float` in the source) is a type parameter `F`: the code
  only copies samples, writes zero and negates the imaginary part.
* casa arrays are functions from indices to values, stored next to their
  shape.  casa does not check indices, so a write outside the shape is
  visible in the model as a write to an index outside the shape.
* `ASKAPCHECK` failures and `InterruptedException` are values of `AskapError`.
-/

namespace Askap

/-- Modulus of `casa::uInt` (unsigned 32 bit). -/
def UINT : Nat := 2 ^ 32

/-- Modulus of `casa::uLong` and `uint64_t` (unsigned 64 bit). -/
def ULONG : Nat := 2 ^ 64

/-- Conversion of a `casa::uInt` value to `casa::Int` (`static_cast<casa::Int>`). -/
def toInt32 (n : Nat) : Int :=
  if n % UINT < 2 ^ 31 then ((n % UINT : Nat) : Int) else ((n % UINT : Nat) : Int) - (UINT : Int)

/-- Conversion of a `casa::Int` value to `casa::uInt` (`static_cast<casa::uInt>`). -/
def toUInt32 (i : Int) : Nat := (i % (UINT : Int)).toNat

/-- The conditions raised by the source: one constructor per `ASKAPCHECK`,
one for `ASKAPDEBUGASSERT(polidx != 2)` and one for `InterruptedException`. -/
inductive AskapError where
  | Interrupted
  | ConsecutiveSameTimestamp
  | NoAntennaDefined
  | ChannelsNotDivisible
  | NotFourPolarisations
  | RowIndexNotLessThanNRow
  | BeamOutsideRange
  | Antenna1Invalid
  | Antenna2Invalid
  | BeamIndexInvalid
  | PolIndexInvalid
  | SliceIndexInvalid
  | IndexingFailedToFindRow
  | ChannelIndexOverflow
  | DebugAssertPolIdx
  deriving DecidableEq, Repr

/-- The first members of `casa::Stokes::StokesTypes`. -/
inductive StokesTypes where
  | Undefined | I | Q | U | V | RR | RL | LR | LL | XX | XY | YX | YY
  deriving DecidableEq, Repr

/-- Modelled from the spec: `scimath::PolConverter::stokesFromIndex` is not among the
sources.  The spec fixes "exactly 4 polarization axis entries (canonical full
cross-polarization set)" in canonical order; the second argument only selects the frame. -/
def stokesFromIndex (polIndex : Nat) (frame : StokesTypes) : StokesTypes :=
  match frame with
  | .XX | .XY | .YX | .YY =>
    match polIndex with
    | 0 => .XX | 1 => .XY | 2 => .YX | 3 => .YY | _ => .Undefined
  | .RR | .RL | .LR | .LL =>
    match polIndex with
    | 0 => .RR | 1 => .RL | 2 => .LR | 3 => .LL | _ => .Undefined
  | .I | .Q | .U | .V =>
    match polIndex with
    | 0 => .I | 1 => .Q | 2 => .U | 3 => .V | _ => .Undefined
  | .Undefined => .Undefined

/-- Modelled from the spec: `MergedSource::calculateRow` is not among the sources.  The
spec calls it the canonical row formula of the ordering "beam outermost, then antenna A
ascending, then antenna B ≥ antenna A ascending (includes self-pairs)", that is
`row = b*N*(N+1)/2 + a1*N - a1*(a1+1)/2 + a2`. -/
def calculateRow (ant1 ant2 beam nAntenna : Nat) : Nat :=
  beam * nAntenna * (nAntenna + 1) / 2 + ant1 * nAntenna - ant1 * (ant1 + 1) / 2 + ant2

/-- One sample of a datagram (`FloatComplex`: `float real; float imag;`). -/
structure FloatComplex (F : Type) where
  real : F
  imag : F

/-- A value of the visibility cube (`casa::Complex`). -/
structure CasaComplex (F : Type) where
  re : F
  im : F

/-- Complex conjugate, `conj(sample)`. -/
def CasaComplex.conj {F : Type} [Neg F] (z : CasaComplex F) : CasaComplex F :=
  { re := z.re, im := -z.im }

instance {F : Type} [Zero F] : Zero (CasaComplex F) := ⟨{ re := 0, im := 0 }⟩

/-- The fields of `VisDatagram` read by the source; `vis` has `N_CHANNELS_PER_SLICE`
entries. -/
structure VisDatagram (F : Type) where
  timestamp : Nat
  baselineid : Nat
  beamid : Nat
  slice : Nat
  vis : Nat → FloatComplex F

/-- `DatagramIdentity`: the tuple (baselineid, slice, beamid). -/
abbrev DatagramIdentity : Type := Nat × Nat × Nat

/-- What the source reads from its configuration, parameter set, baseline map and
beam map after construction, together with the constant `N_CHANNELS_PER_SLICE` of
`cpcommon/VisDatagram.h` and the build flag that enables `ASKAPDEBUGASSERT`. -/
structure Config where
  /-- The value of `itsConfig.antennas().size()`. -/
  nAntenna : Nat
  /-- The value of `itsChannelManager.localNChannels(itsId)`. -/
  localNChannels : Nat
  /-- The value of `itsCorrelatorMode.stokes().size()`. -/
  nStokes : Nat
  /-- The value of `itsCorrelatorMode.interval()`, in microseconds. -/
  interval : Nat
  itsMaxNBeams : Nat
  /-- The value of `itsBaselineMap.size()`. -/
  baselineMapSize : Nat
  idToAntenna1 : Nat → Int
  idToAntenna2 : Nat → Int
  idToStokes : Nat → StokesTypes
  itsBeamIDMap : Nat → Int
  N_CHANNELS_PER_SLICE : Nat
  askapDebug : Bool

/-- The parts of `VisChunk` that `createVisChunk` and `addVis` compute with.  `time`
holds `midpointBAT` (the source stores `bat2epoch(midpointBAT)`), `interval` the period
in microseconds (the source stores it in seconds).  The fields copied unchanged from
the configuration (target name, channel width, frequencies, directions, position
angles, uvw) are left out. -/
structure VisChunk (F : Type) where
  nRow : Nat
  nChannel : Nat
  nPol : Nat
  nAntenna : Nat
  time : Nat
  interval : Nat
  flag : Nat → Nat → Nat → Bool
  visibility : Nat → Nat → Nat → CasaComplex F
  stokes : List StokesTypes
  scan : Nat
  antenna1 : Nat → Nat
  antenna2 : Nat → Nat
  beam1 : Nat → Nat
  beam2 : Nat → Nat

/-- The constructor `VisChunk(nRow, nChannels, nPol, nAntenna)`: arrays of the given
shape with default contents. -/
def VisChunk.new {F : Type} [Zero F] (nRow nChannels nPol nAntenna : Nat) : VisChunk F :=
  { nRow := nRow, nChannel := nChannels, nPol := nPol, nAntenna := nAntenna,
    time := 0, interval := 0,
    flag := fun _ _ _ => false,
    visibility := fun _ _ _ => 0,
    stokes := List.replicate nPol StokesTypes.Undefined,
    scan := 0,
    antenna1 := fun _ => 0, antenna2 := fun _ => 0,
    beam1 := fun _ => 0, beam2 := fun _ => 0 }

/-- Assignment to one element of a vector, `v(i) = x`. -/
def setAt {α : Type} (v : Nat → α) (i : Nat) (x : α) : Nat → α :=
  fun j => if j = i then x else v j

/-- Assignment to one element of a cube, `c(i, j, k) = x`. -/
def setAt3 {α : Type} (c : Nat → Nat → Nat → α) (i j k : Nat) (x : α) :
    Nat → Nat → Nat → α :=
  fun i' j' k' => if i' = i ∧ j' = j ∧ k' = k then x else c i' j' k'

/-- One execution of the innermost statements of the triple loop of `createVisChunk`
(lines 248-265) on the pair (`row`, state of the body): `ASKAPCHECK(row < nRow)`, the
body, `row++`. -/
def rowLoopBody {σ : Type} (nRow : Nat) (body : Nat → Nat → Nat → Nat → σ → σ)
    (beam ant1 : Nat) (st : Nat × σ) (ant2 : Nat) : Except AskapError (Nat × σ) :=
  if st.1 < nRow then
    Except.ok ((st.1 + 1) % UINT, body st.1 beam ant1 ant2 st.2)
  else
    Except.error AskapError.RowIndexNotLessThanNRow

/-- The loop `for (ant2 = ant1; ant2 < nAntenna; ++ant2)` of `createVisChunk`. -/
def rowLoopAnt2 {σ : Type} (nRow nAntenna : Nat) (body : Nat → Nat → Nat → Nat → σ → σ)
    (beam : Nat) (st : Nat × σ) (ant1 : Nat) : Except AskapError (Nat × σ) :=
  (List.range' ant1 (nAntenna - ant1)).foldlM (rowLoopBody nRow body beam ant1) st

/-- The loop `for (ant1 = 0; ant1 < nAntenna; ++ant1)` of `createVisChunk`. -/
def rowLoopAnt1 {σ : Type} (nRow nAntenna : Nat) (body : Nat → Nat → Nat → Nat → σ → σ)
    (st : Nat × σ) (beam : Nat) : Except AskapError (Nat × σ) :=
  (List.range nAntenna).foldlM (rowLoopAnt2 nRow nAntenna body beam) st

/-- The triple loop of `createVisChunk` (lines 244-268) over a loop body `body row beam
ant1 ant2`: `beam` outermost, then `ant1`, then `ant2` from `ant1`; before each
execution of the body `ASKAPCHECK(row < nRow)`, after it `row++`. -/
def rowLoop {σ : Type} (nRow nAntenna nBeams : Nat) (body : Nat → Nat → Nat → Nat → σ → σ)
    (init : σ) : Except AskapError (Nat × σ) :=
  (List.range nBeams).foldlM (rowLoopAnt1 nRow nAntenna body) (0, init)

/-- The body of the triple loop of `createVisChunk`: the per-row metadata of one row. -/
def setRowMetadata {F : Type} (row beam ant1 ant2 : Nat) (chunk : VisChunk F) : VisChunk F :=
  { chunk with
    antenna1 := setAt chunk.antenna1 row ant1
    antenna2 := setAt chunk.antenna2 row ant2
    beam1 := setAt chunk.beam1 row beam
    beam2 := setAt chunk.beam2 row beam }

/-- The same loop with a body that records `(row, beam, ant1, ant2)` of each execution,
in order. -/
def rowAssignments (nRow nAntenna nBeams : Nat) :
    Except AskapError (Nat × List (Nat × Nat × Nat × Nat)) :=
  rowLoop nRow nAntenna nBeams (fun row beam ant1 ant2 log => log ++ [(row, beam, ant1, ant2)]) []

/-- The value of `nRow` computed by `createVisChunk` (lines 199-200). -/
def nRowOf (cfg : Config) : Nat :=
  (cfg.nAntenna * ((cfg.nAntenna + 1) % UINT) % UINT / 2) * cfg.itsMaxNBeams % UINT

/-- `NoMetadataSource::createVisChunk`. -/
def createVisChunk {F : Type} [Zero F] (cfg : Config) (timestamp : Nat) :
    Except AskapError (VisChunk F) :=
  let nAntenna := cfg.nAntenna
  if ¬ (nAntenna > 0) then Except.error AskapError.NoAntennaDefined else
  let nChannels := cfg.localNChannels
  let nPol := cfg.nStokes
  let nBaselines := nAntenna * ((nAntenna + 1) % UINT) % UINT / 2
  let nRow := nBaselines * cfg.itsMaxNBeams % UINT
  let period := cfg.interval
  let chunk : VisChunk F := VisChunk.new nRow nChannels nPol nAntenna
  let midpointBAT := (timestamp + period / 2) % ULONG
  let chunk := { chunk with time := midpointBAT }
  let chunk := { chunk with interval := period }
  let chunk := { chunk with flag := fun _ _ _ => true }
  let chunk := { chunk with visibility := fun _ _ _ => 0 }
  if ¬ (nPol = 4) then Except.error AskapError.NotFourPolarisations else
  let chunk := (List.range nPol).foldl (fun (c : VisChunk F) polIndex =>
    { c with stokes := c.stokes.set polIndex (stokesFromIndex polIndex StokesTypes.XX) }) chunk
  let chunk := { chunk with scan := 0 }
  match rowLoop nRow nAntenna cfg.itsMaxNBeams setRowMetadata chunk with
  | Except.error e => Except.error e
  | Except.ok (_, chunk) => Except.ok chunk

/-- Number of rows that precede the rows of antenna `a` within one beam: the sum of
`N - i` over `i < a`. -/
def triOffset (N : Nat) : Nat → Nat
  | 0 => 0
  | a + 1 => triOffset N a + (N - a)

/-- The executions of the body of the triple loop in order, each as
`(row, beam, ant1, ant2)`, in closed form. -/
def rowList (N B : Nat) : List (Nat × Nat × Nat × Nat) :=
  (List.range B).flatMap (fun b => (List.range N).flatMap (fun a1 =>
    (List.range (N - a1)).map (fun j => (b * triOffset N N + triOffset N a1 + j, b, a1, a1 + j))))

/-- The loop body applied to one entry `(row, beam, ant1, ant2)`. -/
def applyEntry {σ : Type} (body : Nat → Nat → Nat → Nat → σ → σ) (s : σ)
    (e : Nat × Nat × Nat × Nat) : σ :=
  body e.1 e.2.1 e.2.2.1 e.2.2.2 s

/-- The chunk of `createVisChunk` as it is when the triple loop starts (line 244), for
`nPol = 4`. -/
def chunkBeforeRows {F : Type} [Zero F] (cfg : Config) (timestamp : Nat) : VisChunk F :=
  { nRow := nRowOf cfg, nChannel := cfg.localNChannels, nPol := 4,
    nAntenna := cfg.nAntenna,
    time := (timestamp + cfg.interval / 2) % ULONG, interval := cfg.interval,
    flag := fun _ _ _ => true,
    visibility := fun _ _ _ => 0,
    stokes := [StokesTypes.XX, StokesTypes.XY, StokesTypes.YX, StokesTypes.YY],
    scan := 0,
    antenna1 := fun _ => 0, antenna2 := fun _ => 0,
    beam1 := fun _ => 0, beam2 := fun _ => 0 }

/-- What `addVis` leaves behind: its return value or the condition it raised, and the
chunk and the received-set (both passed by reference) as they are at that point. -/
structure AddVisResult (F : Type) where
  outcome : Except AskapError Bool
  chunk : VisChunk F
  receivedDatagrams : List DatagramIdentity

/-- The search of `addVis` for the position of `stokestype` on the polarisation axis
(lines 308-313): the last matching index, `-1` when there is none. -/
def findPolIdx (stokes : List StokesTypes) (stokestype : StokesTypes) : Int :=
  (List.range stokes.length).foldl
    (fun polidx i => if stokes.getD i StokesTypes.Undefined = stokestype then (i : Int) else polidx)
    (-1)

/-- One iteration of the channel loop of `addVis` (lines 347-366). -/
def addVisChannel {F : Type} [Neg F] (cfg : Config) (vis : VisDatagram F)
    (antenna1 antenna2 row chanOffset polidx : Nat) (chan : Nat) (chunk : VisChunk F) :
    Except AskapError Unit × VisChunk F :=
  let sample : CasaComplex F := { re := (vis.vis chan).real, im := (vis.vis chan).imag }
  if ¬ ((chanOffset + chan) % UINT ≤ chunk.nChannel) then
    (Except.error AskapError.ChannelIndexOverflow, chunk)
  else
  let chunk := { chunk with
    visibility := setAt3 chunk.visibility row ((chanOffset + chan) % UINT) polidx sample }
  let chunk := { chunk with
    flag := setAt3 chunk.flag row ((chanOffset + chan) % UINT) polidx false }
  if antenna1 = antenna2 then
    if cfg.askapDebug ∧ ¬ (polidx ≠ 2) then (Except.error AskapError.DebugAssertPolIdx, chunk) else
    if polidx = 1 then
      let chunk := { chunk with
        visibility := setAt3 chunk.visibility row ((chanOffset + chan) % UINT) 2 sample.conj }
      let chunk := { chunk with
        flag := setAt3 chunk.flag row ((chanOffset + chan) % UINT) 2 false }
      (Except.ok (), chunk)
    else (Except.ok (), chunk)
  else (Except.ok (), chunk)

/-- The channel loop of `addVis`: `chan` from `0` to `N_CHANNELS_PER_SLICE - 1`, left at
the first iteration that raises. -/
def addVisChannels {F : Type} [Neg F] (cfg : Config) (vis : VisDatagram F)
    (antenna1 antenna2 row chanOffset polidx : Nat) (chunk : VisChunk F) :
    Except AskapError Unit × VisChunk F :=
  (List.range cfg.N_CHANNELS_PER_SLICE).foldl
    (fun st chan =>
      match st.1 with
      | Except.error _ => st
      | Except.ok _ => addVisChannel cfg vis antenna1 antenna2 row chanOffset polidx chan st.2)
    (Except.ok (), chunk)

/-- `NoMetadataSource::addVis`. -/
def addVis {F : Type} [Neg F] (cfg : Config) (chunk : VisChunk F) (vis : VisDatagram F)
    (nAntenna : Nat) (receivedDatagrams : List DatagramIdentity) : AddVisResult F :=
  -- 0) Map from baseline to antenna pair and stokes type
  if cfg.idToAntenna1 vis.baselineid = -1 ∨ cfg.idToAntenna2 vis.baselineid = -1 ∨
      cfg.idToStokes vis.baselineid = StokesTypes.Undefined then
    ⟨Except.ok false, chunk, receivedDatagrams⟩
  else
  let antenna1 := toUInt32 (cfg.idToAntenna1 vis.baselineid)
  let antenna2 := toUInt32 (cfg.idToAntenna2 vis.baselineid)
  let beamid := cfg.itsBeamIDMap vis.beamid
  if beamid < 0 then ⟨Except.ok false, chunk, receivedDatagrams⟩ else
  if ¬ (beamid < toInt32 cfg.itsMaxNBeams) then
    ⟨Except.error AskapError.BeamOutsideRange, chunk, receivedDatagrams⟩
  else
  -- 1) Position on the stokes axis
  let stokestype := cfg.idToStokes vis.baselineid
  let polidx := findPolIdx chunk.stokes stokestype
  if polidx < 0 then ⟨Except.ok false, chunk, receivedDatagrams⟩ else
  -- 2) Check the indexes in the VisDatagram are valid
  if ¬ (antenna1 < nAntenna) then
    ⟨Except.error AskapError.Antenna1Invalid, chunk, receivedDatagrams⟩ else
  if ¬ (antenna2 < nAntenna) then
    ⟨Except.error AskapError.Antenna2Invalid, chunk, receivedDatagrams⟩ else
  if ¬ (toUInt32 beamid < cfg.itsMaxNBeams) then
    ⟨Except.error AskapError.BeamIndexInvalid, chunk, receivedDatagrams⟩ else
  if ¬ (polidx < 4) then
    ⟨Except.error AskapError.PolIndexInvalid, chunk, receivedDatagrams⟩ else
  if ¬ (vis.slice < 16) then
    ⟨Except.error AskapError.SliceIndexInvalid, chunk, receivedDatagrams⟩ else
  -- 3) Detect duplicate datagrams
  let identity : DatagramIdentity := (vis.baselineid, vis.slice, vis.beamid)
  if identity ∈ receivedDatagrams then ⟨Except.ok false, chunk, receivedDatagrams⟩ else
  let receivedDatagrams := identity :: receivedDatagrams
  -- 4) Find the row for the given beam and baseline
  let row := calculateRow antenna1 antenna2 (toUInt32 beamid) nAntenna
  if ¬ (chunk.antenna1 row = antenna1) ∨ ¬ (chunk.antenna2 row = antenna2) ∨
      ¬ (chunk.beam1 row = toUInt32 beamid) ∨ ¬ (chunk.beam2 row = toUInt32 beamid) then
    ⟨Except.error AskapError.IndexingFailedToFindRow, chunk, receivedDatagrams⟩
  else
  -- 5) Determine the channel offset and add the visibilities
  let chanOffset := vis.slice * cfg.N_CHANNELS_PER_SLICE % UINT
  match addVisChannels cfg vis antenna1 antenna2 row chanOffset polidx.toNat chunk with
  | (Except.error e, chunk) => ⟨Except.error e, chunk, receivedDatagrams⟩
  | (Except.ok _, chunk) => ⟨Except.ok true, chunk, receivedDatagrams⟩

/-- The identity `addVis` gives a datagram (line 328). -/
def identityOf {F : Type} (vis : VisDatagram F) : DatagramIdentity :=
  (vis.baselineid, vis.slice, vis.beamid)

/-- The row `addVis` computes for a datagram (line 337). -/
def rowOf {F : Type} (cfg : Config) (nAntenna : Nat) (vis : VisDatagram F) : Nat :=
  calculateRow (toUInt32 (cfg.idToAntenna1 vis.baselineid))
    (toUInt32 (cfg.idToAntenna2 vis.baselineid)) (toUInt32 (cfg.itsBeamIDMap vis.beamid)) nAntenna

/-- The polarisation index `addVis` computes for a datagram (lines 306-313). -/
def polOf {F : Type} (cfg : Config) (chunk : VisChunk F) (vis : VisDatagram F) : Nat :=
  (findPolIdx chunk.stokes (cfg.idToStokes vis.baselineid)).toNat

/-- The conditions under which `addVis` reaches its duplicate check (line 329) for a
datagram with the identity `id`, on a chunk with the polarisation axis `stokes`: the
baseline and the beam are mapped, the polarisation is on the axis, and the five checks
of lines 300 and 321-325 hold. -/
def reachesDuplicateCheck (cfg : Config) (stokes : List StokesTypes) (nAntenna : Nat)
    (id : DatagramIdentity) : Prop :=
  ¬ (cfg.idToAntenna1 id.1 = -1 ∨ cfg.idToAntenna2 id.1 = -1 ∨
      cfg.idToStokes id.1 = StokesTypes.Undefined) ∧
  ¬ (cfg.itsBeamIDMap id.2.2 < 0) ∧
  cfg.itsBeamIDMap id.2.2 < toInt32 cfg.itsMaxNBeams ∧
  ¬ (findPolIdx stokes (cfg.idToStokes id.1) < 0) ∧
  toUInt32 (cfg.idToAntenna1 id.1) < nAntenna ∧
  toUInt32 (cfg.idToAntenna2 id.1) < nAntenna ∧
  toUInt32 (cfg.itsBeamIDMap id.2.2) < cfg.itsMaxNBeams ∧
  findPolIdx stokes (cfg.idToStokes id.1) < 4 ∧
  id.2.1 < 16

instance (cfg : Config) (stokes : List StokesTypes) (nAntenna : Nat) (id : DatagramIdentity) :
    Decidable (reachesDuplicateCheck cfg stokes nAntenna id) := by
  unfold reachesDuplicateCheck
  infer_instance

/-- Two chunks that differ at most in the cells of `visibility` and `flag`. -/
def VisChunk.SameHeader {F : Type} (c c' : VisChunk F) : Prop :=
  c'.nRow = c.nRow ∧ c'.nChannel = c.nChannel ∧ c'.nPol = c.nPol ∧ c'.nAntenna = c.nAntenna ∧
  c'.time = c.time ∧ c'.interval = c.interval ∧ c'.stokes = c.stokes ∧ c'.scan = c.scan ∧
  c'.antenna1 = c.antenna1 ∧ c'.antenna2 = c.antenna2 ∧ c'.beam1 = c.beam1 ∧ c'.beam2 = c.beam2

/-- One answer of `itsVisSrc->next(timeout)`: a datagram or the null pointer (timeout),
and whether one of SIGINT, SIGTERM, SIGUSR1 is delivered to the process while the call
is waiting. -/
structure Pull (F : Type) where
  vis : Option (VisDatagram F)
  signal : Bool

/-- The members of `NoMetadataSource` that `next` changes, the state of the signal set
(`signalPending`: a signal has been delivered and `itsIOService.poll()` has not yet run
`signalHandler`), and two records of what the object has done so far: the timeouts it
passed to `itsVisSrc->next` and the datagrams it passed to `addVis`, both in order. -/
structure NoMetadataSource (F : Type) where
  itsVis : Option (VisDatagram F)
  itsInterrupted : Bool
  itsLastTimestamp : Nat
  signalPending : Bool
  timeouts : List Nat
  offered : List (VisDatagram F)

/-- The state the constructor leaves: `itsInterrupted(false)`, `itsLastTimestamp(-1)`
(the largest `casa::uLong`), no datagram buffered. -/
def NoMetadataSource.init (F : Type) : NoMetadataSource F :=
  { itsVis := none, itsInterrupted := false, itsLastTimestamp := ULONG - 1,
    signalPending := false, timeouts := [], offered := [] }

/-- The call `itsIOService.poll()`: a pending signal runs `signalHandler`, which sets
`itsInterrupted`. -/
def NoMetadataSource.poll {F : Type} (self : NoMetadataSource F) : NoMetadataSource F :=
  if self.signalPending then { self with itsInterrupted := true, signalPending := false }
  else self

/-- The statement `itsVis = itsVisSrc->next(timeout)` answered by `p`. -/
def NoMetadataSource.pull {F : Type} (self : NoMetadataSource F) (p : Pull F) (timeout : Nat) :
    NoMetadataSource F :=
  { self with
    itsVis := p.vis
    signalPending := self.signalPending || p.signal
    timeouts := self.timeouts ++ [timeout] }

/-- How a loop of `next` is left: normally, by a raised condition, or because the model
has no further answer of the Source to give (`starved`). -/
inductive LoopExit where
  | done
  | raised (e : AskapError)
  | starved
  deriving DecidableEq, Repr

/-- The loop of lines 112-117: pull with a timeout of `10000000` until a datagram is
buffered; after every pull poll the signals and raise when interrupted. -/
def awaitFirst {F : Type} :
    List (Pull F) → NoMetadataSource F → LoopExit × NoMetadataSource F × List (Pull F)
  | [], self =>
    match self.itsVis with
    | some _ => (LoopExit.done, self, [])
    | none => (LoopExit.starved, self, [])
  | p :: rest, self =>
    match self.itsVis with
    | some _ => (LoopExit.done, self, p :: rest)
    | none =>
      let self := (self.pull p 10000000).poll
      if self.itsInterrupted then (LoopExit.raised AskapError.Interrupted, self, rest)
      else awaitFirst rest self

/-- The variables of the collecting loop of `next` (lines 143-170). -/
structure Collecting (F : Type) where
  self : NoMetadataSource F
  chunk : VisChunk F
  receivedDatagrams : List DatagramIdentity
  datagramCount : Nat
  datagramsIgnored : Nat

/-- Where one pass through the collecting loop ends: the loop is left, or the pass has
reached one of the two statements `itsVis = itsVisSrc->next(timeout)`. -/
inductive CollectStep (F : Type) where
  | exit (how : LoopExit) (st : Collecting F)
  | pull (st : Collecting F)

/-- One pass through the collecting loop, from the loop condition up to the next pull. -/
def collectStep {F : Type} [Neg F] (cfg : Config)
    (currentTimestamp nAntenna datagramsExpected : Nat) (st : Collecting F) : CollectStep F :=
  match st.self.itsVis with
  | none => CollectStep.exit LoopExit.done st
  | some vis =>
    if ¬ (currentTimestamp ≥ vis.timestamp) then CollectStep.exit LoopExit.done st else
    let st := { st with self := st.self.poll }
    if st.self.itsInterrupted then CollectStep.exit (LoopExit.raised AskapError.Interrupted) st else
    if currentTimestamp > vis.timestamp then
      -- the VisDatagram is from a prior integration: discard it
      CollectStep.pull st
    else
    let r := addVis cfg st.chunk vis nAntenna st.receivedDatagrams
    let st := { st with
      self := { st.self with offered := st.self.offered ++ [vis] }
      chunk := r.chunk
      receivedDatagrams := r.receivedDatagrams }
    match r.outcome with
    | Except.error e => CollectStep.exit (LoopExit.raised e) st
    | Except.ok added =>
      let st :=
        if added then { st with datagramCount := (st.datagramCount + 1) % UINT }
        else { st with datagramsIgnored := (st.datagramsIgnored + 1) % UINT }
      let st := { st with self := { st.self with itsVis := none } }
      if st.datagramCount = datagramsExpected then CollectStep.exit LoopExit.done st
      else CollectStep.pull st

/-- The collecting loop of `next` (lines 146-170) against the answers `pulls` of the
Source. -/
def collect {F : Type} [Neg F] (cfg : Config)
    (currentTimestamp nAntenna datagramsExpected timeout : Nat) :
    List (Pull F) → Collecting F → LoopExit × Collecting F × List (Pull F)
  | [], st =>
    match collectStep cfg currentTimestamp nAntenna datagramsExpected st with
    | CollectStep.exit how st => (how, st, [])
    | CollectStep.pull st => (LoopExit.starved, st, [])
  | p :: rest, st =>
    match collectStep cfg currentTimestamp nAntenna datagramsExpected st with
    | CollectStep.exit how st => (how, st, p :: rest)
    | CollectStep.pull st =>
      collect cfg currentTimestamp nAntenna datagramsExpected timeout rest
        { st with self := st.self.pull p timeout }

/-- What a call of `next` that returns hands over: the chunk, the value submitted as
"PacketsLostCount", whether "PacketsLostPercent" is submitted, and the final values of
the local variables `currentTimestamp`, `datagramsExpected`, `datagramCount`,
`datagramsIgnored` and `receivedDatagrams`. -/
structure Emitted (F : Type) where
  chunk : VisChunk F
  currentTimestamp : Nat
  packetsLostCount : Int
  percentSubmitted : Bool
  datagramsExpected : Nat
  datagramCount : Nat
  datagramsIgnored : Nat
  receivedDatagrams : List DatagramIdentity

/-- How a call of `next` ends. -/
inductive NextOutcome (F : Type) where
  | returned (out : Emitted F)
  | raised (e : AskapError)
  | starved

/-- The result of a call of `next`: how it ends, the object afterwards, and the answers
of the Source not yet consumed. -/
structure NextResult (F : Type) where
  outcome : NextOutcome F
  self : NoMetadataSource F
  pulls : List (Pull F)

/-- The cycle timestamp of the chunk a call of `next` returned, if it returned one. -/
def NextResult.cycleTimestamp {F : Type} (r : NextResult F) : Option Nat :=
  match r.outcome with
  | NextOutcome.returned out => some out.currentTimestamp
  | _ => none

/-- The value of `datagramsExpected` computed by `next` (line 135). -/
def datagramsExpectedOf (cfg : Config) : Nat :=
  cfg.baselineMapSize * cfg.itsMaxNBeams * (cfg.localNChannels / cfg.N_CHANNELS_PER_SLICE) % UINT

/-- The part of `next` after the first loop (lines 119-186), entered with the datagram
`vis` buffered in `itsVis`. -/
def assemble {F : Type} [Zero F] [Neg F] (cfg : Config) (self : NoMetadataSource F)
    (pulls : List (Pull F)) (vis : VisDatagram F) : NextResult F :=
  let currentTimestamp := vis.timestamp
  if ¬ (currentTimestamp ≠ self.itsLastTimestamp) then
    ⟨NextOutcome.raised AskapError.ConsecutiveSameTimestamp, self, pulls⟩
  else
  let self := { self with itsLastTimestamp := currentTimestamp }
  match createVisChunk cfg currentTimestamp with
  | Except.error e => ⟨NextOutcome.raised e, self, pulls⟩
  | Except.ok chunk =>
    let nAntenna := cfg.nAntenna
    let nChannels := cfg.localNChannels
    if ¬ (nChannels % cfg.N_CHANNELS_PER_SLICE = 0) then
      ⟨NextOutcome.raised AskapError.ChannelsNotDivisible, self, pulls⟩
    else
    let datagramsExpected := datagramsExpectedOf cfg
    let interval := cfg.interval
    let timeout := interval * 2 % UINT
    match collect cfg currentTimestamp nAntenna datagramsExpected timeout pulls
        { self := self, chunk := chunk, receivedDatagrams := [],
          datagramCount := 0, datagramsIgnored := 0 } with
    | (LoopExit.raised e, st, pulls) => ⟨NextOutcome.raised e, st.self, pulls⟩
    | (LoopExit.starved, st, pulls) => ⟨NextOutcome.starved, st.self, pulls⟩
    | (LoopExit.done, st, pulls) =>
      ⟨NextOutcome.returned
        { chunk := st.chunk
          currentTimestamp := currentTimestamp
          packetsLostCount := toInt32 ((datagramsExpected + UINT - st.datagramCount) % UINT)
          percentSubmitted := decide (datagramsExpected ≠ 0)
          datagramsExpected := datagramsExpected
          datagramCount := st.datagramCount
          datagramsIgnored := st.datagramsIgnored
          receivedDatagrams := st.receivedDatagrams },
       st.self, pulls⟩

/-- `NoMetadataSource::next`: the loop that waits for the first datagram, then the
assembly of the chunk. -/
def next {F : Type} [Zero F] [Neg F] (cfg : Config) (self : NoMetadataSource F)
    (pulls : List (Pull F)) : NextResult F :=
  match awaitFirst pulls self with
  | (LoopExit.raised e, self, pulls) => ⟨NextOutcome.raised e, self, pulls⟩
  | (LoopExit.starved, self, pulls) => ⟨NextOutcome.starved, self, pulls⟩
  | (LoopExit.done, self, pulls) =>
    match self.itsVis with
    | none => ⟨NextOutcome.starved, self, pulls⟩
    | some vis => assemble cfg self pulls vis

/-- The timestamp of the seed datagram of a call of `next`: the datagram buffered in
`itsVis` when the first loop is left, if it is left normally. -/
def seedTimestamp {F : Type} (self : NoMetadataSource F) (pulls : List (Pull F)) : Option Nat :=
  match awaitFirst pulls self with
  | (LoopExit.done, self, _) => self.itsVis.map (fun vis => vis.timestamp)
  | _ => none

/-- The polarisation axis `createVisChunk` writes. -/
def linearAxis : List StokesTypes :=
  [StokesTypes.XX, StokesTypes.XY, StokesTypes.YX, StokesTypes.YY]

/-- A sufficient condition for `addVis` not to raise on a datagram, whatever the state of
the cycle: the datagram is rejected before the first check, or it passes every check of
`addVis` (mapped beam and antennas in range, slice below 16, `antenna1 ≤ antenna2` so that
the row is found, all its channels within the check of line 349, and the debug assertion
of line 358 not triggered). -/
def neverRaises {F : Type} (cfg : Config) (vis : VisDatagram F) : Prop :=
  (cfg.idToAntenna1 vis.baselineid = -1 ∨ cfg.idToAntenna2 vis.baselineid = -1 ∨
    cfg.idToStokes vis.baselineid = StokesTypes.Undefined) ∨
  cfg.itsBeamIDMap vis.beamid < 0 ∨
  (cfg.itsBeamIDMap vis.beamid < toInt32 cfg.itsMaxNBeams ∧
    (findPolIdx linearAxis (cfg.idToStokes vis.baselineid) < 0 ∨
      (toUInt32 (cfg.idToAntenna1 vis.baselineid) < cfg.nAntenna ∧
        toUInt32 (cfg.idToAntenna2 vis.baselineid) < cfg.nAntenna ∧
        toUInt32 (cfg.itsBeamIDMap vis.beamid) < cfg.itsMaxNBeams ∧
        vis.slice < 16 ∧
        toUInt32 (cfg.idToAntenna1 vis.baselineid) ≤ toUInt32 (cfg.idToAntenna2 vis.baselineid) ∧
        (∀ chan, chan < cfg.N_CHANNELS_PER_SLICE →
          (vis.slice * cfg.N_CHANNELS_PER_SLICE % UINT + chan) % UINT ≤ cfg.localNChannels) ∧
        ¬ (cfg.askapDebug = true ∧
          toUInt32 (cfg.idToAntenna1 vis.baselineid) = toUInt32 (cfg.idToAntenna2 vis.baselineid) ∧
          (findPolIdx linearAxis (cfg.idToStokes vis.baselineid)).toNat = 2))))

instance {F : Type} (cfg : Config) (vis : VisDatagram F) : Decidable (neverRaises cfg vis) := by
  unfold neverRaises
  infer_instance

/-- An answer of the Source during which no signal is delivered and whose datagram, if
any, satisfies `neverRaises`. -/
def Pull.quiet {F : Type} (cfg : Config) (p : Pull F) : Prop :=
  p.signal = false ∧
  match p.vis with
  | none => True
  | some vis => neverRaises cfg vis

instance {F : Type} (cfg : Config) (p : Pull F) : Decidable (p.quiet cfg) := by
  unfold Pull.quiet
  cases p.vis <;> infer_instance

/-- A configuration with which `createVisChunk` returns a chunk and `next` passes its
check of the channel count: at least one antenna, 4 polarisations, a row count within
`casa::uInt`, and a number of channels divisible by `N_CHANNELS_PER_SLICE`. -/
def Config.valid (cfg : Config) : Prop :=
  0 < cfg.nAntenna ∧ cfg.nStokes = 4 ∧
  cfg.nAntenna * (cfg.nAntenna + 1) < 2 ^ 32 ∧
  cfg.itsMaxNBeams * (cfg.nAntenna * (cfg.nAntenna + 1) / 2) < 2 ^ 32 ∧
  cfg.localNChannels % cfg.N_CHANNELS_PER_SLICE = 0

instance (cfg : Config) : Decidable cfg.valid := by
  unfold Config.valid
  infer_instance

/-- The pairs (chunk, received-set) that the calls of `addVis` of one cycle can produce:
the cycle starts with some chunk and the empty received-set, and every call of `addVis`
leads from one pair to the next. -/
inductive CycleState {F : Type} [Neg F] (cfg : Config) (nAntenna : Nat) :
    VisChunk F → List DatagramIdentity → Prop where
  | start (chunk : VisChunk F) : CycleState cfg nAntenna chunk []
  | step {chunk : VisChunk F} {recv : List DatagramIdentity} (vis : VisDatagram F) :
      CycleState cfg nAntenna chunk recv →
      CycleState cfg nAntenna (addVis cfg chunk vis nAntenna recv).chunk
        (addVis cfg chunk vis nAntenna recv).receivedDatagrams

/-- The cells that belong to a datagram: the cell (`row`, `chan`, `pol`) is in the row
`addVis` computes for it, in the channel range of its slice, and at its polarisation index
or, for an autocorrelation at polarisation index 1, at index 2. -/
def targets {F : Type} (cfg : Config) (nAntenna : Nat) (chunk : VisChunk F)
    (vis : VisDatagram F) (row chan pol : Nat) : Prop :=
  row = rowOf cfg nAntenna vis ∧
  vis.slice * cfg.N_CHANNELS_PER_SLICE ≤ chan ∧
  chan < (vis.slice + 1) * cfg.N_CHANNELS_PER_SLICE ∧
  (pol = polOf cfg chunk vis ∨
    (pol = 2 ∧
      toUInt32 (cfg.idToAntenna1 vis.baselineid) = toUInt32 (cfg.idToAntenna2 vis.baselineid) ∧
      polOf cfg chunk vis = 1))

/-- A datagram that `addVis` accepts on a chunk of `createVisChunk` unless it is a
duplicate: it reaches the duplicate check and passes every later check. -/
def accepts {F : Type} (cfg : Config) (vis : VisDatagram F) : Prop :=
  reachesDuplicateCheck cfg linearAxis cfg.nAntenna (identityOf vis) ∧ neverRaises cfg vis

instance {F : Type} (cfg : Config) (vis : VisDatagram F) : Decidable (accepts cfg vis) := by
  unfold accepts
  infer_instance

/-- A sequence of calls of `addVis` on the same chunk and received-set, as the collecting
loop makes them: the chunk, the received-set and the datagrams for which `addVis` returned
`true`, or `none` when a call raises (which ends the cycle). -/
def addVisSeq {F : Type} [Neg F] (cfg : Config) (nAntenna : Nat) :
    List (VisDatagram F) → VisChunk F → List DatagramIdentity →
    Option (VisChunk F × List DatagramIdentity × List (VisDatagram F))
  | [], chunk, recv => some (chunk, recv, [])
  | vis :: rest, chunk, recv =>
    match (addVis cfg chunk vis nAntenna recv).outcome with
    | Except.error _ => none
    | Except.ok added =>
      match addVisSeq cfg nAntenna rest (addVis cfg chunk vis nAntenna recv).chunk
          (addVis cfg chunk vis nAntenna recv).receivedDatagrams with
      | none => none
      | some (c, r, accepted) => some (c, r, if added then vis :: accepted else accepted)

/-- The variables of the collecting loop of `next` when the loop is entered (lines
124 and 143-145) for the cycle timestamp `T`. -/
def Collecting.start {F : Type} (self : NoMetadataSource F) (chunk : VisChunk F) (T : Nat) :
    Collecting F :=
  { self := { self with itsLastTimestamp := T }, chunk := chunk,
    receivedDatagrams := [], datagramCount := 0, datagramsIgnored := 0 }

/-- What `next` hands over (lines 172-186) when the collecting loop of the cycle `T` is
left normally with the variables `st`. -/
def emit {F : Type} (cfg : Config) (T : Nat) (st : Collecting F) : Emitted F :=
  { chunk := st.chunk
    currentTimestamp := T
    packetsLostCount := toInt32 ((datagramsExpectedOf cfg + UINT - st.datagramCount) % UINT)
    percentSubmitted := decide (datagramsExpectedOf cfg ≠ 0)
    datagramsExpected := datagramsExpectedOf cfg
    datagramCount := st.datagramCount
    datagramsIgnored := st.datagramsIgnored
    receivedDatagrams := st.receivedDatagrams }

/-- The account of a cycle at a point of the collecting loop: the datagrams `ds` handed to
`addVis` since the loop was entered (with the chunk `chunk0`, the empty received-set and
the record `offered0` of earlier cycles) all have the cycle timestamp `T`, the chunk and
the received-set are what the calls of `addVis` on `ds` made of them, and the two
counters count the calls that returned `true` and `false` (in `casa::uInt`). -/
def Tally {F : Type} [Neg F] (cfg : Config) (T nAntenna : Nat) (chunk0 : VisChunk F)
    (offered0 : List (VisDatagram F)) (st : Collecting F) : Prop :=
  ∃ (ds acc : List (VisDatagram F)),
    st.self.offered = offered0 ++ ds ∧ (∀ d ∈ ds, d.timestamp = T) ∧
    addVisSeq cfg nAntenna ds chunk0 [] = some (st.chunk, st.receivedDatagrams, acc) ∧
    acc.length ≤ ds.length ∧
    st.datagramCount = acc.length % UINT ∧
    st.datagramsIgnored = (ds.length - acc.length) % UINT

/-- What a call of `next` handed over, if it returned. -/
def NextResult.emitted {F : Type} (r : NextResult F) : Option (Emitted F) :=
  match r.outcome with
  | NextOutcome.returned out => some out
  | _ => none

/-- The answer of the Source that delivers the datagram `d` while no signal arrives. -/
def deliver {F : Type} (d : VisDatagram F) : Pull F :=
  { vis := some d, signal := false }

/-- The loop of `NoMetadataSource::parseBeamMap` (lines 387-393) over the raw beam ids
`0 .. nBeamsInConfig` (an `int` counter below `static_cast<int>(nBeamsInConfig) + 1`):
the running value of `itsMaxNBeams`. -/
def parseBeamMapLoop (itsBeamIDMap : Nat → Int) (nBeamsInConfig itsMaxNBeams : Nat) : Nat :=
  (List.range (toInt32 nBeamsInConfig + 1).toNat).foldl
    (fun itsMaxNBeams beam =>
      let processedBeamIndex := itsBeamIDMap beam
      if processedBeamIndex > toInt32 itsMaxNBeams then toUInt32 processedBeamIndex
      else itsMaxNBeams)
    itsMaxNBeams

/-- `NoMetadataSource::parseBeamMap` after the beam map has been read (lines 385-398): the
values of `itsMaxNBeams` and `itsBeamsToReceive` it leaves, from the values the
constructor gave them (the parameters "maxbeams" and "beams2receive", 0 when absent). -/
def parseBeamMap (itsBeamIDMap : Nat → Int) (nBeamsInConfig itsMaxNBeams itsBeamsToReceive : Nat) :
    Nat × Nat :=
  let itsMaxNBeams :=
    if itsMaxNBeams = 0 then
      (parseBeamMapLoop itsBeamIDMap nBeamsInConfig itsMaxNBeams + 1) % UINT
    else itsMaxNBeams
  let itsBeamsToReceive := if itsBeamsToReceive = 0 then nBeamsInConfig else itsBeamsToReceive
  (itsMaxNBeams, itsBeamsToReceive)

/-! ## `ComplexDiffMatrix` (Code/Base/scimath/trunk/fitting/ComplexDiffMatrix.h) -/

/-- Modulus of `size_t` (64 bit). -/
def SIZE_T : Nat := 2 ^ 64

/-- The struct `ComplexDiffMatrix` over an element type `R` (`ComplexDiff` in the source,
of which the code uses zero, addition and multiplication): the two dimensions and the
flattened, column-major storage. -/
structure ComplexDiffMatrix (R : Type) where
  itsNRows : Nat
  itsNColumns : Nat
  itsElements : List R

/-- The constructor `ComplexDiffMatrix(nrow, ncol)`: `nrow * ncol` (in `size_t`)
default-constructed elements. -/
def ComplexDiffMatrix.new {R : Type} [Zero R] (nrow ncol : Nat) : ComplexDiffMatrix R :=
  { itsNRows := nrow, itsNColumns := ncol,
    itsElements := List.replicate (nrow * ncol % SIZE_T) 0 }

/-- The accessor `operator()(row, col)`: the element `itsElements[itsNRows*col+row]` (the
assertion of the debug build is not part of the model). -/
def ComplexDiffMatrix.get {R : Type} [Zero R] (a : ComplexDiffMatrix R) (row col : Nat) : R :=
  a.itsElements.getD ((a.itsNRows * col + row) % SIZE_T) 0

/-- The variables of the loop of `operator*`: the running `curCol` and `curRow`, the
elements of `result`, and a record of the pair (`curRow`, `curCol`) used at each
position. -/
structure MulState (R : Type) where
  curCol : Nat
  curRow : Nat
  elements : List R
  cursors : List (Nat × Nat)

/-- One iteration of the loop of `operator*` (lines 190-202), for the iterator at the flat
position `pos`. -/
def mulStep {R : Type} [Zero R] [Add R] [Mul R] (in1 in2 : ComplexDiffMatrix R) (nRow : Nat)
    (st : MulState R) (pos : Nat) : MulState R :=
  let cur : Nat × Nat :=
    if st.curRow ≥ nRow then (0, (st.curCol + 1) % SIZE_T) else (st.curRow, st.curCol)
  let value := (List.range in1.itsNColumns).foldl
    (fun acc index => acc + in1.get cur.1 index * in2.get index cur.2) 0
  { curCol := cur.2, curRow := (cur.1 + 1) % SIZE_T,
    elements := st.elements.set pos value, cursors := st.cursors ++ [cur] }

/-- The loop of `operator*` over the first `count` positions of `result.itsElements`. -/
def mulLoop {R : Type} [Zero R] [Add R] [Mul R] (in1 in2 : ComplexDiffMatrix R)
    (result : ComplexDiffMatrix R) (count : Nat) : MulState R :=
  (List.range count).foldl (mulStep in1 in2 result.itsNRows)
    { curCol := 0, curRow := 0, elements := result.itsElements, cursors := [] }

/-- The matrix product `operator*(in1, in2)`. -/
def ComplexDiffMatrix.mul {R : Type} [Zero R] [Add R] [Mul R] (in1 in2 : ComplexDiffMatrix R) :
    ComplexDiffMatrix R :=
  let result : ComplexDiffMatrix R := ComplexDiffMatrix.new in1.itsNRows in2.itsNColumns
  { result with itsElements := (mulLoop in1 in2 result result.itsElements.length).elements }

/-- A matrix as its constructors leave it: the storage holds `itsNRows * itsNColumns`
elements, a number that fits `size_t`. -/
def ComplexDiffMatrix.WellFormed {R : Type} (a : ComplexDiffMatrix R) : Prop :=
  a.itsNRows * a.itsNColumns < SIZE_T ∧ a.itsElements.length = a.itsNRows * a.itsNColumns

/-! ## The averaging loop of `splitMainTable` (Code/Components/Synthesis/synthesis/current/apps/mssplit.cc) -/

/-- The number of input channels of `splitMainTable` (line 389):
`endChan - startChan + 1` in `casa::uInt`. -/
def splitNChanIn (startChan endChan : Nat) : Nat :=
  (endChan + UINT - startChan + 1) % UINT

/-- The condition raised by `ASKAPDEBUGASSERT` in `splitMainTable`. -/
inductive SplitError where
  | AssertionFailed
  deriving DecidableEq, Repr

/-- The innermost loop of `splitMainTable` (lines 468-475) for one output cell: `i` from
`destChan * width` up to `destChan * width + width` (in `casa::uInt`), with the assertion
`i < nChanIn`; the sum, the output flag and the record of the indices `i` visited. -/
def averageChannels {C : Type} [Zero C] [Add C] (width nChanIn destChan : Nat)
    (indata : Nat → C) (inflag : Nat → Bool) : Except SplitError (C × Bool × List Nat) :=
  let lo := destChan * width % UINT
  let hi := (lo + width) % UINT
  (List.range' lo (hi - lo)).foldlM
    (fun (st : C × Bool × List Nat) i =>
      if ¬ (i < nChanIn) then Except.error SplitError.AssertionFailed else
      let sum := st.1 + indata i
      let outputFlag := if st.2.1 = false ∧ inflag i = true then true else st.2.1
      Except.ok (sum, outputFlag, st.2.2 ++ [i]))
    (0, false, [])

/-- The two output cubes of the averaging branch of `splitMainTable`. -/
structure OutCubes (C : Type) where
  outdata : Nat → Nat → Nat → C
  outflag : Nat → Nat → Nat → Bool

/-- The body of the triple loop of `splitMainTable` (lines 462-482) for the cell
(`pol`, `destChan`, `r`); `avg sum width` stands for
`casa::Complex(sum.real() / width, sum.imag() / width)`. -/
def averageCell {C : Type} [Zero C] [Add C] (avg : C → Nat → C) (width nChanIn : Nat)
    (indata : Nat → Nat → Nat → C) (inflag : Nat → Nat → Nat → Bool)
    (pol destChan r : Nat) (out : OutCubes C) : Except SplitError (OutCubes C) :=
  match averageChannels width nChanIn destChan (fun i => indata pol i r) (fun i => inflag pol i r) with
  | Except.error e => Except.error e
  | Except.ok (sum, outputFlag, _) =>
    Except.ok
      { outdata := setAt3 out.outdata pol destChan r (avg sum width)
        outflag := setAt3 out.outflag pol destChan r outputFlag }

/-- The averaging branch of `splitMainTable` (`width != 1`, lines 455-482) for one block
of `nRowsThisIteration` rows: the cubes `outdata` and `outflag`. -/
def averageBlock {C : Type} [Zero C] [Add C] (avg : C → Nat → C)
    (startChan endChan width nPol nRowsThisIteration : Nat)
    (indata : Nat → Nat → Nat → C) (inflag : Nat → Nat → Nat → Bool) :
    Except SplitError (OutCubes C) :=
  let nChanIn := splitNChanIn startChan endChan
  let nChanOut := nChanIn / width
  (List.range nPol).foldlM
    (fun out pol =>
      (List.range nChanOut).foldlM
        (fun out destChan =>
          (List.range nRowsThisIteration).foldlM
            (fun out r => averageCell avg width nChanIn indata inflag pol destChan r out)
            out)
        out)
    { outdata := fun _ _ _ => 0, outflag := fun _ _ _ => false }

/-! ## Concrete inputs -/

/-- The scenario of the specification: 3 antennas, 1 beam, 4 polarisations, one slice of
4 channels, 6 baseline entries (in row order), identity beam map. -/
def exampleConfig : Config where
  nAntenna := 3
  localNChannels := 4
  nStokes := 4
  interval := 5000000
  itsMaxNBeams := 1
  baselineMapSize := 6
  idToAntenna1 := fun id =>
    match id with
    | 0 => 0 | 1 => 0 | 2 => 0 | 3 => 1 | 4 => 1 | 5 => 2 | _ => -1
  idToAntenna2 := fun id =>
    match id with
    | 0 => 0 | 1 => 1 | 2 => 2 | 3 => 1 | 4 => 2 | 5 => 2 | _ => -1
  idToStokes := fun id =>
    match id with
    | 0 => StokesTypes.XY | 1 => StokesTypes.XX | 2 => StokesTypes.XX
    | 3 => StokesTypes.XX | 4 => StokesTypes.YY | 5 => StokesTypes.YY
    | _ => StokesTypes.Undefined
  itsBeamIDMap := fun beam => (beam : Int)
  N_CHANNELS_PER_SLICE := 4
  askapDebug := false

/-- A datagram of beam 0, slice 0 with samples `(i + 1, 7)`. -/
def exampleDatagram (timestamp baselineid : Nat) : VisDatagram Int :=
  { timestamp := timestamp, baselineid := baselineid, beamid := 0, slice := 0,
    vis := fun i => { real := (i : Int) + 1, imag := 7 } }

/-- A chunk of the shape of `exampleConfig` with the polarisation axis filled in and all
row metadata zero (so that row 0 is the row of antennas (0, 0), beam 0). -/
def exampleChunk : VisChunk Int :=
  { (VisChunk.new 6 4 4 3 : VisChunk Int) with
    stokes := [StokesTypes.XX, StokesTypes.XY, StokesTypes.YX, StokesTypes.YY] }

/-- A configuration with 65536 antennas and one beam. -/
def wideConfig : Config :=
  { exampleConfig with nAntenna := 65536 }

/-- An answer of the Source without a signal. -/
def answer (vis : Option (VisDatagram Int)) : Pull Int :=
  { vis := vis, signal := false }

/-- Answers of the Source: a datagram of timestamp 10, a timeout, then a datagram of the
earlier timestamp 5 and a timeout. -/
def lateSeedAnswers : List (Pull Int) :=
  [answer (some (exampleDatagram 10 0)), answer none,
   answer (some (exampleDatagram 5 1)), answer none]

/-- Answers of the Source: a datagram of timestamp 10, a datagram of timestamp 11, then
timeouts. -/
def twoCycleAnswers : List (Pull Int) :=
  [answer (some (exampleDatagram 10 0)), answer (some (exampleDatagram 11 1)),
   answer none, answer none]

/-- Answers of the Source: a datagram of timestamp 10, a timeout, then another datagram of
timestamp 10 and a timeout. -/
def repeatedSeedAnswers : List (Pull Int) :=
  [answer (some (exampleDatagram 10 0)), answer none,
   answer (some (exampleDatagram 10 1)), answer none]

/-- A state of the collecting loop of cycle 10 in which a datagram of timestamp 5 is
buffered. -/
def collectingWithLateDatagram : Collecting Int :=
  { self := { NoMetadataSource.init Int with
      itsVis := some (exampleDatagram 5 1), itsLastTimestamp := 10 }
    chunk := exampleChunk
    receivedDatagrams := [(0, 0, 0)]
    datagramCount := 1
    datagramsIgnored := 0 }

/-- The chunk `createVisChunk` returns for `exampleConfig` and the timestamp 10. -/
def freshChunk : VisChunk Int :=
  match createVisChunk exampleConfig 10 with
  | Except.ok chunk => chunk
  | Except.error _ => exampleChunk

/-- A datagram of baseline 0 of `exampleConfig` (an autocorrelation at polarisation
index 1) in slice 1, which is the first slice beyond the 4 channels of the chunk. -/
def sliceOneDatagram : VisDatagram Int :=
  { exampleDatagram 10 0 with slice := 1 }

/-- The configuration `exampleConfig` with one more baseline entry, id 7, of antennas 5
and 5 (beyond the 3 antennas) with the polarisation product RR, which is not on the
axis of the chunk. -/
def strayConfig : Config :=
  { exampleConfig with
    idToAntenna1 := fun id => if id = 7 then 5 else exampleConfig.idToAntenna1 id
    idToAntenna2 := fun id => if id = 7 then 5 else exampleConfig.idToAntenna2 id
    idToStokes := fun id => if id = 7 then StokesTypes.RR else exampleConfig.idToStokes id }

/-- The configuration `exampleConfig` with a beam map that discards every raw beam. -/
def discardConfig : Config :=
  { exampleConfig with itsBeamIDMap := fun _ => -1 }

/-- Answers of the Source: a datagram of timestamp 10, then a timeout during which a
signal is delivered. -/
def signalDuringTimeoutAnswers : List (Pull Int) :=
  [answer (some (exampleDatagram 10 0)), { vis := none, signal := true }]

/-- The six datagrams of the scenario: one per baseline entry, timestamp 10. -/
def sixDatagrams : List (VisDatagram Int) :=
  (List.range 6).map (exampleDatagram 10)

/-- The first four datagrams of the scenario. -/
def fourDatagrams : List (VisDatagram Int) :=
  (List.range 4).map (exampleDatagram 10)

/-- A datagram of baseline 7 of `strayConfig` on the raw beam 1, which the identity beam
map sends to 1, outside the single beam of the configuration. -/
def strayBeamDatagram : VisDatagram Int :=
  { exampleDatagram 10 7 with beamid := 1 }

/-- A state of the collecting loop of cycle 10 in which a datagram of the unmapped
baseline 9 is buffered. -/
def collectingWithUnmappedDatagram : Collecting Int :=
  { self := { NoMetadataSource.init Int with
      itsVis := some (exampleDatagram 10 9), itsLastTimestamp := 10 }
    chunk := freshChunk
    receivedDatagrams := [(0, 0, 0)]
    datagramCount := 1
    datagramsIgnored := 0 }

/-- The chunk, the received-set and the accepted datagrams after `addVis` has been called
on the fresh chunk for the first four datagrams of the scenario. -/
def fourDatagramsResult : VisChunk Int × List DatagramIdentity × List (VisDatagram Int) :=
  (addVisSeq exampleConfig 3 fourDatagrams freshChunk []).getD (freshChunk, [], [])

/-- Answers of the Source: a datagram of the unmapped baseline 9 with timestamp 10, then
a timeout. -/
def rejectedSeedAnswers : List (Pull Int) :=
  [answer (some (exampleDatagram 10 9)), answer none]

/-- The configuration `exampleConfig` with 5 owned channels, which the 4 channels of a
slice do not divide. -/
def unevenConfig : Config :=
  { exampleConfig with localNChannels := 5 }

/-- The 2 x 3 integer matrix with the columns (1, 2), (3, 4), (5, 6). -/
def exampleMatrixA : ComplexDiffMatrix Int :=
  { itsNRows := 2, itsNColumns := 3, itsElements := [1, 2, 3, 4, 5, 6] }

/-- The 3 x 2 integer matrix with the columns (1, 0, 2), (0, 1, 3). -/
def exampleMatrixB : ComplexDiffMatrix Int :=
  { itsNRows := 3, itsNColumns := 2, itsElements := [1, 0, 2, 0, 1, 3] }

/-- Input flags of a block with 2 polarisations, 4 input channels and 1 row: only the
flag of polarisation 0, channel 3, row 0 is set. -/
def exampleInflag : Nat → Nat → Nat → Bool :=
  fun pol i r => decide (pol = 0 ∧ i = 3 ∧ r = 0)

/-- The configuration `exampleConfig` with 6 owned channels: the slice 1 (channels 4 to 7)
lies partly inside the chunk. -/
def sixChannelConfig : Config :=
  { exampleConfig with localNChannels := 6 }

/-- The chunk `createVisChunk` returns for `sixChannelConfig` and the timestamp 10. -/
def sixChannelChunk : VisChunk Int :=
  match createVisChunk sixChannelConfig 10 with
  | Except.ok chunk => chunk
  | Except.error _ => exampleChunk

/-- A datagram of baseline 1 of the scenario (antennas 0 and 1, XX, row 1, polarisation
index 0) in slice 1. -/
def sliceOneCrossDatagram : VisDatagram Int :=
  { exampleDatagram 10 1 with slice := 1 }

/-! ## The triple loop of `createVisChunk` -/


theorem triOffset_spec (N a : Nat) (h : a ≤ N) : 2 * triOffset N a + a * a = 2 * (a * N) + a := by
  induction a with
  | zero => simp [triOffset]
  | succ a ih =>
    have ih := ih (by omega)
    simp only [triOffset]
    have e1 : (a + 1) * (a + 1) = a * a + 2 * a + 1 := by ring
    have e2 : (a + 1) * N = a * N + N := by ring
    rw [e1, e2]
    omega

theorem triOffset_mono (N : Nat) {a b : Nat} (h : a ≤ b) : triOffset N a ≤ triOffset N b := by
  induction h with
  | refl => exact le_refl _
  | step _ ih => simp only [triOffset]; omega

theorem triOffset_full (N : Nat) : triOffset N N = N * (N + 1) / 2 := by
  have h := triOffset_spec N N (le_refl _)
  have e : N * (N + 1) = N * N + N := by ring
  rw [e]
  omega

theorem rowLoopBody_run {σ : Type} (nRow : Nat) (body : Nat → Nat → Nat → Nat → σ → σ)
    (beam ant1 : Nat) (hU : nRow < UINT) (k row0 a : Nat) (s : σ) (h : row0 + k ≤ nRow) :
    (List.range' a k).foldlM (rowLoopBody nRow body beam ant1) (row0, s) =
      Except.ok (row0 + k,
        ((List.range k).map (fun j => (row0 + j, beam, ant1, a + j))).foldl (applyEntry body) s) := by
  induction k with
  | zero => rfl
  | succ k ih =>
    have ih := ih (by omega)
    rw [List.range'_concat, List.foldlM_append, ih, List.range_succ, List.map_append,
      List.foldl_append]
    have hlt : row0 + k < nRow := by omega
    have hmod : (row0 + k + 1) % UINT = row0 + (k + 1) := by
      rw [Nat.mod_eq_of_lt (by omega)]; omega
    simp [rowLoopBody, hlt, hmod, applyEntry, bind, Except.bind, pure, Except.pure]

theorem rowLoopAnt2_run {σ : Type} (nRow N : Nat) (body : Nat → Nat → Nat → Nat → σ → σ)
    (beam : Nat) (hU : nRow < UINT) (m row0 : Nat) (s : σ) (hm : m ≤ N)
    (h : row0 + triOffset N m ≤ nRow) :
    (List.range m).foldlM (rowLoopAnt2 nRow N body beam) (row0, s) =
      Except.ok (row0 + triOffset N m,
        ((List.range m).flatMap (fun a1 => (List.range (N - a1)).map
          (fun j => (row0 + triOffset N a1 + j, beam, a1, a1 + j)))).foldl (applyEntry body) s) := by
  induction m with
  | zero => rfl
  | succ m ih =>
    have hle : row0 + triOffset N m + (N - m) ≤ nRow := by
      simpa [triOffset, Nat.add_assoc] using h
    have ih := ih (by omega) (by omega)
    rw [List.range_succ, List.foldlM_append, ih, List.flatMap_append, List.foldl_append]
    simp only [bind, Except.bind, List.foldlM_cons, List.foldlM_nil, rowLoopAnt2]
    rw [rowLoopBody_run nRow body beam m hU (N - m) _ m _ hle]
    simp [triOffset, Nat.add_assoc, pure, Except.pure]

theorem rowLoop_run {σ : Type} (nRow N B : Nat) (body : Nat → Nat → Nat → Nat → σ → σ)
    (init : σ) (hU : nRow < UINT) (h : B * triOffset N N ≤ nRow) :
    rowLoop nRow N B body init =
      Except.ok (B * triOffset N N, (rowList N B).foldl (applyEntry body) init) := by
  have key : ∀ m, m ≤ B →
      (List.range m).foldlM (rowLoopAnt1 nRow N body) (0, init) =
        Except.ok (m * triOffset N N,
          ((List.range m).flatMap (fun b => (List.range N).flatMap (fun a1 =>
            (List.range (N - a1)).map
              (fun j => (b * triOffset N N + triOffset N a1 + j, b, a1, a1 + j))))).foldl
            (applyEntry body) init) := by
    intro m
    induction m with
    | zero => intro _; simp; rfl
    | succ m ih =>
      intro hm
      have hmul : (m + 1) * triOffset N N ≤ B * triOffset N N := Nat.mul_le_mul_right _ hm
      have hsucc : (m + 1) * triOffset N N = m * triOffset N N + triOffset N N := by ring
      rw [List.range_succ, List.foldlM_append, ih (by omega), List.flatMap_append,
        List.foldl_append]
      simp only [bind, Except.bind, List.foldlM_cons, List.foldlM_nil, rowLoopAnt1]
      rw [rowLoopAnt2_run nRow N body m hU N _ _ (le_refl _) (by omega)]
      simp [hsucc, pure, Except.pure]
  exact key B (le_refl _)


theorem rowList_inner_rows (N row0 : Nat) (m : Nat) (t : Nat → Nat → Nat × Nat × Nat) :
    ((List.range m).flatMap (fun a1 => (List.range (N - a1)).map
      (fun j => (row0 + triOffset N a1 + j, t a1 j)))).map (fun e => e.1) =
      List.range' row0 (triOffset N m) := by
  induction m with
  | zero => rfl
  | succ m ih =>
    rw [List.range_succ, List.flatMap_append, List.map_append, ih]
    simp only [List.flatMap_cons, List.flatMap_nil, List.append_nil, List.map_map, triOffset]
    have : (List.range (N - m)).map ((fun e : Nat × Nat × Nat × Nat => e.1) ∘
        (fun j => (row0 + triOffset N m + j, t m j))) = List.range' (row0 + triOffset N m) (N - m) := by
      rw [List.range'_eq_map_range]; rfl
    rw [this]
    have h := List.range'_append row0 (triOffset N m) (N - m) 1
    simp only [Nat.one_mul] at h
    rw [h, Nat.add_comm (N - m)]

theorem rowList_rows (N B : Nat) :
    (rowList N B).map (fun e => e.1) = List.range (B * triOffset N N) := by
  have key : ∀ m, ((List.range m).flatMap (fun b => (List.range N).flatMap (fun a1 =>
      (List.range (N - a1)).map
        (fun j => (b * triOffset N N + triOffset N a1 + j, b, a1, a1 + j))))).map (fun e => e.1) =
      List.range' 0 (m * triOffset N N) := by
    intro m
    induction m with
    | zero => simp
    | succ m ih =>
      rw [List.range_succ, List.flatMap_append, List.map_append, ih]
      simp only [List.flatMap_cons, List.flatMap_nil, List.append_nil]
      rw [rowList_inner_rows N (m * triOffset N N) N (fun a1 j => (m, a1, a1 + j))]
      have h := List.range'_append 0 (m * triOffset N N) (triOffset N N) 1
      simp only [Nat.one_mul, Nat.zero_add] at h
      rw [h]
      congr 1
      ring
  rw [List.range_eq_range']
  exact key B

theorem mem_rowList (N B r b a1 a2 : Nat) :
    (r, b, a1, a2) ∈ rowList N B ↔
      b < B ∧ a1 ≤ a2 ∧ a2 < N ∧ r = b * triOffset N N + triOffset N a1 + (a2 - a1) := by
  simp only [rowList, List.mem_flatMap, List.mem_map, List.mem_range, Prod.mk.injEq]
  constructor
  · rintro ⟨b', hb', a', ha', j, hj, h1, h2, h3, h4⟩
    subst h2 h3
    refine ⟨hb', by omega, by omega, ?_⟩
    rw [← h1, ← h4]
    congr 1
    omega
  · rintro ⟨hb, h12, h2, hr⟩
    exact ⟨b, hb, a1, by omega, a2 - a1, by omega, hr.symm, rfl, rfl, by omega⟩

theorem calculateRow_eq (N b a1 a2 : Nat) (h12 : a1 ≤ a2) (h2 : a2 < N) :
    calculateRow a1 a2 b N = b * triOffset N N + triOffset N a1 + (a2 - a1) := by
  have hN := triOffset_spec N N (le_refl _)
  have ha := triOffset_spec N a1 (by omega)
  have hle : a1 * a1 ≤ a1 * N := Nat.mul_le_mul_left _ (by omega)
  have hle1 : a1 * 1 ≤ a1 * N := Nat.mul_le_mul_left _ (by omega)
  have e1 : b * N * (N + 1) = 2 * (b * triOffset N N) := by
    have : N * (N + 1) = 2 * triOffset N N := by
      have e : N * (N + 1) = N * N + N := by ring
      omega
    rw [Nat.mul_assoc, this]; ring
  have e2 : a1 * (a1 + 1) = a1 * a1 + a1 := by ring
  unfold calculateRow
  rw [e1, e2, Nat.mul_div_cancel_left _ (by decide : 0 < 2)]
  generalize b * triOffset N N = X
  omega


theorem rowLoopBody_fail {σ : Type} (nRow : Nat) (body : Nat → Nat → Nat → Nat → σ → σ)
    (beam ant1 : Nat) (hU : nRow < UINT) (k row0 a : Nat) (s : σ) (h0 : row0 ≤ nRow)
    (h : nRow < row0 + k) :
    (List.range' a k).foldlM (rowLoopBody nRow body beam ant1) (row0, s) =
      Except.error AskapError.RowIndexNotLessThanNRow := by
  obtain ⟨k2, hk⟩ : ∃ k2, k = (nRow - row0) + (k2 + 1) := ⟨k - (nRow - row0) - 1, by omega⟩
  have hsplit := List.range'_append a (nRow - row0) (k2 + 1) 1
  rw [Nat.add_comm (k2 + 1)] at hsplit
  rw [hk, ← hsplit, List.foldlM_append,
    rowLoopBody_run nRow body beam ant1 hU (nRow - row0) row0 a s (by omega)]
  have e : row0 + (nRow - row0) = nRow := by omega
  simp [List.range'_succ, rowLoopBody, e, bind, Except.bind]

theorem rowLoopAnt2_fail {σ : Type} (nRow N : Nat) (body : Nat → Nat → Nat → Nat → σ → σ)
    (beam : Nat) (hU : nRow < UINT) (m row0 : Nat) (s : σ) (hm : m ≤ N) (h0 : row0 ≤ nRow)
    (h : nRow < row0 + triOffset N m) :
    (List.range m).foldlM (rowLoopAnt2 nRow N body beam) (row0, s) =
      Except.error AskapError.RowIndexNotLessThanNRow := by
  induction m with
  | zero => simp [triOffset] at h; omega
  | succ m ih =>
    rw [List.range_succ, List.foldlM_append]
    by_cases hc : row0 + triOffset N m ≤ nRow
    · rw [rowLoopAnt2_run nRow N body beam hU m row0 s (by omega) hc]
      simp only [bind, Except.bind, List.foldlM_cons, List.foldlM_nil, rowLoopAnt2]
      rw [rowLoopBody_fail nRow body beam m hU (N - m) _ m _ hc
        (by simpa [triOffset, Nat.add_assoc] using h)]
    · rw [ih (by omega) (by omega)]
      rfl

theorem rowLoop_fail {σ : Type} (nRow N B : Nat) (body : Nat → Nat → Nat → Nat → σ → σ)
    (init : σ) (hU : nRow < UINT) (h : nRow < B * triOffset N N) :
    rowLoop nRow N B body init = Except.error AskapError.RowIndexNotLessThanNRow := by
  have key : ∀ m, nRow < m * triOffset N N →
      (List.range m).foldlM (rowLoopAnt1 nRow N body) (0, init) =
        Except.error AskapError.RowIndexNotLessThanNRow := by
    intro m
    induction m with
    | zero => intro h; simp at h
    | succ m ih =>
      intro hm
      have hsucc : (m + 1) * triOffset N N = m * triOffset N N + triOffset N N := by ring
      rw [List.range_succ, List.foldlM_append]
      by_cases hc : m * triOffset N N ≤ nRow
      · have hrun := rowLoop_run nRow N m body init hU hc
        unfold rowLoop at hrun
        rw [hrun]
        simp only [bind, Except.bind, List.foldlM_cons, List.foldlM_nil, rowLoopAnt1]
        rw [rowLoopAnt2_fail nRow N body m hU N _ _ (le_refl _) hc (by omega)]
      · rw [ih (by omega)]
        rfl
  exact key B h

/-- Folding `setRowMetadata` over row entries changes the four per-row vectors only. -/
theorem foldl_setRowMetadata_frame {F : Type} (L : List (Nat × Nat × Nat × Nat))
    (c : VisChunk F) :
    let c' := L.foldl (applyEntry setRowMetadata) c
    c'.nRow = c.nRow ∧ c'.nChannel = c.nChannel ∧ c'.nPol = c.nPol ∧ c'.nAntenna = c.nAntenna ∧
      c'.time = c.time ∧ c'.interval = c.interval ∧ c'.flag = c.flag ∧
      c'.visibility = c.visibility ∧ c'.stokes = c.stokes ∧ c'.scan = c.scan := by
  induction L generalizing c with
  | nil => simp
  | cons e L ih =>
    have h := ih (applyEntry setRowMetadata c e)
    simpa [applyEntry, setRowMetadata] using h

theorem foldl_setRowMetadata_notin {F : Type} (L : List (Nat × Nat × Nat × Nat))
    (c : VisChunk F) (r : Nat) (hr : r ∉ L.map (fun e => e.1)) :
    let c' := L.foldl (applyEntry setRowMetadata) c
    c'.antenna1 r = c.antenna1 r ∧ c'.antenna2 r = c.antenna2 r ∧
      c'.beam1 r = c.beam1 r ∧ c'.beam2 r = c.beam2 r := by
  induction L generalizing c with
  | nil => simp
  | cons e L ih =>
    simp only [List.map_cons, List.mem_cons, not_or] at hr
    have h := ih (applyEntry setRowMetadata c e) hr.2
    simp only [List.foldl_cons]
    simp only [applyEntry, setRowMetadata, setAt, hr.1, if_false] at h ⊢
    exact h

theorem foldl_setRowMetadata_at {F : Type} (L : List (Nat × Nat × Nat × Nat))
    (c : VisChunk F) (r b a1 a2 : Nat) (hnd : (L.map (fun e => e.1)).Nodup)
    (hmem : (r, b, a1, a2) ∈ L) :
    let c' := L.foldl (applyEntry setRowMetadata) c
    c'.antenna1 r = a1 ∧ c'.antenna2 r = a2 ∧ c'.beam1 r = b ∧ c'.beam2 r = b := by
  induction L generalizing c with
  | nil => simp at hmem
  | cons e L ih =>
    simp only [List.map_cons, List.nodup_cons] at hnd
    simp only [List.foldl_cons]
    rcases List.mem_cons.1 hmem with h | h
    · subst h
      have h := foldl_setRowMetadata_notin L (applyEntry setRowMetadata c (r, b, a1, a2)) r hnd.1
      simp only [applyEntry, setRowMetadata, setAt, if_true] at h ⊢
      exact h
    · exact ih _ hnd.2 h


theorem nRowOf_lt (cfg : Config) : nRowOf cfg < UINT :=
  Nat.mod_lt _ (by decide)

theorem nRowOf_eq (cfg : Config) (h1 : cfg.nAntenna * (cfg.nAntenna + 1) < 2 ^ 32)
    (h2 : cfg.itsMaxNBeams * (cfg.nAntenna * (cfg.nAntenna + 1) / 2) < 2 ^ 32) :
    nRowOf cfg = cfg.itsMaxNBeams * triOffset cfg.nAntenna cfg.nAntenna := by
  have hs : cfg.nAntenna + 1 < 2 ^ 32 := by
    rcases Nat.eq_zero_or_pos cfg.nAntenna with h | h
    · rw [h]; decide
    · calc cfg.nAntenna + 1 = 1 * (cfg.nAntenna + 1) := by ring
        _ ≤ cfg.nAntenna * (cfg.nAntenna + 1) := Nat.mul_le_mul_right _ h
        _ < 2 ^ 32 := h1
  unfold nRowOf UINT
  rw [Nat.mod_eq_of_lt hs, Nat.mod_eq_of_lt h1, triOffset_full, Nat.mul_comm,
    Nat.mod_eq_of_lt h2]

theorem createVisChunk_ok {F : Type} [Zero F] (cfg : Config) (timestamp : Nat)
    (hN : 0 < cfg.nAntenna) (hpol : cfg.nStokes = 4)
    (h : cfg.itsMaxNBeams * triOffset cfg.nAntenna cfg.nAntenna ≤ nRowOf cfg) :
    (createVisChunk cfg timestamp : Except AskapError (VisChunk F)) =
      Except.ok ((rowList cfg.nAntenna cfg.itsMaxNBeams).foldl (applyEntry setRowMetadata)
        (chunkBeforeRows cfg timestamp)) := by
  have hrun := rowLoop_run (nRowOf cfg) cfg.nAntenna cfg.itsMaxNBeams setRowMetadata
    (chunkBeforeRows cfg timestamp : VisChunk F) (nRowOf_lt cfg) h
  unfold createVisChunk
  simp only [hN, hpol, not_true_eq_false, if_false, gt_iff_lt]
  show (match rowLoop (nRowOf cfg) cfg.nAntenna cfg.itsMaxNBeams setRowMetadata
      (chunkBeforeRows cfg timestamp : VisChunk F) with
    | Except.error e => Except.error e
    | Except.ok (_, chunk) => Except.ok chunk) = _
  rw [hrun]

theorem createVisChunk_inv {F : Type} [Zero F] (cfg : Config) (timestamp : Nat) (c : VisChunk F)
    (h : createVisChunk cfg timestamp = Except.ok c) :
    0 < cfg.nAntenna ∧ cfg.nStokes = 4 ∧
      cfg.itsMaxNBeams * triOffset cfg.nAntenna cfg.nAntenna ≤ nRowOf cfg ∧
      c = (rowList cfg.nAntenna cfg.itsMaxNBeams).foldl (applyEntry setRowMetadata)
        (chunkBeforeRows cfg timestamp) := by
  by_cases hN : 0 < cfg.nAntenna
  · by_cases hpol : cfg.nStokes = 4
    · by_cases hfit : cfg.itsMaxNBeams * triOffset cfg.nAntenna cfg.nAntenna ≤ nRowOf cfg
      · rw [createVisChunk_ok cfg timestamp hN hpol hfit] at h
        exact ⟨hN, hpol, hfit, (Except.ok.inj h).symm⟩
      · exfalso
        have hfail := rowLoop_fail (nRowOf cfg) cfg.nAntenna cfg.itsMaxNBeams setRowMetadata
          (chunkBeforeRows cfg timestamp : VisChunk F) (nRowOf_lt cfg) (by omega)
        unfold createVisChunk at h
        simp only [hN, hpol, not_true_eq_false, if_false, gt_iff_lt] at h
        change (match rowLoop (nRowOf cfg) cfg.nAntenna cfg.itsMaxNBeams setRowMetadata
            (chunkBeforeRows cfg timestamp : VisChunk F) with
          | Except.error e => Except.error e
          | Except.ok (_, chunk) => Except.ok chunk) = _ at h
        rw [hfail] at h
        cases h
    · exfalso
      unfold createVisChunk at h
      simp [hN, hpol] at h
  · exfalso
    unfold createVisChunk at h
    simp [hN] at h


theorem createVisChunk_fail {F : Type} [Zero F] (cfg : Config) (timestamp : Nat)
    (hN : 0 < cfg.nAntenna) (hpol : cfg.nStokes = 4)
    (h : nRowOf cfg < cfg.itsMaxNBeams * triOffset cfg.nAntenna cfg.nAntenna) :
    (createVisChunk cfg timestamp : Except AskapError (VisChunk F)) =
      Except.error AskapError.RowIndexNotLessThanNRow := by
  have hfail := rowLoop_fail (nRowOf cfg) cfg.nAntenna cfg.itsMaxNBeams setRowMetadata
    (chunkBeforeRows cfg timestamp : VisChunk F) (nRowOf_lt cfg) h
  unfold createVisChunk
  simp only [hN, hpol, not_true_eq_false, if_false, gt_iff_lt]
  show (match rowLoop (nRowOf cfg) cfg.nAntenna cfg.itsMaxNBeams setRowMetadata
      (chunkBeforeRows cfg timestamp : VisChunk F) with
    | Except.error e => Except.error e
    | Except.ok (_, chunk) => Except.ok chunk) = _
  rw [hfail]

theorem createVisChunk_returns {F : Type} [Zero F] (cfg : Config) (timestamp : Nat)
    (hN : 0 < cfg.nAntenna) (hpol : cfg.nStokes = 4)
    (h1 : cfg.nAntenna * (cfg.nAntenna + 1) < 2 ^ 32)
    (h2 : cfg.itsMaxNBeams * (cfg.nAntenna * (cfg.nAntenna + 1) / 2) < 2 ^ 32) :
    ∃ chunk : VisChunk F, createVisChunk cfg timestamp = Except.ok chunk :=
  ⟨_, createVisChunk_ok cfg timestamp hN hpol (le_of_eq (nRowOf_eq cfg h1 h2).symm)⟩

theorem foldl_log (L init : List (Nat × Nat × Nat × Nat)) :
    L.foldl (applyEntry (fun row beam ant1 ant2 log => log ++ [(row, beam, ant1, ant2)])) init =
      init ++ L := by
  induction L generalizing init with
  | nil => simp
  | cons e L ih => simp [ih, applyEntry]

theorem rowAssignments_ok (nRow N B : Nat) (hU : nRow < UINT) (h : B * triOffset N N ≤ nRow) :
    rowAssignments nRow N B = Except.ok (B * triOffset N N, rowList N B) := by
  unfold rowAssignments
  rw [rowLoop_run nRow N B _ [] hU h, foldl_log]
  rfl

theorem rowList_triples_nodup (N B : Nat) : ((rowList N B).map (fun e => e.2)).Nodup := by
  have hrows : ((rowList N B).map (fun e => e.1)).Nodup := by
    rw [rowList_rows]; exact List.nodup_range _
  have hmap : (rowList N B).map (fun e => e.1) =
      ((rowList N B).map (fun e => e.2)).map
        (fun t => t.1 * triOffset N N + triOffset N t.2.1 + (t.2.2 - t.2.1)) := by
    rw [List.map_map]
    apply List.map_congr_left
    rintro ⟨r, b, a1, a2⟩ he
    exact ((mem_rowList N B r b a1 a2).1 he).2.2.2
  rw [hmap] at hrows
  exact List.Nodup.of_map _ hrows

theorem mem_rowList_triples (N B b a1 a2 : Nat) :
    (b, a1, a2) ∈ (rowList N B).map (fun e => e.2) ↔ b < B ∧ a1 ≤ a2 ∧ a2 < N := by
  constructor
  · intro h
    obtain ⟨⟨r, b', a1', a2'⟩, he, heq⟩ := List.mem_map.1 h
    simp only [Prod.mk.injEq] at heq
    obtain ⟨rfl, rfl, rfl⟩ := heq
    have := (mem_rowList N B r b' a1' a2').1 he
    exact ⟨this.1, this.2.1, this.2.2.1⟩
  · rintro ⟨hb, h12, h2⟩
    exact List.mem_map.2 ⟨(b * triOffset N N + triOffset N a1 + (a2 - a1), b, a1, a2),
      (mem_rowList N B _ b a1 a2).2 ⟨hb, h12, h2, rfl⟩, rfl⟩

/-! ## `addVis` -/

theorem VisChunk.SameHeader.refl {F : Type} (c : VisChunk F) : c.SameHeader c := by
  simp [VisChunk.SameHeader]

theorem VisChunk.SameHeader.trans {F : Type} {c1 c2 c3 : VisChunk F}
    (h12 : c1.SameHeader c2) (h23 : c2.SameHeader c3) : c1.SameHeader c3 := by
  simp only [VisChunk.SameHeader] at *
  obtain ⟨a1, a2, a3, a4, a5, a6, a7, a8, a9, a10, a11, a12⟩ := h12
  obtain ⟨b1, b2, b3, b4, b5, b6, b7, b8, b9, b10, b11, b12⟩ := h23
  exact ⟨b1.trans a1, b2.trans a2, b3.trans a3, b4.trans a4, b5.trans a5, b6.trans a6,
    b7.trans a7, b8.trans a8, b9.trans a9, b10.trans a10, b11.trans a11, b12.trans a12⟩

theorem addVisChannel_header {F : Type} [Neg F] (cfg : Config) (vis : VisDatagram F)
    (antenna1 antenna2 row chanOffset polidx chan : Nat) (chunk : VisChunk F) :
    chunk.SameHeader (addVisChannel cfg vis antenna1 antenna2 row chanOffset polidx chan chunk).2 := by
  unfold addVisChannel
  split_ifs <;> simp [VisChunk.SameHeader]

theorem addVisChannels_header {F : Type} [Neg F] (cfg : Config) (vis : VisDatagram F)
    (antenna1 antenna2 row chanOffset polidx : Nat) (chunk : VisChunk F) :
    chunk.SameHeader (addVisChannels cfg vis antenna1 antenna2 row chanOffset polidx chunk).2 := by
  unfold addVisChannels
  generalize List.range cfg.N_CHANNELS_PER_SLICE = l
  suffices h : ∀ (st : Except AskapError Unit × VisChunk F), chunk.SameHeader st.2 →
      chunk.SameHeader (l.foldl (fun st chan =>
        match st.1 with
        | Except.error _ => st
        | Except.ok _ =>
          addVisChannel cfg vis antenna1 antenna2 row chanOffset polidx chan st.2) st).2 from
    h _ (VisChunk.SameHeader.refl chunk)
  induction l with
  | nil => intro st h; exact h
  | cons a l ih =>
    intro st h
    simp only [List.foldl_cons]
    apply ih
    split
    · exact h
    · exact h.trans (addVisChannel_header cfg vis antenna1 antenna2 row chanOffset polidx a st.2)

/-- What `addVis` does once the checks before the duplicate check have passed. -/
theorem addVis_of_reaches {F : Type} [Neg F] (cfg : Config) (chunk : VisChunk F)
    (vis : VisDatagram F) (nAntenna : Nat) (recv : List DatagramIdentity)
    (h : reachesDuplicateCheck cfg chunk.stokes nAntenna (identityOf vis)) :
    addVis cfg chunk vis nAntenna recv =
      if identityOf vis ∈ recv then ⟨Except.ok false, chunk, recv⟩ else
      if ¬ (chunk.antenna1 (rowOf cfg nAntenna vis) = toUInt32 (cfg.idToAntenna1 vis.baselineid)) ∨
          ¬ (chunk.antenna2 (rowOf cfg nAntenna vis) = toUInt32 (cfg.idToAntenna2 vis.baselineid)) ∨
          ¬ (chunk.beam1 (rowOf cfg nAntenna vis) = toUInt32 (cfg.itsBeamIDMap vis.beamid)) ∨
          ¬ (chunk.beam2 (rowOf cfg nAntenna vis) = toUInt32 (cfg.itsBeamIDMap vis.beamid)) then
        ⟨Except.error AskapError.IndexingFailedToFindRow, chunk, identityOf vis :: recv⟩
      else
        match addVisChannels cfg vis (toUInt32 (cfg.idToAntenna1 vis.baselineid))
            (toUInt32 (cfg.idToAntenna2 vis.baselineid)) (rowOf cfg nAntenna vis)
            (vis.slice * cfg.N_CHANNELS_PER_SLICE % UINT) (polOf cfg chunk vis) chunk with
        | (Except.error e, chunk) => ⟨Except.error e, chunk, identityOf vis :: recv⟩
        | (Except.ok _, chunk) => ⟨Except.ok true, chunk, identityOf vis :: recv⟩ := by
  obtain ⟨h1, h2, h3, h4, h5, h6, h7, h8, h9⟩ := h
  simp only [identityOf] at h1 h2 h3 h4 h5 h6 h7 h8 h9
  unfold addVis
  dsimp only
  rw [if_neg h1, if_neg h2, if_neg (not_not_intro h3), if_neg h4, if_neg (not_not_intro h5),
    if_neg (not_not_intro h6), if_neg (not_not_intro h7), if_neg (not_not_intro h8),
    if_neg (not_not_intro h9)]
  rfl

/-- What `addVis` does when one of the checks before the duplicate check does not pass:
it leaves the chunk and the received-set alone and does not return `true`. -/
theorem addVis_of_not_reaches {F : Type} [Neg F] (cfg : Config) (chunk : VisChunk F)
    (vis : VisDatagram F) (nAntenna : Nat) (recv : List DatagramIdentity)
    (h : ¬ reachesDuplicateCheck cfg chunk.stokes nAntenna (identityOf vis)) :
    (addVis cfg chunk vis nAntenna recv).chunk = chunk ∧
      (addVis cfg chunk vis nAntenna recv).receivedDatagrams = recv ∧
      (addVis cfg chunk vis nAntenna recv).outcome ≠ Except.ok true := by
  unfold addVis
  dsimp only
  by_cases h1 : cfg.idToAntenna1 vis.baselineid = -1 ∨ cfg.idToAntenna2 vis.baselineid = -1 ∨
      cfg.idToStokes vis.baselineid = StokesTypes.Undefined
  · rw [if_pos h1]; simp
  rw [if_neg h1]
  by_cases h2 : cfg.itsBeamIDMap vis.beamid < 0
  · rw [if_pos h2]; simp
  rw [if_neg h2]
  by_cases h3 : cfg.itsBeamIDMap vis.beamid < toInt32 cfg.itsMaxNBeams
  swap
  · rw [if_pos h3]; simp
  rw [if_neg (not_not_intro h3)]
  by_cases h4 : findPolIdx chunk.stokes (cfg.idToStokes vis.baselineid) < 0
  · rw [if_pos h4]; simp
  rw [if_neg h4]
  by_cases h5 : toUInt32 (cfg.idToAntenna1 vis.baselineid) < nAntenna
  swap
  · rw [if_pos h5]; simp
  rw [if_neg (not_not_intro h5)]
  by_cases h6 : toUInt32 (cfg.idToAntenna2 vis.baselineid) < nAntenna
  swap
  · rw [if_pos h6]; simp
  rw [if_neg (not_not_intro h6)]
  by_cases h7 : toUInt32 (cfg.itsBeamIDMap vis.beamid) < cfg.itsMaxNBeams
  swap
  · rw [if_pos h7]; simp
  rw [if_neg (not_not_intro h7)]
  by_cases h8 : findPolIdx chunk.stokes (cfg.idToStokes vis.baselineid) < 4
  swap
  · rw [if_pos h8]; simp
  rw [if_neg (not_not_intro h8)]
  by_cases h9 : vis.slice < 16
  swap
  · rw [if_pos h9]; simp
  exact absurd ⟨h1, h2, h3, h4, h5, h6, h7, h8, h9⟩ h

theorem addVis_header {F : Type} [Neg F] (cfg : Config) (chunk : VisChunk F)
    (vis : VisDatagram F) (nAntenna : Nat) (recv : List DatagramIdentity) :
    chunk.SameHeader (addVis cfg chunk vis nAntenna recv).chunk := by
  by_cases h : reachesDuplicateCheck cfg chunk.stokes nAntenna (identityOf vis)
  · rw [addVis_of_reaches cfg chunk vis nAntenna recv h]
    have hc := addVisChannels_header cfg vis (toUInt32 (cfg.idToAntenna1 vis.baselineid))
      (toUInt32 (cfg.idToAntenna2 vis.baselineid)) (rowOf cfg nAntenna vis)
      (vis.slice * cfg.N_CHANNELS_PER_SLICE % UINT) (polOf cfg chunk vis) chunk
    split_ifs
    · exact VisChunk.SameHeader.refl chunk
    · exact VisChunk.SameHeader.refl chunk
    · split
      · rename_i e c' heq
        rw [heq] at hc; exact hc
      · rename_i u c' heq
        rw [heq] at hc; exact hc
  · rw [(addVis_of_not_reaches cfg chunk vis nAntenna recv h).1]
    exact VisChunk.SameHeader.refl chunk


theorem addVis_of_not_reaches_outcome {F : Type} [Neg F] (cfg : Config) (chunk : VisChunk F)
    (vis : VisDatagram F) (nAntenna : Nat) (recv : List DatagramIdentity)
    (h : ¬ reachesDuplicateCheck cfg chunk.stokes nAntenna (identityOf vis)) :
    (addVis cfg chunk vis nAntenna recv).outcome ≠ Except.error AskapError.IndexingFailedToFindRow ∧
      (addVis cfg chunk vis nAntenna recv).outcome ≠ Except.error AskapError.ChannelIndexOverflow ∧
      (addVis cfg chunk vis nAntenna recv).outcome ≠ Except.error AskapError.DebugAssertPolIdx := by
  unfold addVis
  dsimp only
  by_cases h1 : cfg.idToAntenna1 vis.baselineid = -1 ∨ cfg.idToAntenna2 vis.baselineid = -1 ∨
      cfg.idToStokes vis.baselineid = StokesTypes.Undefined
  · rw [if_pos h1]; simp
  rw [if_neg h1]
  by_cases h2 : cfg.itsBeamIDMap vis.beamid < 0
  · rw [if_pos h2]; simp
  rw [if_neg h2]
  by_cases h3 : cfg.itsBeamIDMap vis.beamid < toInt32 cfg.itsMaxNBeams
  swap
  · rw [if_pos h3]; simp
  rw [if_neg (not_not_intro h3)]
  by_cases h4 : findPolIdx chunk.stokes (cfg.idToStokes vis.baselineid) < 0
  · rw [if_pos h4]; simp
  rw [if_neg h4]
  by_cases h5 : toUInt32 (cfg.idToAntenna1 vis.baselineid) < nAntenna
  swap
  · rw [if_pos h5]; simp
  rw [if_neg (not_not_intro h5)]
  by_cases h6 : toUInt32 (cfg.idToAntenna2 vis.baselineid) < nAntenna
  swap
  · rw [if_pos h6]; simp
  rw [if_neg (not_not_intro h6)]
  by_cases h7 : toUInt32 (cfg.itsBeamIDMap vis.beamid) < cfg.itsMaxNBeams
  swap
  · rw [if_pos h7]; simp
  rw [if_neg (not_not_intro h7)]
  by_cases h8 : findPolIdx chunk.stokes (cfg.idToStokes vis.baselineid) < 4
  swap
  · rw [if_pos h8]; simp
  rw [if_neg (not_not_intro h8)]
  by_cases h9 : vis.slice < 16
  swap
  · rw [if_pos h9]; simp
  exact absurd ⟨h1, h2, h3, h4, h5, h6, h7, h8, h9⟩ h

theorem addVisChannel_error {F : Type} [Neg F] (cfg : Config) (vis : VisDatagram F)
    (antenna1 antenna2 row chanOffset polidx chan : Nat) (chunk : VisChunk F) (e : AskapError)
    (h : (addVisChannel cfg vis antenna1 antenna2 row chanOffset polidx chan chunk).1 =
      Except.error e) :
    e = AskapError.ChannelIndexOverflow ∨ e = AskapError.DebugAssertPolIdx := by
  unfold addVisChannel at h
  split_ifs at h <;> simp at h <;> simp [← h]

theorem addVisChannels_error {F : Type} [Neg F] (cfg : Config) (vis : VisDatagram F)
    (antenna1 antenna2 row chanOffset polidx : Nat) (chunk : VisChunk F) (e : AskapError)
    (h : (addVisChannels cfg vis antenna1 antenna2 row chanOffset polidx chunk).1 =
      Except.error e) :
    e = AskapError.ChannelIndexOverflow ∨ e = AskapError.DebugAssertPolIdx := by
  unfold addVisChannels at h
  generalize List.range cfg.N_CHANNELS_PER_SLICE = l at h
  suffices hs : ∀ (st : Except AskapError Unit × VisChunk F),
      (st.1 = Except.error e → e = AskapError.ChannelIndexOverflow ∨ e = AskapError.DebugAssertPolIdx) →
      (l.foldl (fun st chan =>
        match st.1 with
        | Except.error _ => st
        | Except.ok _ =>
          addVisChannel cfg vis antenna1 antenna2 row chanOffset polidx chan st.2) st).1 =
        Except.error e →
      e = AskapError.ChannelIndexOverflow ∨ e = AskapError.DebugAssertPolIdx from
    hs _ (by intro h0; cases h0) h
  clear h
  induction l with
  | nil => intro st h0 h1; exact h0 h1
  | cons a l ih =>
    intro st h0 h1
    simp only [List.foldl_cons] at h1
    refine ih _ ?_ h1
    split
    · exact h0
    · exact addVisChannel_error cfg vis antenna1 antenna2 row chanOffset polidx a st.2 e

/-- Every identity in the received-set of a cycle has passed the checks that precede
the duplicate check, and the polarisation axis of the chunk does not change. -/
theorem CycleState.invariant {F : Type} [Neg F] {cfg : Config} {nAntenna : Nat}
    {chunk : VisChunk F} {recv : List DatagramIdentity}
    (h : CycleState cfg nAntenna chunk recv) :
    ∀ id ∈ recv, reachesDuplicateCheck cfg chunk.stokes nAntenna id := by
  induction h with
  | start c => intro id hid; simp at hid
  | step vis hprev ih =>
    rename_i c r
    have hhead := addVis_header cfg c vis nAntenna r
    have hst : (addVis cfg c vis nAntenna r).chunk.stokes = c.stokes := hhead.2.2.2.2.2.2.1
    rw [hst]
    by_cases hr : reachesDuplicateCheck cfg c.stokes nAntenna (identityOf vis)
    · intro id hid
      rw [addVis_of_reaches cfg c vis nAntenna r hr] at hid
      have hcases : id ∈ r ∨ id = identityOf vis := by
        split_ifs at hid
        · exact Or.inl hid
        · rcases List.mem_cons.1 hid with h | h
          · exact Or.inr h
          · exact Or.inl h
        · split at hid
          all_goals
            rcases List.mem_cons.1 hid with h | h
            · exact Or.inr h
            · exact Or.inl h
      rcases hcases with h | h
      · exact ih id h
      · rw [h]; exact hr
    · intro id hid
      rw [(addVis_of_not_reaches cfg c vis nAntenna r hr).2.1] at hid
      exact ih id hid

/-- C3. Re-inserting a previously seen identity is rejected without effect: in every state
(chunk, received-set) of a cycle, a datagram whose identity (baselineid, slice, beamid) is in
the received-set makes `addVis` return `false` without raising, and the chunk (every value,
every flag) and the received-set are unchanged. -/
theorem addVis_duplicate_rejected {F : Type} [Neg F] (cfg : Config) (nAntenna : Nat)
    (chunk : VisChunk F) (recv : List DatagramIdentity)
    (hcycle : CycleState cfg nAntenna chunk recv) (vis : VisDatagram F)
    (hseen : (vis.baselineid, vis.slice, vis.beamid) ∈ recv) :
    addVis cfg chunk vis nAntenna recv =
      { outcome := Except.ok false, chunk := chunk, receivedDatagrams := recv } := by
  have hr := hcycle.invariant _ hseen
  rw [addVis_of_reaches cfg chunk vis nAntenna recv hr,
    if_pos (show identityOf vis ∈ recv from hseen)]

theorem addVis_duplicate_rejected_witness :
    (addVis exampleConfig exampleChunk (exampleDatagram 10 0) 3 []).outcome = Except.ok true ∧
    (addVis exampleConfig exampleChunk (exampleDatagram 10 0) 3 []).receivedDatagrams = [(0, 0, 0)] ∧
    addVis exampleConfig (addVis exampleConfig exampleChunk (exampleDatagram 10 0) 3 []).chunk
        (exampleDatagram 11 0) 3
        (addVis exampleConfig exampleChunk (exampleDatagram 10 0) 3 []).receivedDatagrams =
      { outcome := Except.ok false,
        chunk := (addVis exampleConfig exampleChunk (exampleDatagram 10 0) 3 []).chunk,
        receivedDatagrams :=
          (addVis exampleConfig exampleChunk (exampleDatagram 10 0) 3 []).receivedDatagrams } :=
  ⟨by rfl, by rfl,
    addVis_duplicate_rejected exampleConfig 3 _ _
      (CycleState.step (exampleDatagram 10 0) (CycleState.start exampleChunk))
      (exampleDatagram 11 0) (by decide)⟩


/-! ## Claims about `createVisChunk` -/

/-- C1 (counterexample). With 65536 antennas and one beam the 32-bit product
`nAntenna * (nAntenna + 1)` wraps: `createVisChunk` computes `nRow = 32768` although the
loop visits `1 * 65536 * 65537 / 2 = 2147516416` triples, and the check `row < nRow`
inside the loop fails. -/
theorem rowLoop_check_fails_for_wide_array :
    wideConfig.nAntenna = 65536 ∧ wideConfig.itsMaxNBeams = 1 ∧ wideConfig.nStokes = 4 ∧
    nRowOf wideConfig = 32768 ∧
    wideConfig.itsMaxNBeams * wideConfig.nAntenna * (wideConfig.nAntenna + 1) / 2 = 2147516416 ∧
    rowAssignments (nRowOf wideConfig) wideConfig.nAntenna wideConfig.itsMaxNBeams =
      Except.error AskapError.RowIndexNotLessThanNRow ∧
    (createVisChunk wideConfig 0 : Except AskapError (VisChunk Int)) =
      Except.error AskapError.RowIndexNotLessThanNRow := by
  have hn : nRowOf wideConfig = 32768 := by decide
  have ht : nRowOf wideConfig <
      wideConfig.itsMaxNBeams * triOffset wideConfig.nAntenna wideConfig.nAntenna := by
    rw [hn, triOffset_full]; decide
  refine ⟨rfl, rfl, rfl, hn, by decide, ?_, ?_⟩
  · exact rowLoop_fail _ _ _ _ _ (nRowOf_lt wideConfig) ht
  · exact createVisChunk_fail wideConfig 0 (by decide) rfl ht

/-- C1 (amended). For every antenna count `N ≥ 1` and beam count `B` whose row count fits
`casa::uInt` (`N * (N + 1) < 2 ^ 32` and `B * (N * (N + 1) / 2) < 2 ^ 32`), the triple loop of
`createVisChunk` never fails its check `row < nRow`, and the rows it assigns, recorded in
order as `(row, beam, ant1, ant2)`, are a bijection between the triples with
`beam < B`, `ant1 ≤ ant2 < N` and `[0, nRow)`, `nRow = B * N * (N + 1) / 2`: the rows are
`0, 1, ..., nRow - 1`, each once, no triple occurs twice, and the triples that occur are
exactly those of the set.  The chunk returned is the one obtained by writing the metadata of
these assignments, one row each. -/
theorem rowLoop_assigns_rows_bijectively {F : Type} [Zero F] (cfg : Config) (timestamp : Nat)
    (hN : 1 ≤ cfg.nAntenna) (hpol : cfg.nStokes = 4)
    (h1 : cfg.nAntenna * (cfg.nAntenna + 1) < 2 ^ 32)
    (h2 : cfg.itsMaxNBeams * (cfg.nAntenna * (cfg.nAntenna + 1) / 2) < 2 ^ 32) :
    nRowOf cfg = cfg.itsMaxNBeams * cfg.nAntenna * (cfg.nAntenna + 1) / 2 ∧
    ∃ log : List (Nat × Nat × Nat × Nat),
      rowAssignments (nRowOf cfg) cfg.nAntenna cfg.itsMaxNBeams = Except.ok (nRowOf cfg, log) ∧
      log.map (fun e => e.1) = List.range (nRowOf cfg) ∧
      (log.map (fun e => e.2)).Nodup ∧
      (∀ beam ant1 ant2, (beam, ant1, ant2) ∈ log.map (fun e => e.2) ↔
        beam < cfg.itsMaxNBeams ∧ ant1 ≤ ant2 ∧ ant2 < cfg.nAntenna) ∧
      ∃ chunk : VisChunk F, createVisChunk cfg timestamp = Except.ok chunk ∧
        chunk.nRow = nRowOf cfg ∧
        chunk = log.foldl (applyEntry setRowMetadata) (chunkBeforeRows cfg timestamp) := by
  have hrow := nRowOf_eq cfg h1 h2
  have hle : cfg.itsMaxNBeams * triOffset cfg.nAntenna cfg.nAntenna ≤ nRowOf cfg :=
    le_of_eq hrow.symm
  refine ⟨?_, rowList cfg.nAntenna cfg.itsMaxNBeams, ?_, ?_, ?_, ?_, ?_⟩
  · rw [hrow, triOffset_full, Nat.mul_assoc]
    have hev : 2 ∣ cfg.nAntenna * (cfg.nAntenna + 1) :=
      (Nat.even_mul_succ_self cfg.nAntenna).two_dvd
    exact (Nat.mul_div_assoc _ hev).symm
  · rw [rowAssignments_ok _ _ _ (nRowOf_lt cfg) hle, hrow]
  · rw [rowList_rows, hrow]
  · exact rowList_triples_nodup _ _
  · intro beam ant1 ant2
    exact mem_rowList_triples _ _ _ _ _
  · refine ⟨_, createVisChunk_ok cfg timestamp hN hpol hle, ?_, rfl⟩
    exact (foldl_setRowMetadata_frame _ _).1

theorem rowLoop_assigns_rows_bijectively_witness :
    (1 ≤ exampleConfig.nAntenna ∧ exampleConfig.nStokes = 4 ∧
      exampleConfig.nAntenna * (exampleConfig.nAntenna + 1) < 2 ^ 32 ∧
      exampleConfig.itsMaxNBeams * (exampleConfig.nAntenna * (exampleConfig.nAntenna + 1) / 2) <
        2 ^ 32) ∧
    (nRowOf exampleConfig =
        exampleConfig.itsMaxNBeams * exampleConfig.nAntenna * (exampleConfig.nAntenna + 1) / 2 ∧
      ∃ log : List (Nat × Nat × Nat × Nat),
        rowAssignments (nRowOf exampleConfig) exampleConfig.nAntenna exampleConfig.itsMaxNBeams =
          Except.ok (nRowOf exampleConfig, log) ∧
        log.map (fun e => e.1) = List.range (nRowOf exampleConfig) ∧
        (log.map (fun e => e.2)).Nodup ∧
        (∀ beam ant1 ant2, (beam, ant1, ant2) ∈ log.map (fun e => e.2) ↔
          beam < exampleConfig.itsMaxNBeams ∧ ant1 ≤ ant2 ∧ ant2 < exampleConfig.nAntenna) ∧
        ∃ chunk : VisChunk Int, createVisChunk exampleConfig 100 = Except.ok chunk ∧
          chunk.nRow = nRowOf exampleConfig ∧
          chunk = log.foldl (applyEntry setRowMetadata) (chunkBeforeRows exampleConfig 100)) :=
  ⟨⟨by decide, by decide, by decide, by decide⟩,
    rowLoop_assigns_rows_bijectively exampleConfig 100 (by decide) (by decide) (by decide)
      (by decide)⟩

/-- C4. Every chunk returned by `createVisChunk` has the shape
(`nRow`, `nChannel`, 4) computed from the configuration and, for every row `< nRow`, channel
`< nChannel` and polarisation index `< 4`, the flag set and the visibility equal to zero. -/
theorem createVisChunk_all_flagged_and_zero {F : Type} [Zero F] (cfg : Config) (timestamp : Nat)
    (chunk : VisChunk F) (h : createVisChunk cfg timestamp = Except.ok chunk) :
    chunk.nRow = nRowOf cfg ∧ chunk.nChannel = cfg.localNChannels ∧ chunk.nPol = 4 ∧
    ∀ row chan pol, row < chunk.nRow → chan < chunk.nChannel → pol < 4 →
      chunk.flag row chan pol = true ∧ chunk.visibility row chan pol = 0 := by
  obtain ⟨_, _, _, hc⟩ := createVisChunk_inv cfg timestamp chunk h
  have hf := foldl_setRowMetadata_frame (rowList cfg.nAntenna cfg.itsMaxNBeams)
    (chunkBeforeRows cfg timestamp : VisChunk F)
  rw [← hc] at hf
  obtain ⟨f1, f2, f3, _, _, _, f7, f8, _, _⟩ := hf
  refine ⟨f1, f2, f3, ?_⟩
  intro row chan pol _ _ _
  rw [f7, f8]
  exact ⟨rfl, rfl⟩

theorem createVisChunk_all_flagged_and_zero_witness :
    ∃ chunk : VisChunk Int, createVisChunk exampleConfig 100 = Except.ok chunk ∧
      (chunk.nRow = nRowOf exampleConfig ∧ chunk.nChannel = exampleConfig.localNChannels ∧
        chunk.nPol = 4 ∧
        ∀ row chan pol, row < chunk.nRow → chan < chunk.nChannel → pol < 4 →
          chunk.flag row chan pol = true ∧ chunk.visibility row chan pol = 0) := by
  obtain ⟨chunk, hc⟩ : ∃ chunk : VisChunk Int, createVisChunk exampleConfig 100 = Except.ok chunk :=
    createVisChunk_returns exampleConfig 100 (by decide) (by decide) (by decide) (by decide)
  exact ⟨chunk, hc, createVisChunk_all_flagged_and_zero exampleConfig 100 chunk hc⟩


theorem createVisChunk_metadata {F : Type} [Zero F] (cfg : Config) (timestamp : Nat)
    (chunk : VisChunk F) (h : createVisChunk cfg timestamp = Except.ok chunk)
    (ant1 ant2 beam : Nat) (h12 : ant1 ≤ ant2) (h2 : ant2 < cfg.nAntenna)
    (hb : beam < cfg.itsMaxNBeams) :
    calculateRow ant1 ant2 beam cfg.nAntenna < chunk.nRow ∧
      chunk.antenna1 (calculateRow ant1 ant2 beam cfg.nAntenna) = ant1 ∧
      chunk.antenna2 (calculateRow ant1 ant2 beam cfg.nAntenna) = ant2 ∧
      chunk.beam1 (calculateRow ant1 ant2 beam cfg.nAntenna) = beam ∧
      chunk.beam2 (calculateRow ant1 ant2 beam cfg.nAntenna) = beam := by
  obtain ⟨_, _, hfit, hc⟩ := createVisChunk_inv cfg timestamp chunk h
  have hmem : (calculateRow ant1 ant2 beam cfg.nAntenna, beam, ant1, ant2) ∈
      rowList cfg.nAntenna cfg.itsMaxNBeams :=
    (mem_rowList _ _ _ _ _ _).2 ⟨hb, h12, h2, calculateRow_eq _ _ _ _ h12 h2⟩
  have hnd : ((rowList cfg.nAntenna cfg.itsMaxNBeams).map (fun e => e.1)).Nodup := by
    rw [rowList_rows]; exact List.nodup_range _
  have hat := foldl_setRowMetadata_at (rowList cfg.nAntenna cfg.itsMaxNBeams)
    (chunkBeforeRows cfg timestamp : VisChunk F) _ _ _ _ hnd hmem
  have hfr := (foldl_setRowMetadata_frame (rowList cfg.nAntenna cfg.itsMaxNBeams)
    (chunkBeforeRows cfg timestamp : VisChunk F)).1
  rw [← hc] at hat hfr
  refine ⟨?_, hat⟩
  have hrow : calculateRow ant1 ant2 beam cfg.nAntenna ∈
      (rowList cfg.nAntenna cfg.itsMaxNBeams).map (fun e => e.1) :=
    List.mem_map.2 ⟨_, hmem, rfl⟩
  rw [rowList_rows, List.mem_range] at hrow
  rw [hfr]
  exact lt_of_lt_of_le hrow hfit

/-- C2. The row metadata written by `createVisChunk` and the row used by `addVis` never
diverge.  In every chunk returned by `createVisChunk`, for every triple with
`ant1 ≤ ant2 < N` and `beam < B`, the row `calculateRow ant1 ant2 beam N`
`= beam*N*(N+1)/2 + ant1*N - ant1*(ant1+1)/2 + ant2` lies below `nRow` and holds
(antenna1, antenna2, beam1, beam2) = (ant1, ant2, beam, beam); `addVis` never changes this
metadata; and on every chunk that carries it, `addVis` does not raise "Indexing failed to
find row" for a datagram whose mapped antennas satisfy `antenna1 ≤ antenna2`. -/
theorem createVisChunk_rows_agree_with_calculateRow {F : Type} [Zero F] [Neg F] (cfg : Config)
    (timestamp : Nat) (chunk : VisChunk F) (h : createVisChunk cfg timestamp = Except.ok chunk) :
    (∀ ant1 ant2 beam, ant1 ≤ ant2 → ant2 < cfg.nAntenna → beam < cfg.itsMaxNBeams →
      calculateRow ant1 ant2 beam cfg.nAntenna =
        beam * cfg.nAntenna * (cfg.nAntenna + 1) / 2 + ant1 * cfg.nAntenna -
          ant1 * (ant1 + 1) / 2 + ant2 ∧
      calculateRow ant1 ant2 beam cfg.nAntenna < chunk.nRow ∧
      chunk.antenna1 (calculateRow ant1 ant2 beam cfg.nAntenna) = ant1 ∧
      chunk.antenna2 (calculateRow ant1 ant2 beam cfg.nAntenna) = ant2 ∧
      chunk.beam1 (calculateRow ant1 ant2 beam cfg.nAntenna) = beam ∧
      chunk.beam2 (calculateRow ant1 ant2 beam cfg.nAntenna) = beam) ∧
    (∀ (c : VisChunk F) (vis : VisDatagram F) (recv : List DatagramIdentity),
      chunk.SameHeader c → chunk.SameHeader (addVis cfg c vis cfg.nAntenna recv).chunk) ∧
    (∀ (c : VisChunk F) (vis : VisDatagram F) (recv : List DatagramIdentity),
      chunk.SameHeader c →
      toUInt32 (cfg.idToAntenna1 vis.baselineid) ≤ toUInt32 (cfg.idToAntenna2 vis.baselineid) →
      (addVis cfg c vis cfg.nAntenna recv).outcome ≠
        Except.error AskapError.IndexingFailedToFindRow) := by
  refine ⟨?_, ?_, ?_⟩
  · intro ant1 ant2 beam h12 h2 hb
    exact ⟨rfl, createVisChunk_metadata cfg timestamp chunk h ant1 ant2 beam h12 h2 hb⟩
  · intro c vis recv hc
    exact hc.trans (addVis_header cfg c vis cfg.nAntenna recv)
  · intro c vis recv hc h12
    by_cases hr : reachesDuplicateCheck cfg c.stokes cfg.nAntenna (identityOf vis)
    · have hm := createVisChunk_metadata cfg timestamp chunk h _ _ _ h12 hr.2.2.2.2.2.1
        hr.2.2.2.2.2.2.1
      obtain ⟨_, _, _, _, _, _, _, _, e1, e2, e3, e4⟩ := hc
      rw [← e1, ← e2, ← e3, ← e4] at hm
      rw [addVis_of_reaches cfg c vis cfg.nAntenna recv hr]
      split_ifs with hdup hrow
      · simp
      · exfalso
        simp only [rowOf, identityOf] at hrow
        rcases hrow with hx | hx | hx | hx
        · exact hx hm.2.1
        · exact hx hm.2.2.1
        · exact hx hm.2.2.2.1
        · exact hx hm.2.2.2.2
      · split
        · rename_i e c2 heq
          have he := addVisChannels_error cfg vis _ _ _ _ _ c e (by rw [heq])
          intro hcontra
          simp only [Except.error.injEq] at hcontra
          rcases he with he | he <;> rw [he] at hcontra <;> cases hcontra
        · simp
    · exact (addVis_of_not_reaches_outcome cfg c vis cfg.nAntenna recv hr).1

theorem createVisChunk_rows_agree_with_calculateRow_witness :
    ∃ chunk : VisChunk Int, createVisChunk exampleConfig 100 = Except.ok chunk ∧
      chunk.antenna1 (calculateRow 1 2 0 3) = 1 ∧ chunk.antenna2 (calculateRow 1 2 0 3) = 2 ∧
      chunk.beam1 (calculateRow 1 2 0 3) = 0 ∧ chunk.beam2 (calculateRow 1 2 0 3) = 0 ∧
      (addVis exampleConfig chunk (exampleDatagram 100 4) 3 []).outcome ≠
        Except.error AskapError.IndexingFailedToFindRow := by
  obtain ⟨chunk, hc⟩ : ∃ chunk : VisChunk Int, createVisChunk exampleConfig 100 = Except.ok chunk :=
    createVisChunk_returns exampleConfig 100 (by decide) (by decide) (by decide) (by decide)
  have hthm := createVisChunk_rows_agree_with_calculateRow exampleConfig 100 chunk hc
  have hrow := hthm.1 1 2 0 (by decide) (by decide) (by decide)
  exact ⟨chunk, hc, hrow.2.2.1, hrow.2.2.2.1, hrow.2.2.2.2.1, hrow.2.2.2.2.2,
    hthm.2.2 chunk (exampleDatagram 100 4) [] (VisChunk.SameHeader.refl chunk) (by decide)⟩

/-! ## The channel loop of `addVis` -/

/-- The chunk after an iteration of the channel loop that does not raise. -/
theorem addVisChannel_ok {F : Type} [Neg F] (cfg : Config) (vis : VisDatagram F)
    (antenna1 antenna2 row chanOffset polidx chan : Nat) (chunk : VisChunk F)
    (hok : (addVisChannel cfg vis antenna1 antenna2 row chanOffset polidx chan chunk).1 =
      Except.ok ()) :
    (addVisChannel cfg vis antenna1 antenna2 row chanOffset polidx chan chunk).2 =
      if antenna1 = antenna2 ∧ polidx = 1 then
        { chunk with
          visibility := setAt3 (setAt3 chunk.visibility row ((chanOffset + chan) % UINT) polidx
            { re := (vis.vis chan).real, im := (vis.vis chan).imag })
            row ((chanOffset + chan) % UINT) 2
            (CasaComplex.conj { re := (vis.vis chan).real, im := (vis.vis chan).imag })
          flag := setAt3 (setAt3 chunk.flag row ((chanOffset + chan) % UINT) polidx false)
            row ((chanOffset + chan) % UINT) 2 false }
      else
        { chunk with
          visibility := setAt3 chunk.visibility row ((chanOffset + chan) % UINT) polidx
            { re := (vis.vis chan).real, im := (vis.vis chan).imag }
          flag := setAt3 chunk.flag row ((chanOffset + chan) % UINT) polidx false } := by
  unfold addVisChannel at hok ⊢
  split_ifs at hok ⊢ <;> simp_all

theorem addVisChannels_cells {F : Type} [Neg F] (cfg : Config) (vis : VisDatagram F)
    (antenna1 antenna2 row chanOffset polidx : Nat) (chunk : VisChunk F)
    (hsize : cfg.N_CHANNELS_PER_SLICE ≤ 2 ^ 32)
    (hok : (addVisChannels cfg vis antenna1 antenna2 row chanOffset polidx chunk).1 = Except.ok ()) :
    ∀ i, i < cfg.N_CHANNELS_PER_SLICE →
      let out := (addVisChannels cfg vis antenna1 antenna2 row chanOffset polidx chunk).2
      let sample : CasaComplex F := { re := (vis.vis i).real, im := (vis.vis i).imag }
      out.visibility row ((chanOffset + i) % UINT) polidx = sample ∧
      out.flag row ((chanOffset + i) % UINT) polidx = false ∧
      (antenna1 = antenna2 → polidx = 1 →
        out.visibility row ((chanOffset + i) % UINT) 2 = sample.conj ∧
        out.flag row ((chanOffset + i) % UINT) 2 = false) := by
  unfold addVisChannels at hok ⊢
  generalize hn : cfg.N_CHANNELS_PER_SLICE = n at hok ⊢
  have hn2 : n ≤ 2 ^ 32 := hn ▸ hsize
  clear hn hsize
  induction n with
  | zero => intro i hi; omega
  | succ n ih =>
    rw [List.range_succ, List.foldl_append] at hok ⊢
    simp only [List.foldl_cons, List.foldl_nil] at hok ⊢
    generalize hst : (List.range n).foldl (fun st chan =>
        match st.1 with
        | Except.error _ => st
        | Except.ok _ =>
          addVisChannel cfg vis antenna1 antenna2 row chanOffset polidx chan st.2)
        (Except.ok (), chunk) = st at hok ih ⊢
    obtain ⟨e, c⟩ := st
    cases e with
    | error err => simp at hok
    | ok u =>
      have ih := ih rfl (by omega)
      simp only at hok ih ⊢
      intro i hi
      rw [addVisChannel_ok cfg vis antenna1 antenna2 row chanOffset polidx n c hok]
      by_cases hin : i = n
      · subst hin
        by_cases hc : antenna1 = antenna2 ∧ polidx = 1
        · obtain ⟨h1, h2⟩ := hc
          subst h2
          simp [h1, setAt3]
        · rw [if_neg hc]
          refine ⟨by simp [setAt3], by simp [setAt3], ?_⟩
          intro h1 h2
          exact absurd ⟨h1, h2⟩ hc
      · have hlt : i < n := by omega
        have hne : (chanOffset + i) % UINT ≠ (chanOffset + n) % UINT := by
          unfold UINT; omega
        have ihi := ih i hlt
        by_cases hc : antenna1 = antenna2 ∧ polidx = 1
        · rw [if_pos hc]
          simpa [setAt3, hne] using ihi
        · rw [if_neg hc]
          simpa [setAt3, hne] using ihi

/-- What holds when `addVis` returns `true`: the checks before the duplicate check have
passed, the identity was not in the received-set and is added to it, the row metadata
matched, the channel loop did not raise and its chunk is the result. -/
theorem addVis_accepted {F : Type} [Neg F] (cfg : Config) (chunk : VisChunk F)
    (vis : VisDatagram F) (nAntenna : Nat) (recv : List DatagramIdentity)
    (h : (addVis cfg chunk vis nAntenna recv).outcome = Except.ok true) :
    reachesDuplicateCheck cfg chunk.stokes nAntenna (identityOf vis) ∧
      identityOf vis ∉ recv ∧
      (addVis cfg chunk vis nAntenna recv).receivedDatagrams = identityOf vis :: recv ∧
      (addVisChannels cfg vis (toUInt32 (cfg.idToAntenna1 vis.baselineid))
        (toUInt32 (cfg.idToAntenna2 vis.baselineid)) (rowOf cfg nAntenna vis)
        (vis.slice * cfg.N_CHANNELS_PER_SLICE % UINT) (polOf cfg chunk vis) chunk).1 =
        Except.ok () ∧
      (addVis cfg chunk vis nAntenna recv).chunk =
        (addVisChannels cfg vis (toUInt32 (cfg.idToAntenna1 vis.baselineid))
          (toUInt32 (cfg.idToAntenna2 vis.baselineid)) (rowOf cfg nAntenna vis)
          (vis.slice * cfg.N_CHANNELS_PER_SLICE % UINT) (polOf cfg chunk vis) chunk).2 := by
  by_cases hr : reachesDuplicateCheck cfg chunk.stokes nAntenna (identityOf vis)
  · rw [addVis_of_reaches cfg chunk vis nAntenna recv hr] at h ⊢
    by_cases hdup : identityOf vis ∈ recv
    · rw [if_pos hdup] at h; cases h
    rw [if_neg hdup] at h ⊢
    by_cases hrow :
        ¬ (chunk.antenna1 (rowOf cfg nAntenna vis) = toUInt32 (cfg.idToAntenna1 vis.baselineid)) ∨
        ¬ (chunk.antenna2 (rowOf cfg nAntenna vis) = toUInt32 (cfg.idToAntenna2 vis.baselineid)) ∨
        ¬ (chunk.beam1 (rowOf cfg nAntenna vis) = toUInt32 (cfg.itsBeamIDMap vis.beamid)) ∨
        ¬ (chunk.beam2 (rowOf cfg nAntenna vis) = toUInt32 (cfg.itsBeamIDMap vis.beamid))
    · rw [if_pos hrow] at h; cases h
    rw [if_neg hrow] at h ⊢
    refine ⟨hr, hdup, ?_⟩
    split at h
    · cases h
    · rename_i u c2 heq
      rw [heq]
      exact ⟨rfl, rfl, rfl⟩
  · exact absurd h (addVis_of_not_reaches cfg chunk vis nAntenna recv hr).2.2

/-- C5. When `addVis` accepts a datagram (returns `true`), then for every sample index
`i < N_CHANNELS_PER_SLICE` the value of the chunk at (row of the datagram,
`slice * N_CHANNELS_PER_SLICE + i`, polarisation index of the datagram) is the sample
`vis[i]` of the datagram, and the flag of that cell is cleared.  The constant
`N_CHANNELS_PER_SLICE` is a parameter of the model; it is taken small enough for the 16
slices to be addressed in `casa::uInt` (`16 * N_CHANNELS_PER_SLICE ≤ 2 ^ 32`). -/
theorem addVis_accepted_stores_samples {F : Type} [Neg F] (cfg : Config) (chunk : VisChunk F)
    (vis : VisDatagram F) (nAntenna : Nat) (recv : List DatagramIdentity)
    (hconst : 16 * cfg.N_CHANNELS_PER_SLICE ≤ 2 ^ 32)
    (h : (addVis cfg chunk vis nAntenna recv).outcome = Except.ok true) :
    ∀ i, i < cfg.N_CHANNELS_PER_SLICE →
      (addVis cfg chunk vis nAntenna recv).chunk.visibility (rowOf cfg nAntenna vis)
          (vis.slice * cfg.N_CHANNELS_PER_SLICE + i) (polOf cfg chunk vis) =
        { re := (vis.vis i).real, im := (vis.vis i).imag } ∧
      (addVis cfg chunk vis nAntenna recv).chunk.flag (rowOf cfg nAntenna vis)
          (vis.slice * cfg.N_CHANNELS_PER_SLICE + i) (polOf cfg chunk vis) = false := by
  obtain ⟨hr, _, _, hok, hchunk⟩ := addVis_accepted cfg chunk vis nAntenna recv h
  intro i hi
  have hslice : vis.slice < 16 := hr.2.2.2.2.2.2.2.2
  have hmul : vis.slice * cfg.N_CHANNELS_PER_SLICE ≤ 15 * cfg.N_CHANNELS_PER_SLICE :=
    Nat.mul_le_mul_right _ (by omega)
  have hidx : (vis.slice * cfg.N_CHANNELS_PER_SLICE % UINT + i) % UINT =
      vis.slice * cfg.N_CHANNELS_PER_SLICE + i := by
    unfold UINT
    rw [Nat.mod_eq_of_lt (by omega), Nat.mod_eq_of_lt (by omega)]
  have hcells := addVisChannels_cells cfg vis _ _ _ _ _ chunk (by omega) hok i hi
  simp only [hidx] at hcells
  rw [hchunk]
  exact ⟨hcells.1, hcells.2.1⟩

theorem addVis_accepted_stores_samples_witness :
    (16 * exampleConfig.N_CHANNELS_PER_SLICE ≤ 2 ^ 32 ∧
      (addVis exampleConfig exampleChunk (exampleDatagram 10 0) 3 []).outcome = Except.ok true) ∧
    ∀ i, i < exampleConfig.N_CHANNELS_PER_SLICE →
      (addVis exampleConfig exampleChunk (exampleDatagram 10 0) 3 []).chunk.visibility
          (rowOf exampleConfig 3 (exampleDatagram 10 0))
          ((exampleDatagram 10 0).slice * exampleConfig.N_CHANNELS_PER_SLICE + i)
          (polOf exampleConfig exampleChunk (exampleDatagram 10 0)) =
        { re := ((exampleDatagram 10 0).vis i).real, im := ((exampleDatagram 10 0).vis i).imag } ∧
      (addVis exampleConfig exampleChunk (exampleDatagram 10 0) 3 []).chunk.flag
          (rowOf exampleConfig 3 (exampleDatagram 10 0))
          ((exampleDatagram 10 0).slice * exampleConfig.N_CHANNELS_PER_SLICE + i)
          (polOf exampleConfig exampleChunk (exampleDatagram 10 0)) = false :=
  ⟨⟨by decide, by rfl⟩,
    addVis_accepted_stores_samples exampleConfig exampleChunk (exampleDatagram 10 0) 3 []
      (by decide) (by rfl)⟩

theorem awaitFirst_buffered {F : Type} (pulls : List (Pull F)) (self : NoMetadataSource F)
    (vis : VisDatagram F) (h : self.itsVis = some vis) :
    awaitFirst pulls self = (LoopExit.done, self, pulls) := by
  cases pulls with
  | nil => simp [awaitFirst, h]
  | cons p rest => simp [awaitFirst, h]

theorem poll_of_no_signal {F : Type} (self : NoMetadataSource F) (h : self.signalPending = false) :
    self.poll = self := by
  simp [NoMetadataSource.poll, h]

theorem poll_frame {F : Type} (self : NoMetadataSource F) :
    self.poll.itsVis = self.itsVis ∧ self.poll.itsLastTimestamp = self.itsLastTimestamp ∧
      self.poll.offered = self.offered ∧ self.poll.timeouts = self.timeouts := by
  unfold NoMetadataSource.poll
  split <;> simp

/-- What the first loop of `next` leaves when it ends normally: a buffered datagram,
`itsLastTimestamp` and the record of datagrams passed to `addVis` as before. -/
theorem awaitFirst_done {F : Type} (pulls : List (Pull F)) (self : NoMetadataSource F)
    (self1 : NoMetadataSource F) (pulls1 : List (Pull F))
    (h : awaitFirst pulls self = (LoopExit.done, self1, pulls1)) :
    (∃ vis, self1.itsVis = some vis) ∧ self1.itsLastTimestamp = self.itsLastTimestamp ∧
      self1.offered = self.offered := by
  induction pulls generalizing self with
  | nil =>
    unfold awaitFirst at h
    cases hv : self.itsVis with
    | none => simp [hv] at h
    | some vis =>
      simp only [hv, Prod.mk.injEq, true_and] at h
      obtain ⟨rfl, _⟩ := h
      exact ⟨⟨vis, hv⟩, rfl, rfl⟩
  | cons p rest ih =>
    unfold awaitFirst at h
    cases hv : self.itsVis with
    | some vis =>
      simp only [hv, Prod.mk.injEq, true_and] at h
      obtain ⟨rfl, _⟩ := h
      exact ⟨⟨vis, hv⟩, rfl, rfl⟩
    | none =>
      simp only [hv] at h
      by_cases hint : (self.pull p 10000000).poll.itsInterrupted = true
      · simp [hint] at h
      simp only [hint, if_false, Bool.false_eq_true] at h
      have := ih _ h
      have hp := poll_frame (self.pull p 10000000)
      refine ⟨this.1, ?_, ?_⟩
      · rw [this.2.1, hp.2.1]; rfl
      · rw [this.2.2, hp.2.2.1]; rfl

theorem collectStep_none {F : Type} [Neg F] (cfg : Config) (T N expected : Nat)
    (st : Collecting F) (h : st.self.itsVis = none) :
    collectStep cfg T N expected st = CollectStep.exit LoopExit.done st := by
  simp [collectStep, h]

theorem collectStep_future {F : Type} [Neg F] (cfg : Config) (T N expected : Nat)
    (st : Collecting F) (vis : VisDatagram F) (h : st.self.itsVis = some vis)
    (hts : T < vis.timestamp) :
    collectStep cfg T N expected st = CollectStep.exit LoopExit.done st := by
  have : ¬ (T ≥ vis.timestamp) := by omega
  simp [collectStep, h, this]

theorem collectStep_interrupted {F : Type} [Neg F] (cfg : Config) (T N expected : Nat)
    (st : Collecting F) (vis : VisDatagram F) (h : st.self.itsVis = some vis)
    (hts : vis.timestamp ≤ T) (hint : st.self.poll.itsInterrupted = true) :
    collectStep cfg T N expected st =
      CollectStep.exit (LoopExit.raised AskapError.Interrupted) { st with self := st.self.poll } := by
  have : T ≥ vis.timestamp := hts
  simp [collectStep, h, this, hint]

theorem collectStep_late {F : Type} [Neg F] (cfg : Config) (T N expected : Nat)
    (st : Collecting F) (vis : VisDatagram F) (h : st.self.itsVis = some vis)
    (hts : vis.timestamp < T) (hint : st.self.poll.itsInterrupted = false) :
    collectStep cfg T N expected st = CollectStep.pull { st with self := st.self.poll } := by
  have h1 : T ≥ vis.timestamp := by omega
  have h2 : T > vis.timestamp := hts
  simp [collectStep, h, h1, h2, hint]

/-- The state of the collecting loop after `addVis` has returned `added` for the buffered
datagram `vis` (lines 157-162). -/
theorem collectStep_current {F : Type} [Neg F] (cfg : Config) (T N expected : Nat)
    (st : Collecting F) (vis : VisDatagram F) (h : st.self.itsVis = some vis)
    (hts : vis.timestamp = T) (hint : st.self.poll.itsInterrupted = false) :
    collectStep cfg T N expected st =
      match (addVis cfg st.chunk vis N st.receivedDatagrams).outcome with
      | Except.error e =>
        CollectStep.exit (LoopExit.raised e)
          { st with
            self := { st.self.poll with offered := st.self.poll.offered ++ [vis] }
            chunk := (addVis cfg st.chunk vis N st.receivedDatagrams).chunk
            receivedDatagrams := (addVis cfg st.chunk vis N st.receivedDatagrams).receivedDatagrams }
      | Except.ok added =>
        let st1 : Collecting F :=
          { self := { st.self.poll with offered := st.self.poll.offered ++ [vis], itsVis := none }
            chunk := (addVis cfg st.chunk vis N st.receivedDatagrams).chunk
            receivedDatagrams := (addVis cfg st.chunk vis N st.receivedDatagrams).receivedDatagrams
            datagramCount := if added then (st.datagramCount + 1) % UINT else st.datagramCount
            datagramsIgnored :=
              if added then st.datagramsIgnored else (st.datagramsIgnored + 1) % UINT }
        if st1.datagramCount = expected then CollectStep.exit LoopExit.done st1
        else CollectStep.pull st1 := by
  have h1 : T ≥ vis.timestamp := by omega
  have h2 : ¬ (T > vis.timestamp) := by omega
  unfold collectStep
  simp only [h, h1, h2, hint, not_true_eq_false, if_false, Bool.false_eq_true]
  cases hout : (addVis cfg st.chunk vis N st.receivedDatagrams).outcome with
  | error e => simp
  | ok added => cases added <;> simp


/-- Case analysis of one pass through the collecting loop. -/
theorem collectStep_cases {F : Type} [Neg F] (cfg : Config) (T N expected : Nat)
    (st : Collecting F) (P : CollectStep F → Prop)
    (hnone : st.self.itsVis = none → P (CollectStep.exit LoopExit.done st))
    (hfuture : ∀ vis, st.self.itsVis = some vis → T < vis.timestamp →
      P (CollectStep.exit LoopExit.done st))
    (hint : ∀ vis, st.self.itsVis = some vis → vis.timestamp ≤ T →
      st.self.poll.itsInterrupted = true →
      P (CollectStep.exit (LoopExit.raised AskapError.Interrupted) { st with self := st.self.poll }))
    (hlate : ∀ vis, st.self.itsVis = some vis → vis.timestamp < T →
      st.self.poll.itsInterrupted = false → P (CollectStep.pull { st with self := st.self.poll }))
    (hraise : ∀ vis e, st.self.itsVis = some vis → vis.timestamp = T →
      st.self.poll.itsInterrupted = false →
      (addVis cfg st.chunk vis N st.receivedDatagrams).outcome = Except.error e →
      P (CollectStep.exit (LoopExit.raised e)
        { st with
          self := { st.self.poll with offered := st.self.poll.offered ++ [vis] }
          chunk := (addVis cfg st.chunk vis N st.receivedDatagrams).chunk
          receivedDatagrams := (addVis cfg st.chunk vis N st.receivedDatagrams).receivedDatagrams }))
    (hadd : ∀ vis added, st.self.itsVis = some vis → vis.timestamp = T →
      st.self.poll.itsInterrupted = false →
      (addVis cfg st.chunk vis N st.receivedDatagrams).outcome = Except.ok added →
      ∀ st1 : Collecting F,
        st1 = { self := { st.self.poll with offered := st.self.poll.offered ++ [vis], itsVis := none }
                chunk := (addVis cfg st.chunk vis N st.receivedDatagrams).chunk
                receivedDatagrams :=
                  (addVis cfg st.chunk vis N st.receivedDatagrams).receivedDatagrams
                datagramCount := if added then (st.datagramCount + 1) % UINT else st.datagramCount
                datagramsIgnored :=
                  if added then st.datagramsIgnored else (st.datagramsIgnored + 1) % UINT } →
        (st1.datagramCount = expected → P (CollectStep.exit LoopExit.done st1)) ∧
        (st1.datagramCount ≠ expected → P (CollectStep.pull st1))) :
    P (collectStep cfg T N expected st) := by
  cases hv : st.self.itsVis with
  | none => rw [collectStep_none cfg T N expected st hv]; exact hnone hv
  | some vis =>
    by_cases hfut : T < vis.timestamp
    · rw [collectStep_future cfg T N expected st vis hv hfut]; exact hfuture vis hv hfut
    by_cases hi : st.self.poll.itsInterrupted = true
    · rw [collectStep_interrupted cfg T N expected st vis hv (by omega) hi]
      exact hint vis hv (by omega) hi
    have hi2 : st.self.poll.itsInterrupted = false := by simpa using hi
    by_cases hl : vis.timestamp < T
    · rw [collectStep_late cfg T N expected st vis hv hl hi2]; exact hlate vis hv hl hi2
    have heq : vis.timestamp = T := by omega
    rw [collectStep_current cfg T N expected st vis hv heq hi2]
    cases hout : (addVis cfg st.chunk vis N st.receivedDatagrams).outcome with
    | error e => exact hraise vis e hv heq hi2 hout
    | ok added =>
      have key := hadd vis added hv heq hi2 hout _ rfl
      show P (if (if added = true then (st.datagramCount + 1) % UINT else st.datagramCount) =
          expected then CollectStep.exit LoopExit.done _ else CollectStep.pull _)
      by_cases hc : (if added = true then (st.datagramCount + 1) % UINT else st.datagramCount) =
          expected
      · rw [if_pos hc]; exact key.1 hc
      · rw [if_neg hc]; exact key.2 hc

/-- One pass through the collecting loop keeps `itsLastTimestamp`; when it leaves the
loop normally, a datagram still buffered is one of a later cycle. -/
theorem collectStep_frame {F : Type} [Neg F] (cfg : Config) (T N expected : Nat)
    (st : Collecting F) :
    match collectStep cfg T N expected st with
    | CollectStep.exit how st1 =>
      st1.self.itsLastTimestamp = st.self.itsLastTimestamp ∧
        (how = LoopExit.done → ∀ vis, st1.self.itsVis = some vis → T < vis.timestamp)
    | CollectStep.pull st1 => st1.self.itsLastTimestamp = st.self.itsLastTimestamp := by
  refine collectStep_cases cfg T N expected st
    (fun r => match r with
      | CollectStep.exit how st1 =>
        st1.self.itsLastTimestamp = st.self.itsLastTimestamp ∧
          (how = LoopExit.done → ∀ vis, st1.self.itsVis = some vis → T < vis.timestamp)
      | CollectStep.pull st1 => st1.self.itsLastTimestamp = st.self.itsLastTimestamp)
    ?_ ?_ ?_ ?_ ?_ ?_
  · intro hv
    exact ⟨rfl, fun _ vis h => by rw [hv] at h; cases h⟩
  · intro vis hv hfut
    refine ⟨rfl, fun _ vis2 h => ?_⟩
    rw [hv] at h
    cases h
    exact hfut
  · intro vis hv _ _
    exact ⟨(poll_frame st.self).2.1, fun h => by cases h⟩
  · intro vis hv _ _
    exact (poll_frame st.self).2.1
  · intro vis e hv _ _ _
    exact ⟨(poll_frame st.self).2.1, fun h => by cases h⟩
  · intro vis added hv _ _ _ st1 hst1
    subst hst1
    refine ⟨fun _ => ⟨(poll_frame st.self).2.1, fun _ vis2 h => by cases h⟩, fun _ => ?_⟩
    exact (poll_frame st.self).2.1

theorem collect_frame {F : Type} [Neg F] (cfg : Config) (T N expected timeout : Nat)
    (pulls : List (Pull F)) (st : Collecting F) :
    (collect cfg T N expected timeout pulls st).2.1.self.itsLastTimestamp =
        st.self.itsLastTimestamp ∧
      ((collect cfg T N expected timeout pulls st).1 = LoopExit.done →
        ∀ vis, (collect cfg T N expected timeout pulls st).2.1.self.itsVis = some vis →
          T < vis.timestamp) := by
  induction pulls generalizing st with
  | nil =>
    have h := collectStep_frame cfg T N expected st
    unfold collect
    cases hs : collectStep cfg T N expected st with
    | exit how st1 => rw [hs] at h; exact h
    | pull st1 =>
      rw [hs] at h
      exact ⟨h, fun hd => by cases hd⟩
  | cons p rest ih =>
    have h := collectStep_frame cfg T N expected st
    unfold collect
    cases hs : collectStep cfg T N expected st with
    | exit how st1 => rw [hs] at h; exact h
    | pull st1 =>
      rw [hs] at h
      simp only
      have := ih { st1 with self := st1.self.pull p timeout }
      exact ⟨this.1.trans h, this.2⟩


/-- What is known of a call of `assemble` that returned a chunk. -/
theorem assemble_returned {F : Type} [Zero F] [Neg F] (cfg : Config) (self : NoMetadataSource F)
    (pulls : List (Pull F)) (vis : VisDatagram F) (T : Nat)
    (h : (assemble cfg self pulls vis).cycleTimestamp = some T) :
    T = vis.timestamp ∧ vis.timestamp ≠ self.itsLastTimestamp ∧
      (assemble cfg self pulls vis).self.itsLastTimestamp = T ∧
      (∀ d, (assemble cfg self pulls vis).self.itsVis = some d → T < d.timestamp) ∧
      (∃ chunk : VisChunk F, createVisChunk cfg vis.timestamp = Except.ok chunk) ∧
      cfg.localNChannels % cfg.N_CHANNELS_PER_SLICE = 0 := by
  unfold assemble at h ⊢
  dsimp only at h ⊢
  by_cases hg : vis.timestamp ≠ self.itsLastTimestamp
  swap
  · rw [if_pos hg] at h; simp [NextResult.cycleTimestamp] at h
  rw [if_neg (not_not_intro hg)] at h ⊢
  cases hc : (createVisChunk cfg vis.timestamp : Except AskapError (VisChunk F)) with
  | error e => rw [hc] at h; simp [NextResult.cycleTimestamp] at h
  | ok chunk =>
    rw [hc] at h
    simp only at h ⊢
    by_cases hd : cfg.localNChannels % cfg.N_CHANNELS_PER_SLICE = 0
    swap
    · rw [if_pos hd] at h; simp [NextResult.cycleTimestamp] at h
    rw [if_neg (not_not_intro hd)] at h ⊢
    have hf := collect_frame cfg vis.timestamp cfg.nAntenna (datagramsExpectedOf cfg)
      (cfg.interval * 2 % UINT) pulls
      { self := { self with itsLastTimestamp := vis.timestamp }, chunk := chunk,
        receivedDatagrams := [], datagramCount := 0, datagramsIgnored := 0 }
    generalize collect cfg vis.timestamp cfg.nAntenna (datagramsExpectedOf cfg)
      (cfg.interval * 2 % UINT) pulls
      { self := { self with itsLastTimestamp := vis.timestamp }, chunk := chunk,
        receivedDatagrams := [], datagramCount := 0, datagramsIgnored := 0 } = res at h hf ⊢
    obtain ⟨how, st1, pulls1⟩ := res
    cases how with
    | raised e => simp [NextResult.cycleTimestamp] at h
    | starved => simp [NextResult.cycleTimestamp] at h
    | done =>
      simp only [NextResult.cycleTimestamp, Option.some.injEq] at h
      subst h
      exact ⟨rfl, hg, hf.1, hf.2 rfl, ⟨chunk, rfl⟩, hd⟩

/-- What is known of a call of `next` that returned a chunk for the cycle timestamp `T`:
`T` is the timestamp of its seed datagram and differs from `itsLastTimestamp` before the
call, `itsLastTimestamp` is `T` afterwards, and a datagram left buffered belongs to a later
cycle. -/
theorem next_returned {F : Type} [Zero F] [Neg F] (cfg : Config) (self : NoMetadataSource F)
    (pulls : List (Pull F)) (T : Nat)
    (h : (next cfg self pulls).cycleTimestamp = some T) :
    seedTimestamp self pulls = some T ∧ T ≠ self.itsLastTimestamp ∧
      (next cfg self pulls).self.itsLastTimestamp = T ∧
      (∀ d, (next cfg self pulls).self.itsVis = some d → T < d.timestamp) ∧
      (∃ chunk : VisChunk F, createVisChunk cfg T = Except.ok chunk) ∧
      cfg.localNChannels % cfg.N_CHANNELS_PER_SLICE = 0 := by
  unfold next at h ⊢
  unfold seedTimestamp
  cases ha : awaitFirst pulls self with
  | mk how rest =>
    obtain ⟨self1, pulls1⟩ := rest
    rw [ha] at h
    cases how with
    | raised e => simp [NextResult.cycleTimestamp] at h
    | starved => simp [NextResult.cycleTimestamp] at h
    | done =>
      simp only at h ⊢
      have hd := awaitFirst_done pulls self self1 pulls1 ha
      cases hv : self1.itsVis with
      | none => rw [hv] at h; simp [NextResult.cycleTimestamp] at h
      | some vis =>
        rw [hv] at h
        simp only at h ⊢
        obtain ⟨h1, h2, h3, h4, h5, h6⟩ := assemble_returned cfg self1 pulls1 vis T h
        subst h1
        rw [hd.2.1] at h2
        exact ⟨by simp, h2, h3, h4, h5, h6⟩

/-! ## Datagrams on which `addVis` does not raise -/

theorem addVisChannel_status {F : Type} [Neg F] (cfg : Config) (vis : VisDatagram F)
    (antenna1 antenna2 row chanOffset polidx chan : Nat) (chunk : VisChunk F)
    (hch : (chanOffset + chan) % UINT ≤ chunk.nChannel)
    (hdbg : ¬ (cfg.askapDebug = true ∧ antenna1 = antenna2 ∧ polidx = 2)) :
    (addVisChannel cfg vis antenna1 antenna2 row chanOffset polidx chan chunk).1 = Except.ok () := by
  unfold addVisChannel
  simp only [hch, not_true_eq_false, if_false]
  by_cases ha : antenna1 = antenna2
  · by_cases hp : polidx = 2
    · have hd : ¬ (cfg.askapDebug = true) := fun h => hdbg ⟨h, ha, hp⟩
      simp [ha, hp, hd]
    · by_cases hp1 : polidx = 1 <;> simp [ha, hp, hp1]
  · simp [ha]

theorem addVisChannels_status {F : Type} [Neg F] (cfg : Config) (vis : VisDatagram F)
    (antenna1 antenna2 row chanOffset polidx : Nat) (chunk : VisChunk F)
    (hch : ∀ chan, chan < cfg.N_CHANNELS_PER_SLICE → (chanOffset + chan) % UINT ≤ chunk.nChannel)
    (hdbg : ¬ (cfg.askapDebug = true ∧ antenna1 = antenna2 ∧ polidx = 2)) :
    (addVisChannels cfg vis antenna1 antenna2 row chanOffset polidx chunk).1 = Except.ok () := by
  unfold addVisChannels
  generalize cfg.N_CHANNELS_PER_SLICE = n at hch
  suffices h : ((List.range n).foldl (fun st chan =>
        match st.1 with
        | Except.error _ => st
        | Except.ok _ =>
          addVisChannel cfg vis antenna1 antenna2 row chanOffset polidx chan st.2)
        (Except.ok (), chunk)).1 = Except.ok () ∧
      ((List.range n).foldl (fun st chan =>
        match st.1 with
        | Except.error _ => st
        | Except.ok _ =>
          addVisChannel cfg vis antenna1 antenna2 row chanOffset polidx chan st.2)
        (Except.ok (), chunk)).2.nChannel = chunk.nChannel from h.1
  induction n with
  | zero => exact ⟨rfl, rfl⟩
  | succ n ih =>
    have ih := ih (fun chan h => hch chan (by omega))
    rw [List.range_succ, List.foldl_append]
    simp only [List.foldl_cons, List.foldl_nil]
    generalize (List.range n).foldl (fun st chan =>
        match st.1 with
        | Except.error _ => st
        | Except.ok _ =>
          addVisChannel cfg vis antenna1 antenna2 row chanOffset polidx chan st.2)
        (Except.ok (), chunk) = st at ih ⊢
    obtain ⟨e, c⟩ := st
    simp only at ih
    obtain ⟨rfl, hn⟩ := ih
    simp only
    refine ⟨addVisChannel_status cfg vis _ _ _ _ _ n c (by rw [hn]; exact hch n (by omega)) hdbg, ?_⟩
    rw [(addVisChannel_header cfg vis antenna1 antenna2 row chanOffset polidx n c).2.1, hn]

/-- On a chunk with the header of a chunk returned by `createVisChunk`, `addVis` returns
(it does not raise) for every datagram that satisfies `neverRaises`. -/
theorem addVis_neverRaises {F : Type} [Zero F] [Neg F] (cfg : Config) (timestamp : Nat)
    (chunk0 chunk : VisChunk F) (h0 : createVisChunk cfg timestamp = Except.ok chunk0)
    (hh : chunk0.SameHeader chunk) (vis : VisDatagram F) (hv : neverRaises cfg vis)
    (recv : List DatagramIdentity) :
    ∃ added, (addVis cfg chunk vis cfg.nAntenna recv).outcome = Except.ok added := by
  obtain ⟨_, _, _, hc⟩ := createVisChunk_inv cfg timestamp chunk0 h0
  have hf := foldl_setRowMetadata_frame (rowList cfg.nAntenna cfg.itsMaxNBeams)
    (chunkBeforeRows cfg timestamp : VisChunk F)
  rw [← hc] at hf
  have hstokes : chunk.stokes = linearAxis := by
    rw [hh.2.2.2.2.2.2.1, hf.2.2.2.2.2.2.2.2.1]; rfl
  have hnchan : chunk.nChannel = cfg.localNChannels := by
    rw [hh.2.1, hf.2.1]; rfl
  by_cases hr : reachesDuplicateCheck cfg chunk.stokes cfg.nAntenna (identityOf vis)
  · rw [addVis_of_reaches cfg chunk vis cfg.nAntenna recv hr]
    by_cases hdup : identityOf vis ∈ recv
    · rw [if_pos hdup]; exact ⟨false, rfl⟩
    rw [if_neg hdup]
    obtain ⟨r1, r2, r3, r4, r5, r6, r7, r8, r9⟩ := hr
    simp only [identityOf, hstokes] at r1 r2 r3 r4 r5 r6 r7 r8 r9
    have hfull : toUInt32 (cfg.idToAntenna1 vis.baselineid) ≤
          toUInt32 (cfg.idToAntenna2 vis.baselineid) ∧
        (∀ chan, chan < cfg.N_CHANNELS_PER_SLICE →
          (vis.slice * cfg.N_CHANNELS_PER_SLICE % UINT + chan) % UINT ≤ cfg.localNChannels) ∧
        ¬ (cfg.askapDebug = true ∧
          toUInt32 (cfg.idToAntenna1 vis.baselineid) = toUInt32 (cfg.idToAntenna2 vis.baselineid) ∧
          (findPolIdx linearAxis (cfg.idToStokes vis.baselineid)).toNat = 2) := by
      rcases hv with h | h | ⟨_, h | h⟩
      · exact absurd h r1
      · exact absurd h r2
      · exact absurd h r4
      · exact ⟨h.2.2.2.2.1, h.2.2.2.2.2.1, h.2.2.2.2.2.2⟩
    have hm := createVisChunk_metadata cfg timestamp chunk0 h0 _ _ _ hfull.1 r6 r7
    obtain ⟨_, _, _, _, _, _, _, _, e1, e2, e3, e4⟩ := hh
    rw [← e1, ← e2, ← e3, ← e4] at hm
    have hrow : ¬ (¬ (chunk.antenna1 (rowOf cfg cfg.nAntenna vis) =
          toUInt32 (cfg.idToAntenna1 vis.baselineid)) ∨
        ¬ (chunk.antenna2 (rowOf cfg cfg.nAntenna vis) =
          toUInt32 (cfg.idToAntenna2 vis.baselineid)) ∨
        ¬ (chunk.beam1 (rowOf cfg cfg.nAntenna vis) = toUInt32 (cfg.itsBeamIDMap vis.beamid)) ∨
        ¬ (chunk.beam2 (rowOf cfg cfg.nAntenna vis) = toUInt32 (cfg.itsBeamIDMap vis.beamid))) := by
      simp only [rowOf]
      intro hx
      rcases hx with hx | hx | hx | hx
      · exact hx hm.2.1
      · exact hx hm.2.2.1
      · exact hx hm.2.2.2.1
      · exact hx hm.2.2.2.2
    rw [if_neg hrow]
    have hst := addVisChannels_status cfg vis (toUInt32 (cfg.idToAntenna1 vis.baselineid))
      (toUInt32 (cfg.idToAntenna2 vis.baselineid)) (rowOf cfg cfg.nAntenna vis)
      (vis.slice * cfg.N_CHANNELS_PER_SLICE % UINT) (polOf cfg chunk vis) chunk
      (by rw [hnchan]; exact hfull.2.1)
      (by simp only [polOf, hstokes]; exact hfull.2.2)
    split
    · rename_i e c2 heq
      rw [heq] at hst; cases hst
    · exact ⟨true, rfl⟩
  · refine ⟨false, ?_⟩
    unfold addVis
    dsimp only
    rw [hstokes] at hr ⊢
    by_cases h1 : cfg.idToAntenna1 vis.baselineid = -1 ∨ cfg.idToAntenna2 vis.baselineid = -1 ∨
        cfg.idToStokes vis.baselineid = StokesTypes.Undefined
    · rw [if_pos h1]
    rw [if_neg h1]
    by_cases h2 : cfg.itsBeamIDMap vis.beamid < 0
    · rw [if_pos h2]
    rw [if_neg h2]
    have hv2 : cfg.itsBeamIDMap vis.beamid < toInt32 cfg.itsMaxNBeams ∧
        (findPolIdx linearAxis (cfg.idToStokes vis.baselineid) < 0 ∨
          (toUInt32 (cfg.idToAntenna1 vis.baselineid) < cfg.nAntenna ∧
            toUInt32 (cfg.idToAntenna2 vis.baselineid) < cfg.nAntenna ∧
            toUInt32 (cfg.itsBeamIDMap vis.beamid) < cfg.itsMaxNBeams ∧
            vis.slice < 16)) := by
      rcases hv with h | h | ⟨h3, h | h⟩
      · exact absurd h h1
      · exact absurd h h2
      · exact ⟨h3, Or.inl h⟩
      · exact ⟨h3, Or.inr ⟨h.1, h.2.1, h.2.2.1, h.2.2.2.1⟩⟩
    rw [if_neg (not_not_intro hv2.1)]
    by_cases h4 : findPolIdx linearAxis (cfg.idToStokes vis.baselineid) < 0
    · rw [if_pos h4]
    rw [if_neg h4]
    exfalso
    rcases hv2.2 with h | h
    · exact h4 h
    · apply hr
      refine ⟨h1, h2, hv2.1, h4, h.1, h.2.1, h.2.2.1, ?_, h.2.2.2⟩
      have : ∀ s, findPolIdx linearAxis s < 4 := by
        intro s; cases s <;> decide
      exact this _

/-! ## Runs of `next` without signals and without datagrams that make `addVis` raise -/

theorem collectStep_calm {F : Type} [Zero F] [Neg F] (cfg : Config) (timestamp : Nat)
    (chunk0 : VisChunk F) (h0 : createVisChunk cfg timestamp = Except.ok chunk0)
    (T expected : Nat) (st : Collecting F) (hh : chunk0.SameHeader st.chunk)
    (hi : st.self.itsInterrupted = false) (hs : st.self.signalPending = false)
    (hb : ∀ d, st.self.itsVis = some d → neverRaises cfg d) :
    match collectStep cfg T cfg.nAntenna expected st with
    | CollectStep.exit how st1 =>
      how = LoopExit.done ∧ chunk0.SameHeader st1.chunk ∧ st1.self.itsInterrupted = false ∧
        st1.self.signalPending = false ∧ (∀ d, st1.self.itsVis = some d → neverRaises cfg d)
    | CollectStep.pull st1 =>
      chunk0.SameHeader st1.chunk ∧ st1.self.itsInterrupted = false ∧
        st1.self.signalPending = false ∧ (∃ d, st.self.itsVis = some d) := by
  have hp : st.self.poll = st.self := poll_of_no_signal st.self hs
  refine collectStep_cases cfg T cfg.nAntenna expected st
    (fun r => match r with
      | CollectStep.exit how st1 =>
        how = LoopExit.done ∧ chunk0.SameHeader st1.chunk ∧ st1.self.itsInterrupted = false ∧
          st1.self.signalPending = false ∧ (∀ d, st1.self.itsVis = some d → neverRaises cfg d)
      | CollectStep.pull st1 =>
        chunk0.SameHeader st1.chunk ∧ st1.self.itsInterrupted = false ∧
          st1.self.signalPending = false ∧ (∃ d, st.self.itsVis = some d))
    ?_ ?_ ?_ ?_ ?_ ?_
  · intro _
    exact ⟨rfl, hh, hi, hs, hb⟩
  · intro vis _ _
    exact ⟨rfl, hh, hi, hs, hb⟩
  · intro vis _ _ hint
    rw [hp, hi] at hint
    cases hint
  · intro vis hv _ _
    rw [hp]
    exact ⟨hh, hi, hs, ⟨vis, hv⟩⟩
  · intro vis e hv _ _ hout
    obtain ⟨added, ha⟩ := addVis_neverRaises cfg timestamp chunk0 st.chunk h0 hh vis (hb vis hv)
      st.receivedDatagrams
    rw [ha] at hout
    cases hout
  · intro vis added hv _ _ _ st1 hst1
    subst hst1
    rw [hp]
    have hhead := hh.trans (addVis_header cfg st.chunk vis cfg.nAntenna st.receivedDatagrams)
    exact ⟨fun _ => ⟨rfl, hhead, hi, hs, fun d h => by cases h⟩,
      fun _ => ⟨hhead, hi, hs, ⟨vis, hv⟩⟩⟩

/-- Without signals and without datagrams that make `addVis` raise, the collecting loop
ends normally as soon as the Source times out once. -/
theorem collect_returns {F : Type} [Zero F] [Neg F] (cfg : Config) (timestamp : Nat)
    (chunk0 : VisChunk F) (h0 : createVisChunk cfg timestamp = Except.ok chunk0)
    (T expected timeout : Nat) (pulls : List (Pull F)) (st : Collecting F)
    (hh : chunk0.SameHeader st.chunk)
    (hi : st.self.itsInterrupted = false) (hs : st.self.signalPending = false)
    (hb : ∀ d, st.self.itsVis = some d → neverRaises cfg d)
    (hq : ∀ p ∈ pulls, p.quiet cfg)
    (hnone : st.self.itsVis = none ∨ ∃ p ∈ pulls, p.vis.isNone = true) :
    (collect cfg T cfg.nAntenna expected timeout pulls st).1 = LoopExit.done ∧
      (collect cfg T cfg.nAntenna expected timeout pulls st).2.1.self.itsInterrupted = false ∧
      (collect cfg T cfg.nAntenna expected timeout pulls st).2.1.self.signalPending = false ∧
      (∀ d, (collect cfg T cfg.nAntenna expected timeout pulls st).2.1.self.itsVis = some d →
        neverRaises cfg d) ∧
      (∀ p ∈ (collect cfg T cfg.nAntenna expected timeout pulls st).2.2, p ∈ pulls) := by
  induction pulls generalizing st with
  | nil =>
    have hc := collectStep_calm cfg timestamp chunk0 h0 T expected st hh hi hs hb
    unfold collect
    cases hstep : collectStep cfg T cfg.nAntenna expected st with
    | exit how st1 =>
      rw [hstep] at hc
      exact ⟨hc.1, hc.2.2.1, hc.2.2.2.1, hc.2.2.2.2, fun p h => h⟩
    | pull st1 =>
      rw [hstep] at hc
      obtain ⟨d, hd⟩ := hc.2.2.2
      rcases hnone with h | ⟨p, hp, _⟩
      · rw [h] at hd; cases hd
      · cases hp
  | cons p rest ih =>
    have hc := collectStep_calm cfg timestamp chunk0 h0 T expected st hh hi hs hb
    unfold collect
    cases hstep : collectStep cfg T cfg.nAntenna expected st with
    | exit how st1 =>
      rw [hstep] at hc
      exact ⟨hc.1, hc.2.2.1, hc.2.2.2.1, hc.2.2.2.2, fun p h => h⟩
    | pull st1 =>
      rw [hstep] at hc
      simp only
      have hpq := hq p (List.mem_cons_self _ _)
      have hnone2 : ({ st1 with self := st1.self.pull p timeout } : Collecting F).self.itsVis = none ∨
          ∃ q ∈ rest, q.vis.isNone = true := by
        obtain ⟨d, hd⟩ := hc.2.2.2
        rcases hnone with h | ⟨q, hq1, hq2⟩
        · rw [h] at hd; cases hd
        · rcases List.mem_cons.1 hq1 with h | h
          · left
            subst h
            show q.vis = none
            cases hqv : q.vis with
            | none => rfl
            | some v => rw [hqv] at hq2; cases hq2
          · exact Or.inr ⟨q, h, hq2⟩
      have := ih { st1 with self := st1.self.pull p timeout } hc.1
        (by simpa [NoMetadataSource.pull] using hc.2.1)
        (by simp [NoMetadataSource.pull, hc.2.2.1, hpq.1])
        (by
          intro d hd
          have hd2 : p.vis = some d := hd
          have := hpq.2
          rw [hd2] at this
          exact this)
        (fun q hq1 => hq q (List.mem_cons_of_mem _ hq1)) hnone2
      exact ⟨this.1, this.2.1, this.2.2.1, this.2.2.2.1,
        fun q hq1 => List.mem_cons_of_mem _ (this.2.2.2.2 q hq1)⟩

theorem awaitFirst_calm {F : Type} (cfg : Config) (pulls : List (Pull F))
    (self : NoMetadataSource F)
    (hi : self.itsInterrupted = false) (hs : self.signalPending = false)
    (hb : ∀ d, self.itsVis = some d → neverRaises cfg d)
    (hq : ∀ p ∈ pulls, p.quiet cfg) :
    (awaitFirst pulls self).2.1.itsInterrupted = false ∧
      (awaitFirst pulls self).2.1.signalPending = false ∧
      (∀ d, (awaitFirst pulls self).2.1.itsVis = some d → neverRaises cfg d) ∧
      (∀ p ∈ (awaitFirst pulls self).2.2, p ∈ pulls) := by
  induction pulls generalizing self with
  | nil =>
    unfold awaitFirst
    cases hv : self.itsVis <;> simp only <;> exact ⟨hi, hs, hb, fun p h => h⟩
  | cons p rest ih =>
    unfold awaitFirst
    cases hv : self.itsVis with
    | some v => exact ⟨hi, hs, hb, fun p h => h⟩
    | none =>
      simp only
      have hpq := hq p (List.mem_cons_self _ _)
      have hs2 : (self.pull p 10000000).signalPending = false := by
        simp [NoMetadataSource.pull, hs, hpq.1]
      have hpoll := poll_of_no_signal _ hs2
      rw [hpoll]
      have hi2 : (self.pull p 10000000).itsInterrupted = false := hi
      rw [hi2]
      simp only [Bool.false_eq_true, if_false]
      have := ih (self.pull p 10000000) hi2 hs2
        (by
          intro d hd
          have hd2 : p.vis = some d := hd
          have := hpq.2
          rw [hd2] at this
          exact this)
        (fun q hq1 => hq q (List.mem_cons_of_mem _ hq1))
      exact ⟨this.1, this.2.1, this.2.2.1, fun q hq1 => List.mem_cons_of_mem _ (this.2.2.2 q hq1)⟩

theorem seedTimestamp_some {F : Type} (self : NoMetadataSource F) (pulls : List (Pull F))
    (T : Nat) (h : seedTimestamp self pulls = some T) :
    ∃ vis, (awaitFirst pulls self).1 = LoopExit.done ∧
      (awaitFirst pulls self).2.1.itsVis = some vis ∧ vis.timestamp = T := by
  unfold seedTimestamp at h
  cases ha : awaitFirst pulls self with
  | mk how rest =>
    obtain ⟨self1, pulls1⟩ := rest
    rw [ha] at h
    cases how with
    | raised e => simp at h
    | starved => simp at h
    | done =>
      simp only [Option.map_eq_some'] at h
      obtain ⟨vis, hv, ht⟩ := h
      exact ⟨vis, rfl, hv, ht⟩

theorem next_of_seed {F : Type} [Zero F] [Neg F] (cfg : Config) (self : NoMetadataSource F)
    (pulls : List (Pull F)) (vis : VisDatagram F)
    (hd : (awaitFirst pulls self).1 = LoopExit.done)
    (hv : (awaitFirst pulls self).2.1.itsVis = some vis) :
    next cfg self pulls =
      assemble cfg (awaitFirst pulls self).2.1 (awaitFirst pulls self).2.2 vis := by
  unfold next
  cases ha : awaitFirst pulls self with
  | mk how rest =>
    obtain ⟨self1, pulls1⟩ := rest
    rw [ha] at hd hv
    simp only at hd hv
    subst hd
    simp only [hv]

theorem assemble_returns {F : Type} [Zero F] [Neg F] (cfg : Config) (hvalid : cfg.valid)
    (self : NoMetadataSource F) (pulls : List (Pull F)) (vis : VisDatagram F)
    (hbuf : self.itsVis = some vis)
    (hi : self.itsInterrupted = false) (hs : self.signalPending = false)
    (hv : neverRaises cfg vis) (hts : vis.timestamp ≠ self.itsLastTimestamp)
    (hq : ∀ p ∈ pulls, p.quiet cfg) (hnone : ∃ p ∈ pulls, p.vis.isNone = true) :
    (assemble cfg self pulls vis).cycleTimestamp = some vis.timestamp ∧
      (assemble cfg self pulls vis).self.itsInterrupted = false ∧
      (assemble cfg self pulls vis).self.signalPending = false ∧
      (∀ d, (assemble cfg self pulls vis).self.itsVis = some d → neverRaises cfg d) ∧
      (∀ p ∈ (assemble cfg self pulls vis).pulls, p ∈ pulls) := by
  obtain ⟨hN, hpol, hb1, hb2, hdiv⟩ := hvalid
  obtain ⟨chunk, hc⟩ : ∃ chunk : VisChunk F, createVisChunk cfg vis.timestamp = Except.ok chunk :=
    createVisChunk_returns cfg vis.timestamp hN hpol hb1 hb2
  have hcol := collect_returns cfg vis.timestamp chunk hc vis.timestamp (datagramsExpectedOf cfg)
    (cfg.interval * 2 % UINT) pulls
    { self := { self with itsLastTimestamp := vis.timestamp }, chunk := chunk,
      receivedDatagrams := [], datagramCount := 0, datagramsIgnored := 0 }
    (VisChunk.SameHeader.refl chunk) hi hs
    (by
      intro d hd
      have hd2 : self.itsVis = some d := hd
      rw [hbuf] at hd2
      cases hd2
      exact hv)
    hq (Or.inr hnone)
  unfold assemble
  dsimp only
  rw [if_neg (not_not_intro hts), hc]
  simp only
  rw [if_neg (not_not_intro hdiv)]
  generalize collect cfg vis.timestamp cfg.nAntenna (datagramsExpectedOf cfg)
    (cfg.interval * 2 % UINT) pulls
    { self := { self with itsLastTimestamp := vis.timestamp }, chunk := chunk,
      receivedDatagrams := [], datagramCount := 0, datagramsIgnored := 0 } = res at hcol ⊢
  obtain ⟨how, st1, pulls1⟩ := res
  simp only at hcol
  obtain ⟨rfl, h2, h3, h4, h5⟩ := hcol
  exact ⟨rfl, h2, h3, h4, h5⟩

/-- A call of `next` returns the chunk of its seed datagram when the configuration is
valid, no signal is pending or delivered, no datagram makes `addVis` raise, the seed
timestamp differs from `itsLastTimestamp`, and the Source times out at least once after
the seed.  The object is then again in a state without pending signal, and the answers
left over are among those given. -/
theorem next_returns {F : Type} [Zero F] [Neg F] (cfg : Config) (hvalid : cfg.valid)
    (self : NoMetadataSource F) (pulls : List (Pull F)) (T : Nat)
    (hi : self.itsInterrupted = false) (hs : self.signalPending = false)
    (hb : ∀ d, self.itsVis = some d → neverRaises cfg d)
    (hq : ∀ p ∈ pulls, p.quiet cfg)
    (hseed : seedTimestamp self pulls = some T) (hT : T ≠ self.itsLastTimestamp)
    (hnone : ∃ p ∈ (awaitFirst pulls self).2.2, p.vis.isNone = true) :
    (next cfg self pulls).cycleTimestamp = some T ∧
      (next cfg self pulls).self.itsInterrupted = false ∧
      (next cfg self pulls).self.signalPending = false ∧
      (∀ d, (next cfg self pulls).self.itsVis = some d → neverRaises cfg d) ∧
      (∀ p ∈ (next cfg self pulls).pulls, p ∈ pulls) := by
  obtain ⟨vis, hd, hv, ht⟩ := seedTimestamp_some self pulls T hseed
  have hcalm := awaitFirst_calm cfg pulls self hi hs hb hq
  have hlast : (awaitFirst pulls self).2.1.itsLastTimestamp = self.itsLastTimestamp :=
    (awaitFirst_done pulls self _ _ (by rw [← hd])).2.1
  rw [next_of_seed cfg self pulls vis hd hv]
  have := assemble_returns cfg hvalid (awaitFirst pulls self).2.1 (awaitFirst pulls self).2.2 vis
    hv hcalm.1 hcalm.2.1 (hcalm.2.2.1 vis hv) (by rw [ht, hlast]; exact hT)
    (fun p hp => hq p (hcalm.2.2.2 p hp)) hnone
  rw [ht] at this
  exact ⟨this.1, this.2.1, this.2.2.1, this.2.2.2.1, fun p hp => hcalm.2.2.2 p (this.2.2.2.2 p hp)⟩

/-! ## The datagrams passed to `addVis` -/

theorem collectStep_offered {F : Type} [Neg F] (cfg : Config) (T N expected : Nat)
    (st : Collecting F) :
    match collectStep cfg T N expected st with
    | CollectStep.exit _ st1 =>
      ∃ l, st1.self.offered = st.self.offered ++ l ∧ ∀ x ∈ l, x.timestamp = T
    | CollectStep.pull st1 =>
      ∃ l, st1.self.offered = st.self.offered ++ l ∧ ∀ x ∈ l, x.timestamp = T := by
  have hp := (poll_frame st.self).2.2.1
  refine collectStep_cases cfg T N expected st
    (fun r => match r with
      | CollectStep.exit _ st1 =>
        ∃ l, st1.self.offered = st.self.offered ++ l ∧ ∀ x ∈ l, x.timestamp = T
      | CollectStep.pull st1 =>
        ∃ l, st1.self.offered = st.self.offered ++ l ∧ ∀ x ∈ l, x.timestamp = T)
    ?_ ?_ ?_ ?_ ?_ ?_
  · intro _; exact ⟨[], by simp, by simp⟩
  · intro _ _ _; exact ⟨[], by simp, by simp⟩
  · intro _ _ _ _; exact ⟨[], by simp [hp], by simp⟩
  · intro _ _ _ _; exact ⟨[], by simp [hp], by simp⟩
  · intro vis e _ ht _ _
    exact ⟨[vis], by simp [hp], by simpa using ht⟩
  · intro vis added _ ht _ _ st1 hst1
    subst hst1
    exact ⟨fun _ => ⟨[vis], by simp [hp], by simpa using ht⟩,
      fun _ => ⟨[vis], by simp [hp], by simpa using ht⟩⟩

/-- The collecting loop passes to `addVis` only datagrams with the cycle timestamp. -/
theorem collect_offered {F : Type} [Neg F] (cfg : Config) (T N expected timeout : Nat)
    (pulls : List (Pull F)) (st : Collecting F) :
    ∃ l, (collect cfg T N expected timeout pulls st).2.1.self.offered = st.self.offered ++ l ∧
      ∀ x ∈ l, x.timestamp = T := by
  induction pulls generalizing st with
  | nil =>
    have h := collectStep_offered cfg T N expected st
    unfold collect
    cases hs : collectStep cfg T N expected st with
    | exit how st1 => rw [hs] at h; exact h
    | pull st1 => rw [hs] at h; exact h
  | cons p rest ih =>
    have h := collectStep_offered cfg T N expected st
    unfold collect
    cases hs : collectStep cfg T N expected st with
    | exit how st1 => rw [hs] at h; exact h
    | pull st1 =>
      rw [hs] at h
      simp only
      obtain ⟨l1, h1, h2⟩ := h
      obtain ⟨l2, h3, h4⟩ := ih { st1 with self := st1.self.pull p timeout }
      refine ⟨l1 ++ l2, ?_, ?_⟩
      · rw [h3]
        show st1.self.offered ++ l2 = _
        rw [h1, List.append_assoc]
      · intro x hx
        rcases List.mem_append.1 hx with h | h
        · exact h2 x h
        · exact h4 x h

theorem collectStep_offers_buffered {F : Type} [Neg F] (cfg : Config) (T N expected : Nat)
    (st : Collecting F) (vis : VisDatagram F) (hv : st.self.itsVis = some vis)
    (ht : vis.timestamp = T) (hi : st.self.poll.itsInterrupted = false) :
    match collectStep cfg T N expected st with
    | CollectStep.exit _ st1 => st1.self.offered = st.self.offered ++ [vis]
    | CollectStep.pull st1 => st1.self.offered = st.self.offered ++ [vis] := by
  have hp := (poll_frame st.self).2.2.1
  refine collectStep_cases cfg T N expected st
    (fun r => match r with
      | CollectStep.exit _ st1 => st1.self.offered = st.self.offered ++ [vis]
      | CollectStep.pull st1 => st1.self.offered = st.self.offered ++ [vis])
    ?_ ?_ ?_ ?_ ?_ ?_
  · intro h; rw [hv] at h; cases h
  · intro v h hlt; rw [hv] at h; cases h; omega
  · intro v h _ hint; rw [hi] at hint; cases hint
  · intro v h hlt _; rw [hv] at h; cases h; omega
  · intro v e h _ _ _
    rw [hv] at h; cases h
    simp [hp]
  · intro v added h _ _ _ st1 hst1
    rw [hv] at h; cases h
    subst hst1
    exact ⟨fun _ => by simp [hp], fun _ => by simp [hp]⟩

/-- When the collecting loop starts with a buffered datagram of the cycle timestamp and no
interruption, that datagram is the first it passes to `addVis`. -/
theorem collect_offers_buffered_first {F : Type} [Neg F] (cfg : Config)
    (T N expected timeout : Nat) (pulls : List (Pull F)) (st : Collecting F)
    (vis : VisDatagram F) (hv : st.self.itsVis = some vis) (ht : vis.timestamp = T)
    (hi : st.self.poll.itsInterrupted = false) :
    ∃ more, (collect cfg T N expected timeout pulls st).2.1.self.offered =
      st.self.offered ++ vis :: more := by
  have hstep := collectStep_offers_buffered cfg T N expected st vis hv ht hi
  cases pulls with
  | nil =>
    unfold collect
    cases hs : collectStep cfg T N expected st with
    | exit how st1 => rw [hs] at hstep; exact ⟨[], hstep⟩
    | pull st1 => rw [hs] at hstep; exact ⟨[], hstep⟩
  | cons p rest =>
    unfold collect
    cases hs : collectStep cfg T N expected st with
    | exit how st1 => rw [hs] at hstep; exact ⟨[], hstep⟩
    | pull st1 =>
      rw [hs] at hstep
      simp only at hstep ⊢
      obtain ⟨l, hl, _⟩ := collect_offered cfg T N expected timeout rest
        { st1 with self := st1.self.pull p timeout }
      refine ⟨l, ?_⟩
      rw [hl]
      show st1.self.offered ++ l = _
      rw [hstep, List.append_assoc]
      rfl

/-! ## Claims about `next` -/

theorem collect_of_exit {F : Type} [Neg F] (cfg : Config) (T N expected timeout : Nat)
    (pulls : List (Pull F)) (st st1 : Collecting F) (how : LoopExit)
    (h : collectStep cfg T N expected st = CollectStep.exit how st1) :
    collect cfg T N expected timeout pulls st = (how, st1, pulls) := by
  cases pulls <;> simp [collect, h]

theorem collect_of_pull {F : Type} [Neg F] (cfg : Config) (T N expected timeout : Nat)
    (p : Pull F) (rest : List (Pull F)) (st st1 : Collecting F)
    (h : collectStep cfg T N expected st = CollectStep.pull st1) :
    collect cfg T N expected timeout (p :: rest) st =
      collect cfg T N expected timeout rest { st1 with self := st1.self.pull p timeout } := by
  simp [collect, h]

theorem createVisChunk_any_timestamp {F : Type} [Zero F] (cfg : Config) (t1 t2 : Nat)
    (h : ∃ chunk : VisChunk F, createVisChunk cfg t1 = Except.ok chunk) :
    ∃ chunk : VisChunk F, createVisChunk cfg t2 = Except.ok chunk := by
  obtain ⟨c, hc⟩ := h
  obtain ⟨hN, hpol, hfit, _⟩ := createVisChunk_inv cfg t1 c hc
  exact ⟨_, createVisChunk_ok cfg t2 hN hpol hfit⟩

/-- The object after a call of `assemble` that passed the checks before the collecting
loop is the object the collecting loop leaves. -/
theorem assemble_self {F : Type} [Zero F] [Neg F] (cfg : Config) (self : NoMetadataSource F)
    (pulls : List (Pull F)) (vis : VisDatagram F) (chunk : VisChunk F)
    (hts : vis.timestamp ≠ self.itsLastTimestamp)
    (hc : createVisChunk cfg vis.timestamp = Except.ok chunk)
    (hdiv : cfg.localNChannels % cfg.N_CHANNELS_PER_SLICE = 0) :
    (assemble cfg self pulls vis).self =
      (collect cfg vis.timestamp cfg.nAntenna (datagramsExpectedOf cfg) (cfg.interval * 2 % UINT)
        pulls
        { self := { self with itsLastTimestamp := vis.timestamp }, chunk := chunk,
          receivedDatagrams := [], datagramCount := 0, datagramsIgnored := 0 }).2.1.self := by
  unfold assemble
  dsimp only
  rw [if_neg (not_not_intro hts), hc]
  simp only
  rw [if_neg (not_not_intro hdiv)]
  generalize collect cfg vis.timestamp cfg.nAntenna (datagramsExpectedOf cfg)
    (cfg.interval * 2 % UINT) pulls
    { self := { self with itsLastTimestamp := vis.timestamp }, chunk := chunk,
      receivedDatagrams := [], datagramCount := 0, datagramsIgnored := 0 } = res
  obtain ⟨how, st1, pulls1⟩ := res
  cases how <;> rfl

/-- A call of `next` that returned a chunk for `T` passed to `addVis` only datagrams of
timestamp `T`. -/
theorem next_returned_offered {F : Type} [Zero F] [Neg F] (cfg : Config)
    (self : NoMetadataSource F) (pulls : List (Pull F)) (T : Nat)
    (h : (next cfg self pulls).cycleTimestamp = some T) :
    ∃ l, (next cfg self pulls).self.offered = self.offered ++ l ∧ ∀ x ∈ l, x.timestamp = T := by
  obtain ⟨hseed, _, _, _, hchunk, hdiv⟩ := next_returned cfg self pulls T h
  obtain ⟨vis, hd, hv, ht⟩ := seedTimestamp_some self pulls T hseed
  have haw := awaitFirst_done pulls self (awaitFirst pulls self).2.1 (awaitFirst pulls self).2.2
    (by rw [← hd])
  rw [next_of_seed cfg self pulls vis hd hv] at h ⊢
  obtain ⟨_, hts, _⟩ := assemble_returned cfg _ _ vis T h
  subst ht
  obtain ⟨chunk, hc⟩ := hchunk
  rw [assemble_self cfg _ _ vis chunk hts hc hdiv]
  obtain ⟨l, hl, hx⟩ := collect_offered cfg vis.timestamp cfg.nAntenna (datagramsExpectedOf cfg)
    (cfg.interval * 2 % UINT) (awaitFirst pulls self).2.2
    { self := { (awaitFirst pulls self).2.1 with itsLastTimestamp := vis.timestamp }, chunk := chunk,
      receivedDatagrams := [], datagramCount := 0, datagramsIgnored := 0 }
  refine ⟨l, ?_, hx⟩
  rw [hl]
  show (awaitFirst pulls self).2.1.offered ++ l = _
  rw [haw.2.2]

/-- C6 (counterexample). The Source delivers a datagram of timestamp 10, times out, then
delivers a datagram of timestamp 5 and times out: `next` returns a chunk for the cycle
timestamp 10 and then a chunk for the cycle timestamp 5, which is not greater. -/
theorem cycle_timestamp_can_decrease :
    (next exampleConfig (NoMetadataSource.init Int) lateSeedAnswers).cycleTimestamp = some 10 ∧
    (next exampleConfig (next exampleConfig (NoMetadataSource.init Int) lateSeedAnswers).self
      (next exampleConfig (NoMetadataSource.init Int) lateSeedAnswers).pulls).cycleTimestamp =
      some 5 ∧
    ¬ (10 < 5) := by
  decide

/-- C6 (amended). For two successive calls of `next` that each return a chunk, under every
stream of answers of the Source, the cycle timestamp of the second chunk (the timestamp of
its seed datagram) differs from the cycle timestamp of the first, and it is strictly greater
when the seed of the second call is a datagram the first call left buffered. -/
theorem consecutive_cycle_timestamps_differ {F : Type} [Zero F] [Neg F] (cfg : Config)
    (self : NoMetadataSource F) (pulls : List (Pull F)) (T1 T2 : Nat)
    (h1 : (next cfg self pulls).cycleTimestamp = some T1)
    (h2 : (next cfg (next cfg self pulls).self (next cfg self pulls).pulls).cycleTimestamp =
      some T2) :
    T2 ≠ T1 ∧
    seedTimestamp self pulls = some T1 ∧
    seedTimestamp (next cfg self pulls).self (next cfg self pulls).pulls = some T2 ∧
    ((next cfg self pulls).self.itsVis.isSome = true → T1 < T2) := by
  obtain ⟨hs1, _, hl1, hb1, _, _⟩ := next_returned cfg self pulls T1 h1
  obtain ⟨hs2, hn2, _, _, _, _⟩ := next_returned cfg _ _ T2 h2
  refine ⟨by rw [hl1] at hn2; exact hn2, hs1, hs2, ?_⟩
  intro hsome
  cases hv : (next cfg self pulls).self.itsVis with
  | none => rw [hv] at hsome; cases hsome
  | some d =>
    have hlt := hb1 d hv
    have hseed : seedTimestamp (next cfg self pulls).self (next cfg self pulls).pulls =
        some d.timestamp := by
      unfold seedTimestamp
      rw [awaitFirst_buffered _ _ d hv]
      simp [hv]
    rw [hseed] at hs2
    cases hs2
    exact hlt

theorem consecutive_cycle_timestamps_differ_witness :
    ((next exampleConfig (NoMetadataSource.init Int) twoCycleAnswers).cycleTimestamp = some 10 ∧
      (next exampleConfig (next exampleConfig (NoMetadataSource.init Int) twoCycleAnswers).self
        (next exampleConfig (NoMetadataSource.init Int) twoCycleAnswers).pulls).cycleTimestamp =
        some 11) ∧
    (11 ≠ 10 ∧
      seedTimestamp (NoMetadataSource.init Int) twoCycleAnswers = some 10 ∧
      seedTimestamp (next exampleConfig (NoMetadataSource.init Int) twoCycleAnswers).self
        (next exampleConfig (NoMetadataSource.init Int) twoCycleAnswers).pulls = some 11 ∧
      ((next exampleConfig (NoMetadataSource.init Int) twoCycleAnswers).self.itsVis.isSome = true →
        10 < 11)) :=
  ⟨⟨by decide, by decide⟩,
    consecutive_cycle_timestamps_differ exampleConfig (NoMetadataSource.init Int) twoCycleAnswers
      10 11 (by decide) (by decide)⟩

/-- C7. After a call of `next` that returned the chunk of cycle `T1`: if the seed datagram
of the following call carries the timestamp `T1` again, that call raises "Consecutive
VisChunks have the same timestamp" and returns no chunk.  And if two successive seeds carry
timestamps `T1 < T2`, `next` returns the chunk for `T1` and then the chunk for `T2`; this is
proved for every valid configuration and every stream of answers in which no signal is
delivered, no datagram makes `addVis` raise, and the Source times out at least once after
each seed. -/
theorem next_same_timestamp_fatal_and_increasing_returned {F : Type} [Zero F] [Neg F]
    (cfg : Config) (self : NoMetadataSource F) (pulls : List (Pull F)) (T1 : Nat) :
    ((next cfg self pulls).cycleTimestamp = some T1 →
      seedTimestamp (next cfg self pulls).self (next cfg self pulls).pulls = some T1 →
      (next cfg (next cfg self pulls).self (next cfg self pulls).pulls).outcome =
          NextOutcome.raised AskapError.ConsecutiveSameTimestamp ∧
        (next cfg (next cfg self pulls).self (next cfg self pulls).pulls).cycleTimestamp = none) ∧
    (∀ T2, cfg.valid →
      self.itsInterrupted = false → self.signalPending = false →
      (∀ d, self.itsVis = some d → neverRaises cfg d) →
      (∀ p ∈ pulls, p.quiet cfg) →
      seedTimestamp self pulls = some T1 → T1 ≠ self.itsLastTimestamp →
      (∃ p ∈ (awaitFirst pulls self).2.2, p.vis.isNone = true) →
      seedTimestamp (next cfg self pulls).self (next cfg self pulls).pulls = some T2 →
      T1 < T2 →
      (∃ p ∈ (awaitFirst (next cfg self pulls).pulls (next cfg self pulls).self).2.2,
        p.vis.isNone = true) →
      (next cfg self pulls).cycleTimestamp = some T1 ∧
        (next cfg (next cfg self pulls).self (next cfg self pulls).pulls).cycleTimestamp =
          some T2) := by
  constructor
  · intro h1 hseed
    obtain ⟨_, _, hl1, _⟩ := next_returned cfg self pulls T1 h1
    obtain ⟨vis, hd, hv, ht⟩ := seedTimestamp_some _ _ T1 hseed
    have haw := awaitFirst_done _ _ _ _
      (show awaitFirst (next cfg self pulls).pulls (next cfg self pulls).self =
        (LoopExit.done, (awaitFirst (next cfg self pulls).pulls (next cfg self pulls).self).2.1,
          (awaitFirst (next cfg self pulls).pulls (next cfg self pulls).self).2.2) by rw [← hd])
    have hguard : ¬ (vis.timestamp ≠
        (awaitFirst (next cfg self pulls).pulls (next cfg self pulls).self).2.1.itsLastTimestamp) := by
      rw [haw.2.1, hl1, ht]
      exact fun h => h rfl
    rw [next_of_seed cfg _ _ vis hd hv]
    unfold assemble
    dsimp only
    rw [if_pos hguard]
    exact ⟨rfl, rfl⟩
  · intro T2 hvalid hi hs hb hq hseed1 hT1 hnone1 hseed2 hlt hnone2
    obtain ⟨r1, r2, r3, r4, r5⟩ := next_returns cfg hvalid self pulls T1 hi hs hb hq hseed1 hT1 hnone1
    obtain ⟨_, _, hl1, _⟩ := next_returned cfg self pulls T1 r1
    have := next_returns cfg hvalid (next cfg self pulls).self (next cfg self pulls).pulls T2
      r2 r3 r4 (fun p hp => hq p (r5 p hp)) hseed2 (by rw [hl1]; omega) hnone2
    exact ⟨r1, this.1⟩

theorem next_same_timestamp_fatal_and_increasing_returned_witness :
    ((next exampleConfig (next exampleConfig (NoMetadataSource.init Int) repeatedSeedAnswers).self
          (next exampleConfig (NoMetadataSource.init Int) repeatedSeedAnswers).pulls).outcome =
        NextOutcome.raised AskapError.ConsecutiveSameTimestamp ∧
      (next exampleConfig (next exampleConfig (NoMetadataSource.init Int) repeatedSeedAnswers).self
          (next exampleConfig (NoMetadataSource.init Int) repeatedSeedAnswers).pulls).cycleTimestamp =
        none) ∧
    ((next exampleConfig (NoMetadataSource.init Int) twoCycleAnswers).cycleTimestamp = some 10 ∧
      (next exampleConfig (next exampleConfig (NoMetadataSource.init Int) twoCycleAnswers).self
          (next exampleConfig (NoMetadataSource.init Int) twoCycleAnswers).pulls).cycleTimestamp =
        some 11) :=
  ⟨(next_same_timestamp_fatal_and_increasing_returned exampleConfig (NoMetadataSource.init Int)
      repeatedSeedAnswers 10).1 (by decide) (by decide),
    (next_same_timestamp_fatal_and_increasing_returned exampleConfig (NoMetadataSource.init Int)
      twoCycleAnswers 10).2 11 (by decide) rfl rfl (by intro d h; cases h) (by decide) (by decide)
      (by decide) (by decide) (by decide) (by decide) (by decide)⟩

/-- C8. No datagram is lost at a cycle boundary.  While collecting cycle `T`, when the pull
that ends a pass through the loop is answered by a datagram `d` with `d.timestamp > T`, the
loop is left at once with the chunk, the received-set and the counters of that pass and with
`d` buffered.  And after every call of `next` that returned the chunk of cycle `T` and left
a datagram `d` buffered: `d.timestamp > T`; the call passed to `addVis` only datagrams of
timestamp `T` (so not `d`); the first loop of the following call pulls nothing and leaves `d`
as the seed; the following call sets `itsLastTimestamp` (its cycle timestamp) to
`d.timestamp`; and, when no signal is pending, `d` is the first datagram it passes to
`addVis`. -/
theorem future_datagram_seeds_next_cycle {F : Type} [Zero F] [Neg F] (cfg : Config) :
    (∀ (T N expected timeout : Nat) (st st1 : Collecting F) (p : Pull F) (rest : List (Pull F))
        (d : VisDatagram F),
      collectStep cfg T N expected st = CollectStep.pull st1 → p.vis = some d → T < d.timestamp →
      collect cfg T N expected timeout (p :: rest) st =
          (LoopExit.done, { st1 with self := st1.self.pull p timeout }, rest) ∧
        (st1.self.pull p timeout).itsVis = some d ∧
        (st1.self.pull p timeout).offered = st1.self.offered) ∧
    (∀ (self : NoMetadataSource F) (pulls : List (Pull F)) (T : Nat) (d : VisDatagram F),
      (next cfg self pulls).cycleTimestamp = some T →
      (next cfg self pulls).self.itsVis = some d →
      T < d.timestamp ∧
        (∃ l, (next cfg self pulls).self.offered = self.offered ++ l ∧
          ∀ x ∈ l, x.timestamp = T) ∧
        awaitFirst (next cfg self pulls).pulls (next cfg self pulls).self =
          (LoopExit.done, (next cfg self pulls).self, (next cfg self pulls).pulls) ∧
        seedTimestamp (next cfg self pulls).self (next cfg self pulls).pulls =
          some d.timestamp ∧
        (next cfg (next cfg self pulls).self (next cfg self pulls).pulls).self.itsLastTimestamp =
          d.timestamp ∧
        ((next cfg self pulls).self.itsInterrupted = false →
          (next cfg self pulls).self.signalPending = false →
          ∃ more,
            (next cfg (next cfg self pulls).self (next cfg self pulls).pulls).self.offered =
              (next cfg self pulls).self.offered ++ d :: more)) := by
  constructor
  · intro T N expected timeout st st1 p rest d hstep hp hlt
    refine ⟨?_, hp, rfl⟩
    rw [collect_of_pull cfg T N expected timeout p rest st st1 hstep]
    exact collect_of_exit cfg T N expected timeout rest _ _ LoopExit.done
      (collectStep_future cfg T N expected _ d hp hlt)
  · intro self pulls T d h1 hv
    obtain ⟨_, _, hl1, hb1, hchunk, hdiv⟩ := next_returned cfg self pulls T h1
    have hlt := hb1 d hv
    have haw := awaitFirst_buffered (next cfg self pulls).pulls (next cfg self pulls).self d hv
    have hseed : seedTimestamp (next cfg self pulls).self (next cfg self pulls).pulls =
        some d.timestamp := by
      unfold seedTimestamp
      rw [haw]
      simp [hv]
    obtain ⟨chunk, hc⟩ := createVisChunk_any_timestamp cfg T d.timestamp hchunk
    have hts : d.timestamp ≠ (next cfg self pulls).self.itsLastTimestamp := by
      rw [hl1]; omega
    have hnext : next cfg (next cfg self pulls).self (next cfg self pulls).pulls =
        assemble cfg (next cfg self pulls).self (next cfg self pulls).pulls d := by
      have := next_of_seed cfg (next cfg self pulls).self (next cfg self pulls).pulls d
        (by rw [haw]) (by rw [haw]; exact hv)
      rw [haw] at this
      exact this
    have hself := assemble_self cfg (next cfg self pulls).self (next cfg self pulls).pulls d chunk
      hts hc hdiv
    refine ⟨hlt, next_returned_offered cfg self pulls T h1, haw, hseed, ?_, ?_⟩
    · rw [hnext, hself]
      exact (collect_frame cfg d.timestamp cfg.nAntenna (datagramsExpectedOf cfg)
        (cfg.interval * 2 % UINT) (next cfg self pulls).pulls _).1
    · intro hi hs
      rw [hnext, hself]
      have hpoll : ({ (next cfg self pulls).self with
          itsLastTimestamp := d.timestamp } : NoMetadataSource F).poll.itsInterrupted = false := by
        have := poll_of_no_signal ({ (next cfg self pulls).self with
          itsLastTimestamp := d.timestamp } : NoMetadataSource F) hs
        rw [this]
        exact hi
      exact collect_offers_buffered_first cfg d.timestamp cfg.nAntenna (datagramsExpectedOf cfg)
        (cfg.interval * 2 % UINT) (next cfg self pulls).pulls
        { self := { (next cfg self pulls).self with itsLastTimestamp := d.timestamp },
          chunk := chunk, receivedDatagrams := [], datagramCount := 0, datagramsIgnored := 0 }
        d hv rfl hpoll

theorem future_datagram_seeds_next_cycle_witness :
    ((next exampleConfig (NoMetadataSource.init Int) twoCycleAnswers).cycleTimestamp = some 10 ∧
      (next exampleConfig (NoMetadataSource.init Int) twoCycleAnswers).self.itsVis =
        some (exampleDatagram 11 1) ∧
      (next exampleConfig (NoMetadataSource.init Int) twoCycleAnswers).self.itsInterrupted = false ∧
      (next exampleConfig (NoMetadataSource.init Int) twoCycleAnswers).self.signalPending = false) ∧
    (10 < (exampleDatagram 11 1).timestamp ∧
      seedTimestamp (next exampleConfig (NoMetadataSource.init Int) twoCycleAnswers).self
        (next exampleConfig (NoMetadataSource.init Int) twoCycleAnswers).pulls =
        some (exampleDatagram 11 1).timestamp ∧
      (next exampleConfig (next exampleConfig (NoMetadataSource.init Int) twoCycleAnswers).self
        (next exampleConfig (NoMetadataSource.init Int) twoCycleAnswers).pulls).self.itsLastTimestamp =
        (exampleDatagram 11 1).timestamp ∧
      ∃ more,
        (next exampleConfig (next exampleConfig (NoMetadataSource.init Int) twoCycleAnswers).self
          (next exampleConfig (NoMetadataSource.init Int) twoCycleAnswers).pulls).self.offered =
          (next exampleConfig (NoMetadataSource.init Int) twoCycleAnswers).self.offered ++
            exampleDatagram 11 1 :: more) :=
  have h := (future_datagram_seeds_next_cycle exampleConfig).2 (NoMetadataSource.init Int)
    twoCycleAnswers 10 (exampleDatagram 11 1) (by decide) (by rfl)
  ⟨⟨by decide, by rfl, by decide, by decide⟩,
    h.1, h.2.2.2.1, h.2.2.2.2.1, h.2.2.2.2.2 (by decide) (by decide)⟩

/-- C9. While collecting cycle `T`, a buffered datagram with timestamp `< T` is discarded.
With no cancellation pending, the pass through the loop goes straight to the next pull and
leaves the chunk, the received-set, the received count, the ignored count and the record
of datagrams passed to `addVis` as they were; the collection continues with the answer of
that pull in place of the datagram. -/
theorem late_datagram_discarded {F : Type} [Neg F] (cfg : Config)
    (T N expected timeout : Nat) (st : Collecting F) (d : VisDatagram F)
    (hv : st.self.itsVis = some d) (hlate : d.timestamp < T)
    (hi : st.self.itsInterrupted = false) (hs : st.self.signalPending = false) :
    collectStep cfg T N expected st = CollectStep.pull st ∧
    ∀ (p : Pull F) (rest : List (Pull F)),
      collect cfg T N expected timeout (p :: rest) st =
          collect cfg T N expected timeout rest { st with self := st.self.pull p timeout } ∧
        ({ st with self := st.self.pull p timeout } : Collecting F).chunk = st.chunk ∧
        ({ st with self := st.self.pull p timeout } : Collecting F).receivedDatagrams =
          st.receivedDatagrams ∧
        ({ st with self := st.self.pull p timeout } : Collecting F).datagramCount =
          st.datagramCount ∧
        ({ st with self := st.self.pull p timeout } : Collecting F).datagramsIgnored =
          st.datagramsIgnored ∧
        (st.self.pull p timeout).offered = st.self.offered ∧
        (st.self.pull p timeout).itsVis = p.vis := by
  have hp := poll_of_no_signal st.self hs
  have hstep : collectStep cfg T N expected st = CollectStep.pull st := by
    rw [collectStep_late cfg T N expected st d hv hlate (by rw [hp]; exact hi), hp]
  refine ⟨hstep, ?_⟩
  intro p rest
  exact ⟨collect_of_pull cfg T N expected timeout p rest st st hstep, rfl, rfl, rfl, rfl, rfl, rfl⟩

theorem late_datagram_discarded_witness :
    (collectingWithLateDatagram.self.itsVis = some (exampleDatagram 5 1) ∧
      (exampleDatagram 5 1).timestamp < 10 ∧
      collectingWithLateDatagram.self.itsInterrupted = false ∧
      collectingWithLateDatagram.self.signalPending = false) ∧
    collectStep exampleConfig 10 3 6 collectingWithLateDatagram =
      CollectStep.pull collectingWithLateDatagram ∧
    collect exampleConfig 10 3 6 10000000 [answer none] collectingWithLateDatagram =
      collect exampleConfig 10 3 6 10000000 []
        { collectingWithLateDatagram with
          self := collectingWithLateDatagram.self.pull (answer none) 10000000 } :=
  have h := late_datagram_discarded exampleConfig 10 3 6 10000000 collectingWithLateDatagram
    (exampleDatagram 5 1) rfl (by decide) rfl rfl
  ⟨⟨rfl, by decide, rfl, rfl⟩, h.1, (h.2 (answer none) []).1⟩

/-! ## The cells `addVis` changes -/

/-- One iteration of the channel loop leaves a cell as it was, or the cell is one of the
cells of the iteration and its flag is cleared. -/
theorem addVisChannel_cell {F : Type} [Neg F] (cfg : Config) (vis : VisDatagram F)
    (antenna1 antenna2 row chanOffset polidx chan : Nat) (chunk : VisChunk F) (r ch q : Nat) :
    ((addVisChannel cfg vis antenna1 antenna2 row chanOffset polidx chan chunk).2.visibility r ch q =
        chunk.visibility r ch q ∧
      (addVisChannel cfg vis antenna1 antenna2 row chanOffset polidx chan chunk).2.flag r ch q =
        chunk.flag r ch q) ∨
    (r = row ∧ ch = (chanOffset + chan) % UINT ∧
      (q = polidx ∨ (antenna1 = antenna2 ∧ polidx = 1 ∧ q = 2)) ∧
      (addVisChannel cfg vis antenna1 antenna2 row chanOffset polidx chan chunk).2.flag r ch q =
        false) := by
  unfold addVisChannel
  by_cases hc : r = row ∧ ch = (chanOffset + chan) % UINT ∧ q = polidx <;>
  by_cases hc2 : r = row ∧ ch = (chanOffset + chan) % UINT ∧ q = 2 <;>
  split_ifs <;>
  first
  | (left; simp_all [setAt3]; done)
  | (right; simp_all [setAt3]; done)
  | (left; simp [setAt3, hc, hc2])

/-- One iteration of the channel loop never sets a flag: a cell that is unflagged before
is unflagged after. -/
theorem addVisChannel_flag_mono {F : Type} [Neg F] (cfg : Config) (vis : VisDatagram F)
    (antenna1 antenna2 row chanOffset polidx chan : Nat) (chunk : VisChunk F) (r ch q : Nat)
    (h : chunk.flag r ch q = false) :
    (addVisChannel cfg vis antenna1 antenna2 row chanOffset polidx chan chunk).2.flag r ch q =
      false := by
  rcases addVisChannel_cell cfg vis antenna1 antenna2 row chanOffset polidx chan chunk r ch q with
    h1 | h1
  · rw [h1.2, h]
  · exact h1.2.2.2

/-- The channel loop leaves a cell as it was, or the cell is one of the cells of the
datagram and its flag is cleared. -/
theorem addVisChannels_cell {F : Type} [Neg F] (cfg : Config) (vis : VisDatagram F)
    (antenna1 antenna2 row chanOffset polidx : Nat) (chunk : VisChunk F) (r ch q : Nat) :
    ((addVisChannels cfg vis antenna1 antenna2 row chanOffset polidx chunk).2.visibility r ch q =
        chunk.visibility r ch q ∧
      (addVisChannels cfg vis antenna1 antenna2 row chanOffset polidx chunk).2.flag r ch q =
        chunk.flag r ch q) ∨
    (r = row ∧ (∃ i, i < cfg.N_CHANNELS_PER_SLICE ∧ ch = (chanOffset + i) % UINT) ∧
      (q = polidx ∨ (antenna1 = antenna2 ∧ polidx = 1 ∧ q = 2)) ∧
      (addVisChannels cfg vis antenna1 antenna2 row chanOffset polidx chunk).2.flag r ch q =
        false) := by
  unfold addVisChannels
  generalize cfg.N_CHANNELS_PER_SLICE = n
  induction n with
  | zero => left; exact ⟨rfl, rfl⟩
  | succ n ih =>
    rw [List.range_succ, List.foldl_append]
    simp only [List.foldl_cons, List.foldl_nil]
    generalize (List.range n).foldl (fun st chan =>
        match st.1 with
        | Except.error _ => st
        | Except.ok _ =>
          addVisChannel cfg vis antenna1 antenna2 row chanOffset polidx chan st.2)
        (Except.ok (), chunk) = st at ih ⊢
    obtain ⟨o, c⟩ := st
    cases o with
    | error e =>
      rcases ih with h | ⟨h1, ⟨i, hi, hch⟩, h3, h4⟩
      · exact Or.inl h
      · exact Or.inr ⟨h1, ⟨i, Nat.lt_succ_of_lt hi, hch⟩, h3, h4⟩
    | ok u =>
      dsimp only at ih ⊢
      rcases addVisChannel_cell cfg vis antenna1 antenna2 row chanOffset polidx n c r ch q with
        hs | ⟨hs1, hs2, hs3, hs4⟩
      · rcases ih with h | ⟨h1, ⟨i, hi, hch⟩, h3, h4⟩
        · exact Or.inl ⟨hs.1.trans h.1, hs.2.trans h.2⟩
        · exact Or.inr ⟨h1, ⟨i, Nat.lt_succ_of_lt hi, hch⟩, h3, hs.2.trans h4⟩
      · exact Or.inr ⟨hs1, ⟨n, Nat.lt_succ_self n, hs2⟩, hs3, hs4⟩

/-- A call of `addVis`, however it ends, leaves a cell as it was, or the datagram has
passed the duplicate check, the cell is one of its cells and the flag of the cell is
cleared. -/
theorem addVis_cell {F : Type} [Neg F] (cfg : Config) (chunk : VisChunk F)
    (vis : VisDatagram F) (nAntenna : Nat) (recv : List DatagramIdentity) (r ch q : Nat) :
    ((addVis cfg chunk vis nAntenna recv).chunk.visibility r ch q = chunk.visibility r ch q ∧
      (addVis cfg chunk vis nAntenna recv).chunk.flag r ch q = chunk.flag r ch q) ∨
    (reachesDuplicateCheck cfg chunk.stokes nAntenna (identityOf vis) ∧
      identityOf vis ∉ recv ∧
      r = rowOf cfg nAntenna vis ∧
      (∃ i, i < cfg.N_CHANNELS_PER_SLICE ∧
        ch = (vis.slice * cfg.N_CHANNELS_PER_SLICE % UINT + i) % UINT) ∧
      (q = polOf cfg chunk vis ∨
        (toUInt32 (cfg.idToAntenna1 vis.baselineid) = toUInt32 (cfg.idToAntenna2 vis.baselineid) ∧
          polOf cfg chunk vis = 1 ∧ q = 2)) ∧
      (addVis cfg chunk vis nAntenna recv).chunk.flag r ch q = false) := by
  by_cases hr : reachesDuplicateCheck cfg chunk.stokes nAntenna (identityOf vis)
  · rw [addVis_of_reaches cfg chunk vis nAntenna recv hr]
    by_cases hdup : identityOf vis ∈ recv
    · rw [if_pos hdup]; exact Or.inl ⟨rfl, rfl⟩
    rw [if_neg hdup]
    by_cases hrow :
        ¬ (chunk.antenna1 (rowOf cfg nAntenna vis) = toUInt32 (cfg.idToAntenna1 vis.baselineid)) ∨
        ¬ (chunk.antenna2 (rowOf cfg nAntenna vis) = toUInt32 (cfg.idToAntenna2 vis.baselineid)) ∨
        ¬ (chunk.beam1 (rowOf cfg nAntenna vis) = toUInt32 (cfg.itsBeamIDMap vis.beamid)) ∨
        ¬ (chunk.beam2 (rowOf cfg nAntenna vis) = toUInt32 (cfg.itsBeamIDMap vis.beamid))
    · rw [if_pos hrow]; exact Or.inl ⟨rfl, rfl⟩
    rw [if_neg hrow]
    have hcell := addVisChannels_cell cfg vis (toUInt32 (cfg.idToAntenna1 vis.baselineid))
      (toUInt32 (cfg.idToAntenna2 vis.baselineid)) (rowOf cfg nAntenna vis)
      (vis.slice * cfg.N_CHANNELS_PER_SLICE % UINT) (polOf cfg chunk vis) chunk r ch q
    generalize addVisChannels cfg vis (toUInt32 (cfg.idToAntenna1 vis.baselineid))
      (toUInt32 (cfg.idToAntenna2 vis.baselineid)) (rowOf cfg nAntenna vis)
      (vis.slice * cfg.N_CHANNELS_PER_SLICE % UINT) (polOf cfg chunk vis) chunk = res at hcell ⊢
    obtain ⟨o, c⟩ := res
    cases o with
    | error e =>
      rcases hcell with h | ⟨h1, h2, h3, h4⟩
      · exact Or.inl h
      · exact Or.inr ⟨hr, hdup, h1, h2, h3, h4⟩
    | ok u =>
      rcases hcell with h | ⟨h1, h2, h3, h4⟩
      · exact Or.inl h
      · exact Or.inr ⟨hr, hdup, h1, h2, h3, h4⟩
  · have h := addVis_of_not_reaches cfg chunk vis nAntenna recv hr
    rw [h.1]
    exact Or.inl ⟨rfl, rfl⟩

/-- C11. When `addVis` accepts (returns `true` for) an autocorrelation datagram
(`antenna1 == antenna2`) whose polarisation index is 0 or 3, no entry is synthesised:
every value and every flag of the chunk at a polarisation index different from the
polarisation index of the datagram is what it was before the call. -/
theorem addVis_autocorrelation_no_synthesis {F : Type} [Neg F] (cfg : Config)
    (chunk : VisChunk F) (vis : VisDatagram F) (nAntenna : Nat) (recv : List DatagramIdentity)
    (_haccepted : (addVis cfg chunk vis nAntenna recv).outcome = Except.ok true)
    (_hauto : toUInt32 (cfg.idToAntenna1 vis.baselineid) =
      toUInt32 (cfg.idToAntenna2 vis.baselineid))
    (hpol : polOf cfg chunk vis = 0 ∨ polOf cfg chunk vis = 3) :
    ∀ r ch q, q ≠ polOf cfg chunk vis →
      (addVis cfg chunk vis nAntenna recv).chunk.visibility r ch q = chunk.visibility r ch q ∧
      (addVis cfg chunk vis nAntenna recv).chunk.flag r ch q = chunk.flag r ch q := by
  intro r ch q hq
  rcases addVis_cell cfg chunk vis nAntenna recv r ch q with h | ⟨_, _, _, _, h5, _⟩
  · exact h
  · rcases h5 with h5 | ⟨_, h6, _⟩
    · exact absurd h5 hq
    · omega

/-- C11 at a concrete input: the datagram of baseline 3 (antennas 1 and 1, XX, index 0)
of the example is accepted on the fresh chunk, and the cells at the other polarisation
indexes are unchanged. -/
theorem addVis_autocorrelation_no_synthesis_witness :
    (addVis exampleConfig freshChunk (exampleDatagram 10 3) 3 []).outcome = Except.ok true ∧
    toUInt32 (exampleConfig.idToAntenna1 3) = toUInt32 (exampleConfig.idToAntenna2 3) ∧
    polOf exampleConfig freshChunk (exampleDatagram 10 3) = 0 ∧
    ∀ r ch q, q ≠ polOf exampleConfig freshChunk (exampleDatagram 10 3) →
      (addVis exampleConfig freshChunk (exampleDatagram 10 3) 3 []).chunk.visibility r ch q =
        freshChunk.visibility r ch q ∧
      (addVis exampleConfig freshChunk (exampleDatagram 10 3) 3 []).chunk.flag r ch q =
        freshChunk.flag r ch q :=
  ⟨by rfl, by decide, by decide,
    addVis_autocorrelation_no_synthesis exampleConfig freshChunk (exampleDatagram 10 3) 3 []
      (by rfl) (by decide) (Or.inl (by decide))⟩

/-! ## The checks of `addVis` before the duplicate check -/

/-- A datagram of an unmapped baseline is rejected at line 284. -/
theorem addVis_of_unmapped {F : Type} [Neg F] (cfg : Config) (chunk : VisChunk F)
    (vis : VisDatagram F) (nAntenna : Nat) (recv : List DatagramIdentity)
    (h : cfg.idToAntenna1 vis.baselineid = -1 ∨ cfg.idToAntenna2 vis.baselineid = -1 ∨
      cfg.idToStokes vis.baselineid = StokesTypes.Undefined) :
    addVis cfg chunk vis nAntenna recv = ⟨Except.ok false, chunk, recv⟩ := by
  unfold addVis
  dsimp only
  rw [if_pos h]

/-- A datagram of a discarded beam is rejected at line 284 or at line 296. -/
theorem addVis_of_discarded_beam {F : Type} [Neg F] (cfg : Config) (chunk : VisChunk F)
    (vis : VisDatagram F) (nAntenna : Nat) (recv : List DatagramIdentity)
    (h : cfg.itsBeamIDMap vis.beamid < 0) :
    addVis cfg chunk vis nAntenna recv = ⟨Except.ok false, chunk, recv⟩ := by
  by_cases h1 : cfg.idToAntenna1 vis.baselineid = -1 ∨ cfg.idToAntenna2 vis.baselineid = -1 ∨
      cfg.idToStokes vis.baselineid = StokesTypes.Undefined
  · exact addVis_of_unmapped cfg chunk vis nAntenna recv h1
  · unfold addVis
    dsimp only
    rw [if_neg h1, if_pos h]

/-- The check of line 300 raises for a mapped datagram whose beam is not below
`itsMaxNBeams`. -/
theorem addVis_of_beam_outside {F : Type} [Neg F] (cfg : Config) (chunk : VisChunk F)
    (vis : VisDatagram F) (nAntenna : Nat) (recv : List DatagramIdentity)
    (h1 : ¬ (cfg.idToAntenna1 vis.baselineid = -1 ∨ cfg.idToAntenna2 vis.baselineid = -1 ∨
      cfg.idToStokes vis.baselineid = StokesTypes.Undefined))
    (h2 : ¬ (cfg.itsBeamIDMap vis.beamid < 0))
    (h3 : ¬ (cfg.itsBeamIDMap vis.beamid < toInt32 cfg.itsMaxNBeams)) :
    addVis cfg chunk vis nAntenna recv =
      ⟨Except.error AskapError.BeamOutsideRange, chunk, recv⟩ := by
  unfold addVis
  dsimp only
  rw [if_neg h1, if_neg h2, if_pos h3]

/-- A mapped datagram of a beam in range whose polarisation is not on the axis of the
chunk is rejected at line 314. -/
theorem addVis_of_pol_not_on_axis {F : Type} [Neg F] (cfg : Config) (chunk : VisChunk F)
    (vis : VisDatagram F) (nAntenna : Nat) (recv : List DatagramIdentity)
    (h1 : ¬ (cfg.idToAntenna1 vis.baselineid = -1 ∨ cfg.idToAntenna2 vis.baselineid = -1 ∨
      cfg.idToStokes vis.baselineid = StokesTypes.Undefined))
    (h2 : ¬ (cfg.itsBeamIDMap vis.beamid < 0))
    (h3 : cfg.itsBeamIDMap vis.beamid < toInt32 cfg.itsMaxNBeams)
    (h4 : findPolIdx chunk.stokes (cfg.idToStokes vis.baselineid) < 0) :
    addVis cfg chunk vis nAntenna recv = ⟨Except.ok false, chunk, recv⟩ := by
  unfold addVis
  dsimp only
  rw [if_neg h1, if_neg h2, if_neg (not_not_intro h3), if_pos h4]

/-- The checks of lines 321 and 322 raise for a mapped datagram of a beam in range and
a polarisation on the axis whose first or second antenna is not below `nAntenna`. -/
theorem addVis_of_antenna_outside {F : Type} [Neg F] (cfg : Config) (chunk : VisChunk F)
    (vis : VisDatagram F) (nAntenna : Nat) (recv : List DatagramIdentity)
    (h1 : ¬ (cfg.idToAntenna1 vis.baselineid = -1 ∨ cfg.idToAntenna2 vis.baselineid = -1 ∨
      cfg.idToStokes vis.baselineid = StokesTypes.Undefined))
    (h2 : ¬ (cfg.itsBeamIDMap vis.beamid < 0))
    (h3 : cfg.itsBeamIDMap vis.beamid < toInt32 cfg.itsMaxNBeams)
    (h4 : ¬ (findPolIdx chunk.stokes (cfg.idToStokes vis.baselineid) < 0))
    (h5 : ¬ (toUInt32 (cfg.idToAntenna1 vis.baselineid) < nAntenna) ∨
      ¬ (toUInt32 (cfg.idToAntenna2 vis.baselineid) < nAntenna)) :
    addVis cfg chunk vis nAntenna recv =
      ⟨Except.error (if toUInt32 (cfg.idToAntenna1 vis.baselineid) < nAntenna
        then AskapError.Antenna2Invalid else AskapError.Antenna1Invalid), chunk, recv⟩ := by
  unfold addVis
  dsimp only
  rw [if_neg h1, if_neg h2, if_neg (not_not_intro h3), if_neg h4]
  by_cases h6 : toUInt32 (cfg.idToAntenna1 vis.baselineid) < nAntenna
  · have h7 : ¬ (toUInt32 (cfg.idToAntenna2 vis.baselineid) < nAntenna) := by
      rcases h5 with h5 | h5
      · exact absurd h6 h5
      · exact h5
    rw [if_neg (not_not_intro h6), if_pos h7, if_pos h6]
  · rw [if_pos h6, if_neg h6]

/-- The conversion to `casa::Int` of a `casa::uInt` value never exceeds the value. -/
theorem toInt32_le (n : Nat) : toInt32 n ≤ (n : Int) := by
  unfold toInt32
  have h : n % UINT ≤ n := Nat.mod_le n UINT
  split_ifs <;> omega

/-- The search of `addVis` on the polarisation axis gives a negative index exactly when
the polarisation is not on the axis. -/
theorem findPolIdx_neg_iff (stokes : List StokesTypes) (s : StokesTypes) :
    findPolIdx stokes s < 0 ↔ s ∉ stokes := by
  unfold findPolIdx
  have key : ∀ n, n ≤ stokes.length →
      ((List.range n).foldl
        (fun polidx i => if stokes.getD i StokesTypes.Undefined = s then (i : Int) else polidx)
        (-1) < 0 ↔ ∀ i, i < n → stokes.getD i StokesTypes.Undefined ≠ s) := by
    intro n
    induction n with
    | zero => intro _; simp
    | succ n ih =>
      intro hn
      rw [List.range_succ, List.foldl_append]
      simp only [List.foldl_cons, List.foldl_nil]
      have ih2 := ih (by omega)
      by_cases hm : stokes.getD n StokesTypes.Undefined = s
      · rw [if_pos hm]
        constructor
        · intro h; omega
        · intro h; exact absurd hm (h n (by omega))
      · rw [if_neg hm, ih2]
        constructor
        · intro h i hi
          by_cases hin : i = n
          · subst hin; exact hm
          · exact h i (by omega)
        · intro h i hi
          exact h i (by omega)
  rw [key stokes.length (le_refl _)]
  constructor
  · intro h hmem
    obtain ⟨i, hi, hget⟩ := List.getElem_of_mem hmem
    apply h i hi
    rw [List.getD_eq_getElem _ _ hi, hget]
  · intro h i hi hget
    apply h
    rw [List.getD_eq_getElem _ _ hi] at hget
    rw [← hget]
    exact List.getElem_mem hi


/-! ## Rejections and fatal checks of `addVis` -/

/-- C16 (evaluation of the code at a failing input). With the configuration of the
scenario (4 owned channels, 4 channels per slice, so one slice: `S = 1`) the datagram of
baseline 0 in slice 1 is not stopped by the slice check (`slice < 16`), and the channel
check of line 349 (`chanOffset + chan <= nChannel`) lets the iteration `chan = 0` through:
`addVis` writes the value and clears the flag at channel 4 of a chunk with 4 channels, at
the polarisation indexes 1 and 2, records the identity, and raises only at `chan = 1`. -/
theorem addVis_writes_beyond_last_channel :
    exampleConfig.localNChannels / exampleConfig.N_CHANNELS_PER_SLICE = 1 ∧
    sliceOneDatagram.slice = 1 ∧
    freshChunk.nChannel = 4 ∧
    freshChunk.flag 0 4 1 = true ∧
    (addVis exampleConfig freshChunk sliceOneDatagram 3 []).outcome =
      Except.error AskapError.ChannelIndexOverflow ∧
    (addVis exampleConfig freshChunk sliceOneDatagram 3 []).chunk.flag 0 4 1 = false ∧
    (addVis exampleConfig freshChunk sliceOneDatagram 3 []).chunk.flag 0 4 2 = false ∧
    ((addVis exampleConfig freshChunk sliceOneDatagram 3 []).chunk.visibility 0 4 1).re = 1 ∧
    ((addVis exampleConfig freshChunk sliceOneDatagram 3 []).chunk.visibility 0 4 1).im = 7 ∧
    (addVis exampleConfig freshChunk sliceOneDatagram 3 []).receivedDatagrams = [(0, 1, 0)] := by
  refine ⟨by decide, by decide, by decide, by decide, by rfl, by decide, by decide, by decide,
    by decide, by decide⟩

/-- C17 (counterexample). In `strayConfig` the baseline 7 is mapped (antennas 5 and 5,
polarisation RR) and the beam 0 is mapped to 0, below the single beam; the antennas are
not below `N = 3`; yet `addVis` returns `false` and does not raise, because the
polarisation RR is not on the axis of the chunk and that test (line 314) comes before
the antenna checks (lines 321-322). -/
theorem addVis_rejects_before_antenna_checks :
    ¬ (strayConfig.idToAntenna1 (exampleDatagram 10 7).baselineid = -1 ∨
      strayConfig.idToAntenna2 (exampleDatagram 10 7).baselineid = -1 ∨
      strayConfig.idToStokes (exampleDatagram 10 7).baselineid = StokesTypes.Undefined) ∧
    ¬ (strayConfig.itsBeamIDMap (exampleDatagram 10 7).beamid < 0) ∧
    ¬ (toUInt32 (strayConfig.idToAntenna1 (exampleDatagram 10 7).baselineid) < 3) ∧
    ¬ (toUInt32 (strayConfig.idToAntenna2 (exampleDatagram 10 7).baselineid) < 3) ∧
    (addVis strayConfig freshChunk (exampleDatagram 10 7) 3 []).outcome = Except.ok false := by
  refine ⟨by decide, by decide, by decide, by decide, by rfl⟩

/-- C17 (amended). For a datagram whose baseline and beam are both mapped: when the
mapped beam is not below `itsMaxNBeams`, `addVis` raises (beam outside the range); when
the beam is below `itsMaxNBeams`, the polarisation is on the axis of the chunk and the
first or the second antenna is not below `nAntenna`, `addVis` raises (antenna index
invalid); in both cases the chunk and the received-set are left unchanged.  When the
beam is below `itsMaxNBeams` and the polarisation is not on the axis, `addVis` returns
`false` whatever the antennas are. -/
theorem addVis_out_of_range_raises {F : Type} [Neg F] (cfg : Config) (chunk : VisChunk F)
    (vis : VisDatagram F) (nAntenna : Nat) (recv : List DatagramIdentity)
    (hmapped : ¬ (cfg.idToAntenna1 vis.baselineid = -1 ∨ cfg.idToAntenna2 vis.baselineid = -1 ∨
      cfg.idToStokes vis.baselineid = StokesTypes.Undefined))
    (hbeam : ¬ (cfg.itsBeamIDMap vis.beamid < 0)) :
    (((cfg.itsMaxNBeams : Int) ≤ cfg.itsBeamIDMap vis.beamid ∨
        ¬ (cfg.itsBeamIDMap vis.beamid < toInt32 cfg.itsMaxNBeams)) →
      addVis cfg chunk vis nAntenna recv =
        ⟨Except.error AskapError.BeamOutsideRange, chunk, recv⟩) ∧
    (cfg.itsBeamIDMap vis.beamid < toInt32 cfg.itsMaxNBeams →
      cfg.idToStokes vis.baselineid ∈ chunk.stokes →
      (¬ (toUInt32 (cfg.idToAntenna1 vis.baselineid) < nAntenna) →
        addVis cfg chunk vis nAntenna recv =
          ⟨Except.error AskapError.Antenna1Invalid, chunk, recv⟩) ∧
      (toUInt32 (cfg.idToAntenna1 vis.baselineid) < nAntenna →
        ¬ (toUInt32 (cfg.idToAntenna2 vis.baselineid) < nAntenna) →
        addVis cfg chunk vis nAntenna recv =
          ⟨Except.error AskapError.Antenna2Invalid, chunk, recv⟩)) ∧
    (cfg.itsBeamIDMap vis.beamid < toInt32 cfg.itsMaxNBeams →
      cfg.idToStokes vis.baselineid ∉ chunk.stokes →
      addVis cfg chunk vis nAntenna recv = ⟨Except.ok false, chunk, recv⟩) := by
  refine ⟨?_, ?_, ?_⟩
  · intro h
    apply addVis_of_beam_outside cfg chunk vis nAntenna recv hmapped hbeam
    rcases h with h | h
    · have := toInt32_le cfg.itsMaxNBeams
      omega
    · exact h
  · intro h3 hpol
    have h4 : ¬ (findPolIdx chunk.stokes (cfg.idToStokes vis.baselineid) < 0) := by
      rw [findPolIdx_neg_iff]; exact not_not_intro hpol
    refine ⟨?_, ?_⟩
    · intro h5
      rw [addVis_of_antenna_outside cfg chunk vis nAntenna recv hmapped hbeam h3 h4 (Or.inl h5),
        if_neg h5]
    · intro h5 h6
      rw [addVis_of_antenna_outside cfg chunk vis nAntenna recv hmapped hbeam h3 h4 (Or.inr h6),
        if_pos h5]
  · intro h3 hpol
    exact addVis_of_pol_not_on_axis cfg chunk vis nAntenna recv hmapped hbeam h3
      ((findPolIdx_neg_iff _ _).2 hpol)

/-- C17 (amended) at a concrete input: the datagram of baseline 5 (antennas 2 and 2, YY)
of the scenario offered to `addVis` with `nAntenna = 2`. -/
theorem addVis_out_of_range_raises_witness :
    (¬ (exampleConfig.idToAntenna1 (exampleDatagram 10 5).baselineid = -1 ∨
        exampleConfig.idToAntenna2 (exampleDatagram 10 5).baselineid = -1 ∨
        exampleConfig.idToStokes (exampleDatagram 10 5).baselineid = StokesTypes.Undefined) ∧
      ¬ (exampleConfig.itsBeamIDMap (exampleDatagram 10 5).beamid < 0) ∧
      exampleConfig.itsBeamIDMap (exampleDatagram 10 5).beamid < toInt32 exampleConfig.itsMaxNBeams ∧
      exampleConfig.idToStokes (exampleDatagram 10 5).baselineid ∈ freshChunk.stokes ∧
      ¬ (toUInt32 (exampleConfig.idToAntenna1 (exampleDatagram 10 5).baselineid) < 2)) ∧
    addVis exampleConfig freshChunk (exampleDatagram 10 5) 2 [] =
      ⟨Except.error AskapError.Antenna1Invalid, freshChunk, []⟩ :=
  ⟨⟨by decide, by decide, by decide, by decide, by decide⟩,
    ((addVis_out_of_range_raises exampleConfig freshChunk (exampleDatagram 10 5) 2 []
      (by decide) (by decide)).2.1 (by decide) (by decide)).1 (by decide)⟩

/-- C19. A datagram whose baseline id has no entry in the baseline map (one of the two
antenna lookups gives `-1`, or the polarisation lookup gives `Undefined`) is rejected:
`addVis` returns `false`, does not raise, and leaves the chunk and the received-set as
they were.  In the collecting loop, with no cancellation observed, the pass that handles
such a datagram of the cycle timestamp does not raise: it increments the ignored count,
leaves the received count, the chunk and the received-set as they were, and goes on to
the next pull (or, when the received count already equals the expected count, leaves the
loop normally). -/
theorem unmapped_baseline_ignored {F : Type} [Neg F] (cfg : Config)
    (T N expected : Nat) (st : Collecting F) (vis : VisDatagram F)
    (hunmapped : cfg.idToAntenna1 vis.baselineid = -1 ∨ cfg.idToAntenna2 vis.baselineid = -1 ∨
      cfg.idToStokes vis.baselineid = StokesTypes.Undefined)
    (hv : st.self.itsVis = some vis) (hts : vis.timestamp = T)
    (hint : st.self.poll.itsInterrupted = false) :
    (∀ (chunk : VisChunk F) (nAntenna : Nat) (recv : List DatagramIdentity),
      addVis cfg chunk vis nAntenna recv = ⟨Except.ok false, chunk, recv⟩) ∧
    collectStep cfg T N expected st =
      (if st.datagramCount = expected then
        CollectStep.exit LoopExit.done
          { self := { st.self.poll with offered := st.self.poll.offered ++ [vis], itsVis := none }
            chunk := st.chunk
            receivedDatagrams := st.receivedDatagrams
            datagramCount := st.datagramCount
            datagramsIgnored := (st.datagramsIgnored + 1) % UINT }
      else
        CollectStep.pull
          { self := { st.self.poll with offered := st.self.poll.offered ++ [vis], itsVis := none }
            chunk := st.chunk
            receivedDatagrams := st.receivedDatagrams
            datagramCount := st.datagramCount
            datagramsIgnored := (st.datagramsIgnored + 1) % UINT }) := by
  refine ⟨fun chunk nAntenna recv => addVis_of_unmapped cfg chunk vis nAntenna recv hunmapped, ?_⟩
  rw [collectStep_current cfg T N expected st vis hv hts hint,
    addVis_of_unmapped cfg st.chunk vis N st.receivedDatagrams hunmapped]
  rfl

/-- C19 at a concrete input: the datagram of the unmapped baseline 9 in the scenario. -/
theorem unmapped_baseline_ignored_witness :
    ((exampleConfig.idToAntenna1 (exampleDatagram 10 9).baselineid = -1 ∨
        exampleConfig.idToAntenna2 (exampleDatagram 10 9).baselineid = -1 ∨
        exampleConfig.idToStokes (exampleDatagram 10 9).baselineid = StokesTypes.Undefined) ∧
      collectingWithUnmappedDatagram.self.itsVis = some (exampleDatagram 10 9) ∧
      (exampleDatagram 10 9).timestamp = 10 ∧
      collectingWithUnmappedDatagram.self.poll.itsInterrupted = false) ∧
    addVis exampleConfig freshChunk (exampleDatagram 10 9) 3 [] =
      ⟨Except.ok false, freshChunk, []⟩ :=
  ⟨⟨by decide, rfl, by decide, by decide⟩,
    (unmapped_baseline_ignored exampleConfig 10 3 6 collectingWithUnmappedDatagram
      (exampleDatagram 10 9) (by decide) rfl (by decide) (by decide)).1 freshChunk 3 []⟩

/-! ## The anatomy of a call of `next` that returns -/

/-- The part of `next` after the first loop, once its two checks and `createVisChunk`
have passed: the collecting loop, then the hand-over. -/
theorem assemble_eq {F : Type} [Zero F] [Neg F] (cfg : Config) (self : NoMetadataSource F)
    (pulls : List (Pull F)) (vis : VisDatagram F) (chunk : VisChunk F)
    (hts : vis.timestamp ≠ self.itsLastTimestamp)
    (hc : createVisChunk cfg vis.timestamp = Except.ok chunk)
    (hdiv : cfg.localNChannels % cfg.N_CHANNELS_PER_SLICE = 0) :
    assemble cfg self pulls vis =
      match collect cfg vis.timestamp cfg.nAntenna (datagramsExpectedOf cfg)
          (cfg.interval * 2 % UINT) pulls (Collecting.start self chunk vis.timestamp) with
      | (LoopExit.raised e, st, pulls) => ⟨NextOutcome.raised e, st.self, pulls⟩
      | (LoopExit.starved, st, pulls) => ⟨NextOutcome.starved, st.self, pulls⟩
      | (LoopExit.done, st, pulls) =>
        ⟨NextOutcome.returned (emit cfg vis.timestamp st), st.self, pulls⟩ := by
  unfold assemble
  dsimp only
  rw [if_neg (not_not_intro hts), hc]
  simp only
  rw [if_neg (not_not_intro hdiv)]
  rfl

/-- A call of `next` that returns a chunk has left its first loop with a seed datagram
buffered, has passed the two checks, and has left the collecting loop normally. -/
theorem next_returned_anatomy {F : Type} [Zero F] [Neg F] (cfg : Config)
    (self : NoMetadataSource F) (pulls : List (Pull F)) (out : Emitted F)
    (h : (next cfg self pulls).outcome = NextOutcome.returned out) :
    ∃ (self1 : NoMetadataSource F) (pulls1 : List (Pull F)) (vis : VisDatagram F)
      (chunk : VisChunk F) (st : Collecting F) (pulls2 : List (Pull F)),
      awaitFirst pulls self = (LoopExit.done, self1, pulls1) ∧
      self1.itsVis = some vis ∧
      vis.timestamp ≠ self1.itsLastTimestamp ∧
      createVisChunk cfg vis.timestamp = Except.ok chunk ∧
      cfg.localNChannels % cfg.N_CHANNELS_PER_SLICE = 0 ∧
      collect cfg vis.timestamp cfg.nAntenna (datagramsExpectedOf cfg)
          (cfg.interval * 2 % UINT) pulls1 (Collecting.start self1 chunk vis.timestamp) =
        (LoopExit.done, st, pulls2) ∧
      out = emit cfg vis.timestamp st ∧
      (next cfg self pulls).self = st.self ∧
      (next cfg self pulls).pulls = pulls2 := by
  have hT : (next cfg self pulls).cycleTimestamp = some out.currentTimestamp := by
    unfold NextResult.cycleTimestamp
    rw [h]
  obtain ⟨hseed, _, _, _, hchunk, hdiv⟩ := next_returned cfg self pulls _ hT
  obtain ⟨vis, hd, hv, ht⟩ := seedTimestamp_some self pulls _ hseed
  rw [next_of_seed cfg self pulls vis hd hv] at h hT ⊢
  obtain ⟨_, hts, _⟩ := assemble_returned cfg _ _ vis _ hT
  rw [← ht] at hchunk
  obtain ⟨chunk, hc⟩ := hchunk
  rw [assemble_eq cfg _ _ vis chunk hts hc hdiv] at h ⊢
  generalize hres : collect cfg vis.timestamp cfg.nAntenna (datagramsExpectedOf cfg)
    (cfg.interval * 2 % UINT) (awaitFirst pulls self).2.2
    (Collecting.start (awaitFirst pulls self).2.1 chunk vis.timestamp) = res at h ⊢
  obtain ⟨how, st, pulls2⟩ := res
  cases how with
  | raised e => simp at h
  | starved => simp at h
  | done =>
    simp only [NextOutcome.returned.injEq] at h
    refine ⟨(awaitFirst pulls self).2.1, (awaitFirst pulls self).2.2, vis, chunk, st, pulls2,
      ?_, hv, hts, hc, hdiv, hres, h.symm, rfl, rfl⟩
    rw [← hd]

/-- Induction along the collecting loop: a property `I` of the variables at the head of
the loop that every pass re-establishes after the next pull gives the property `Q` of
the way the loop ends and of the variables it ends with. -/
theorem collect_induction {F : Type} [Neg F] (cfg : Config) (T N expected timeout : Nat)
    (I : Collecting F → Prop) (Q : LoopExit → Collecting F → Prop)
    (hstep : ∀ st, I st →
      match collectStep cfg T N expected st with
      | CollectStep.exit how st1 => Q how st1
      | CollectStep.pull st1 =>
        Q LoopExit.starved st1 ∧ ∀ p : Pull F, I { st1 with self := st1.self.pull p timeout })
    (pulls : List (Pull F)) (st : Collecting F) (h : I st) :
    Q (collect cfg T N expected timeout pulls st).1
      (collect cfg T N expected timeout pulls st).2.1 := by
  induction pulls generalizing st with
  | nil =>
    have hs := hstep st h
    unfold collect
    generalize collectStep cfg T N expected st = r at hs ⊢
    cases r with
    | exit how st1 => exact hs
    | pull st1 => exact hs.1
  | cons p rest ih =>
    have hs := hstep st h
    unfold collect
    generalize collectStep cfg T N expected st = r at hs ⊢
    cases r with
    | exit how st1 => exact hs
    | pull st1 => exact ih _ (hs.2 p)

/-! ## Discarded beams and polarisations off the axis -/

/-- C20. A datagram whose raw beam id the beam map sends to a negative value is rejected
without raising: `addVis` returns `false`, the chunk is unchanged and the identity does
not enter the received-set.  The expected count of a call of `next` that returns is
`baselineMapSize * itsMaxNBeams * (localNChannels / N_CHANNELS_PER_SLICE)` (in
`casa::uInt`), whatever the answers of the Source are: it depends on the size of the
baseline map, the configured number of beams and the owned channel count only. -/
theorem discarded_beam_rejected_and_expected_fixed {F : Type} [Zero F] [Neg F] (cfg : Config) :
    (∀ (chunk : VisChunk F) (vis : VisDatagram F) (nAntenna : Nat) (recv : List DatagramIdentity),
      cfg.itsBeamIDMap vis.beamid < 0 →
      addVis cfg chunk vis nAntenna recv = ⟨Except.ok false, chunk, recv⟩) ∧
    (∀ (self : NoMetadataSource F) (pulls : List (Pull F)) (out : Emitted F),
      (next cfg self pulls).outcome = NextOutcome.returned out →
      out.datagramsExpected =
        cfg.baselineMapSize * cfg.itsMaxNBeams *
          (cfg.localNChannels / cfg.N_CHANNELS_PER_SLICE) % UINT) := by
  refine ⟨fun chunk vis nAntenna recv h => addVis_of_discarded_beam cfg chunk vis nAntenna recv h,
    ?_⟩
  intro self pulls out h
  obtain ⟨_, _, vis, _, st, _, _, _, _, _, _, _, hout, _, _⟩ :=
    next_returned_anatomy cfg self pulls out h
  rw [hout]
  rfl

/-- C20 at a concrete input: with the beam map that discards every beam, the datagram of
baseline 0 is rejected, and a call of `next` that receives this datagram and then a
timeout expects 6 datagrams. -/
theorem discarded_beam_rejected_and_expected_fixed_witness :
    discardConfig.itsBeamIDMap (exampleDatagram 10 0).beamid < 0 ∧
    addVis discardConfig freshChunk (exampleDatagram 10 0) 3 [] =
      ⟨Except.ok false, freshChunk, []⟩ ∧
    ∀ out : Emitted Int,
      (next discardConfig (NoMetadataSource.init Int)
        [answer (some (exampleDatagram 10 0)), answer none]).outcome = NextOutcome.returned out →
      out.datagramsExpected = 6 :=
  ⟨by decide,
    (discarded_beam_rejected_and_expected_fixed discardConfig).1 freshChunk
      (exampleDatagram 10 0) 3 [] (by decide),
    fun out h =>
      (discarded_beam_rejected_and_expected_fixed discardConfig).2 (NoMetadataSource.init Int)
        [answer (some (exampleDatagram 10 0)), answer none] out h⟩

/-- C21 (counterexample). In `strayConfig` the baseline 7 is mapped to the polarisation
RR, which is not on the axis of the chunk; its datagram on the raw beam 1, which the beam
map sends to 1 with `itsMaxNBeams = 1`, is not rejected: `addVis` raises at the check of
line 300, which comes before the search on the polarisation axis. -/
theorem addVis_raises_before_polarisation_test :
    strayConfig.idToStokes strayBeamDatagram.baselineid ∉ freshChunk.stokes ∧
    freshChunk.stokes.length = 4 ∧
    (addVis strayConfig freshChunk strayBeamDatagram 3 []).outcome =
      Except.error AskapError.BeamOutsideRange := by
  refine ⟨by decide, by decide, by rfl⟩

/-- C21 (amended). A datagram whose mapped polarisation is not on the polarisation axis
of the chunk is never inserted: `addVis` leaves the chunk (values and flags) and the
received-set unchanged.  It returns `false` without raising, unless the baseline is
mapped and the beam is mapped to a value that is not below `itsMaxNBeams`, in which case
it raises at the check of line 300. -/
theorem addVis_polarisation_off_axis {F : Type} [Neg F] (cfg : Config) (chunk : VisChunk F)
    (vis : VisDatagram F) (nAntenna : Nat) (recv : List DatagramIdentity)
    (hpol : cfg.idToStokes vis.baselineid ∉ chunk.stokes) :
    addVis cfg chunk vis nAntenna recv =
      ⟨if ¬ (cfg.idToAntenna1 vis.baselineid = -1 ∨ cfg.idToAntenna2 vis.baselineid = -1 ∨
            cfg.idToStokes vis.baselineid = StokesTypes.Undefined) ∧
          ¬ (cfg.itsBeamIDMap vis.beamid < 0) ∧
          ¬ (cfg.itsBeamIDMap vis.beamid < toInt32 cfg.itsMaxNBeams)
        then Except.error AskapError.BeamOutsideRange else Except.ok false,
       chunk, recv⟩ := by
  by_cases h1 : cfg.idToAntenna1 vis.baselineid = -1 ∨ cfg.idToAntenna2 vis.baselineid = -1 ∨
      cfg.idToStokes vis.baselineid = StokesTypes.Undefined
  · rw [addVis_of_unmapped cfg chunk vis nAntenna recv h1, if_neg (fun h => h.1 h1)]
  by_cases h2 : cfg.itsBeamIDMap vis.beamid < 0
  · rw [addVis_of_discarded_beam cfg chunk vis nAntenna recv h2, if_neg (fun h => h.2.1 h2)]
  by_cases h3 : cfg.itsBeamIDMap vis.beamid < toInt32 cfg.itsMaxNBeams
  · rw [addVis_of_pol_not_on_axis cfg chunk vis nAntenna recv h1 h2 h3
      ((findPolIdx_neg_iff _ _).2 hpol), if_neg (fun h => h.2.2 h3)]
  · rw [addVis_of_beam_outside cfg chunk vis nAntenna recv h1 h2 h3, if_pos ⟨h1, h2, h3⟩]

/-- C21 (amended) at a concrete input: the datagram of baseline 7 of `strayConfig` on the
beam 0 is rejected. -/
theorem addVis_polarisation_off_axis_witness :
    strayConfig.idToStokes (exampleDatagram 10 7).baselineid ∉ freshChunk.stokes ∧
    (addVis strayConfig freshChunk (exampleDatagram 10 7) 3 [(0, 0, 0)]).outcome =
      Except.ok false ∧
    (addVis strayConfig freshChunk (exampleDatagram 10 7) 3 [(0, 0, 0)]).receivedDatagrams =
      [(0, 0, 0)] :=
  ⟨by decide,
    by rw [addVis_polarisation_off_axis strayConfig freshChunk (exampleDatagram 10 7) 3
      [(0, 0, 0)] (by decide)]; rfl,
    by decide⟩

/-! ## Cancellation -/

/-- A poll with a signal pending, or after an earlier interruption, leaves
`itsInterrupted` set. -/
theorem poll_of_pending {F : Type} (self : NoMetadataSource F)
    (h : self.signalPending = true ∨ self.itsInterrupted = true) :
    self.poll.itsInterrupted = true := by
  unfold NoMetadataSource.poll
  by_cases hs : self.signalPending = true
  · rw [if_pos hs]
  · rw [if_neg hs]
    rcases h with h | h
    · exact absurd h hs
    · exact h

/-- The first loop, entered with a cancellation pending, is left normally only when a
datagram was already buffered (and then without a pull and without a poll). -/
theorem awaitFirst_pending {F : Type} (pulls : List (Pull F)) (self : NoMetadataSource F)
    (h : self.signalPending = true ∨ self.itsInterrupted = true)
    (hd : (awaitFirst pulls self).1 = LoopExit.done) :
    (awaitFirst pulls self).2.1 = self := by
  cases hv : self.itsVis with
  | some vis => rw [awaitFirst_buffered pulls self vis hv]
  | none =>
    cases pulls with
    | nil =>
      unfold awaitFirst at hd
      rw [hv] at hd
      simp at hd
    | cons p rest =>
      have hp : ((self.pull p 10000000).poll).itsInterrupted = true := by
        apply poll_of_pending
        rcases h with h | h
        · left
          show (self.signalPending || p.signal) = true
          rw [h]; rfl
        · right
          exact h
      unfold awaitFirst at hd
      rw [hv] at hd
      simp only [hp, if_true] at hd
      simp at hd

/-- The first pull of the first loop, when a signal is delivered during it, ends `next`
with `InterruptedException`. -/
theorem next_of_signal_in_first_pull {F : Type} [Zero F] [Neg F] (cfg : Config)
    (self : NoMetadataSource F) (p : Pull F) (rest : List (Pull F))
    (hv : self.itsVis = none) (hs : p.signal = true) :
    (next cfg self (p :: rest)).outcome = NextOutcome.raised AskapError.Interrupted := by
  have hp : ((self.pull p 10000000).poll).itsInterrupted = true := by
    apply poll_of_pending
    left
    show (self.signalPending || p.signal) = true
    rw [hs]; simp
  unfold next awaitFirst
  rw [hv]
  simp only [hp, if_true]

/-- A pass through the collecting loop that starts with a cancellation pending and a
datagram of the cycle or of an earlier cycle buffered raises `InterruptedException`. -/
theorem collect_of_pending {F : Type} [Neg F] (cfg : Config) (T N expected timeout : Nat)
    (pulls : List (Pull F)) (st : Collecting F) (d : VisDatagram F)
    (hv : st.self.itsVis = some d) (hts : d.timestamp ≤ T)
    (h : st.self.signalPending = true ∨ st.self.itsInterrupted = true) :
    collect cfg T N expected timeout pulls st =
      (LoopExit.raised AskapError.Interrupted, { st with self := st.self.poll }, pulls) :=
  collect_of_exit cfg T N expected timeout pulls st _ _
    (collectStep_interrupted cfg T N expected st d hv hts (poll_of_pending st.self h))

/-- C15 (counterexample). The Source delivers a datagram of timestamp 10 and then times
out while a signal is delivered: the collecting loop is left by its condition without a
poll, `next` returns the chunk of the cycle 10, `itsInterrupted` is still `false` and the
signal is still pending. -/
theorem next_returns_chunk_with_signal_pending :
    (next exampleConfig (NoMetadataSource.init Int) signalDuringTimeoutAnswers).cycleTimestamp =
      some 10 ∧
    (next exampleConfig (NoMetadataSource.init Int) signalDuringTimeoutAnswers).self.signalPending =
      true ∧
    (next exampleConfig (NoMetadataSource.init Int) signalDuringTimeoutAnswers).self.itsInterrupted =
      false ∧
    (next exampleConfig (NoMetadataSource.init Int) signalDuringTimeoutAnswers).pulls.length = 0 := by
  refine ⟨by decide, by decide, by decide, by decide⟩

/-- C15 (amended). `next` observes a cancellation request at its polls: after every
pull of the first loop and at the top of every pass of the collecting loop.  So (1) a
call of `next` made while a request is pending or after an interruption returns no
chunk; (2) a request delivered during a pull of the first loop ends the call with
`InterruptedException`; (3) a request delivered during a pull of the collecting loop
that is followed by another pass (the pulled datagram has a timestamp `≤ T`) ends the
loop with `InterruptedException`; (4) a request delivered during the pull that ends the
collecting loop (a timeout, or a datagram of a later cycle) is not observed: the loop is
left normally and the request is still pending afterwards. -/
theorem cancellation_observed_at_polls {F : Type} [Zero F] [Neg F] (cfg : Config) :
    (∀ (self : NoMetadataSource F) (pulls : List (Pull F)) (out : Emitted F),
      (self.signalPending = true ∨ self.itsInterrupted = true) →
      (next cfg self pulls).outcome ≠ NextOutcome.returned out) ∧
    (∀ (self : NoMetadataSource F) (p : Pull F) (rest : List (Pull F)),
      self.itsVis = none → p.signal = true →
      (next cfg self (p :: rest)).outcome = NextOutcome.raised AskapError.Interrupted) ∧
    (∀ (T N expected timeout : Nat) (st st1 : Collecting F) (p : Pull F) (rest : List (Pull F))
      (d : VisDatagram F),
      collectStep cfg T N expected st = CollectStep.pull st1 →
      p.signal = true → p.vis = some d → d.timestamp ≤ T →
      collect cfg T N expected timeout (p :: rest) st =
        (LoopExit.raised AskapError.Interrupted,
          { st1 with self := (st1.self.pull p timeout).poll }, rest)) ∧
    (∀ (T N expected timeout : Nat) (st st1 : Collecting F) (p : Pull F) (rest : List (Pull F)),
      collectStep cfg T N expected st = CollectStep.pull st1 →
      p.signal = true → (p.vis = none ∨ ∃ d, p.vis = some d ∧ T < d.timestamp) →
      collect cfg T N expected timeout (p :: rest) st =
          (LoopExit.done, { st1 with self := st1.self.pull p timeout }, rest) ∧
        (st1.self.pull p timeout).signalPending = true) := by
  refine ⟨?_, ?_, ?_, ?_⟩
  · intro self pulls out hpend hret
    obtain ⟨self1, pulls1, vis, chunk, st, pulls2, haw, hv, _, _, _, hcol, _⟩ :=
      next_returned_anatomy cfg self pulls out hret
    have hself : self1 = self := by
      have := awaitFirst_pending pulls self hpend (by rw [haw])
      rw [haw] at this
      exact this
    subst hself
    rw [collect_of_pending cfg vis.timestamp cfg.nAntenna (datagramsExpectedOf cfg)
      (cfg.interval * 2 % UINT) pulls1 (Collecting.start self1 chunk vis.timestamp) vis hv
      (le_refl _) hpend] at hcol
    simp at hcol
  · intro self p rest hv hs
    exact next_of_signal_in_first_pull cfg self p rest hv hs
  · intro T N expected timeout st st1 p rest d hstep hs hv hts
    rw [collect_of_pull cfg T N expected timeout p rest st st1 hstep]
    exact collect_of_pending cfg T N expected timeout rest
      { st1 with self := st1.self.pull p timeout } d hv hts
      (Or.inl (by show (st1.self.signalPending || p.signal) = true; rw [hs]; simp))
  · intro T N expected timeout st st1 p rest hstep hs hv
    rw [collect_of_pull cfg T N expected timeout p rest st st1 hstep]
    refine ⟨?_, by show (st1.self.signalPending || p.signal) = true; rw [hs]; simp⟩
    rcases hv with hv | ⟨d, hv, hts⟩
    · exact collect_of_exit cfg T N expected timeout rest _ _ _
        (collectStep_none cfg T N expected { st1 with self := st1.self.pull p timeout } hv)
    · exact collect_of_exit cfg T N expected timeout rest _ _ _
        (collectStep_future cfg T N expected { st1 with self := st1.self.pull p timeout } d hv hts)

/-- C15 (amended) at a concrete input: a signal delivered while the first pull returns
the datagram of baseline 0 ends `next` with `InterruptedException`. -/
theorem cancellation_observed_at_polls_witness :
    (NoMetadataSource.init Int).itsVis.isNone = true ∧
    (next exampleConfig (NoMetadataSource.init Int)
      [{ vis := some (exampleDatagram 10 0), signal := true }, answer none]).outcome =
      NextOutcome.raised AskapError.Interrupted :=
  ⟨by decide,
    (cancellation_observed_at_polls exampleConfig).2.1 (NoMetadataSource.init Int)
      { vis := some (exampleDatagram 10 0), signal := true } [answer none] rfl rfl⟩

/-! ## Sequences of calls of `addVis` -/

/-- A chunk fresh from `createVisChunk`: every flag set, every value zero, the four
linear polarisation products on the axis, and the owned channels. -/
theorem createVisChunk_fresh {F : Type} [Zero F] (cfg : Config) (timestamp : Nat)
    (chunk : VisChunk F) (h : createVisChunk cfg timestamp = Except.ok chunk) :
    (∀ r ch q, chunk.flag r ch q = true) ∧ (∀ r ch q, chunk.visibility r ch q = 0) ∧
      chunk.stokes = linearAxis ∧ chunk.nChannel = cfg.localNChannels := by
  obtain ⟨_, _, _, hc⟩ := createVisChunk_inv cfg timestamp chunk h
  have hf := foldl_setRowMetadata_frame (rowList cfg.nAntenna cfg.itsMaxNBeams)
    (chunkBeforeRows cfg timestamp : VisChunk F)
  rw [← hc] at hf
  obtain ⟨_, f2, _, _, _, _, f7, f8, f9, _⟩ := hf
  refine ⟨?_, ?_, ?_, f2⟩
  · intro r ch q; rw [f7]; rfl
  · intro r ch q; rw [f8]; rfl
  · rw [f9]; rfl

/-- A call of `addVis` that returns `false` has changed neither the chunk nor the
received-set. -/
theorem addVis_rejected_frame {F : Type} [Neg F] (cfg : Config) (chunk : VisChunk F)
    (vis : VisDatagram F) (nAntenna : Nat) (recv : List DatagramIdentity)
    (h : (addVis cfg chunk vis nAntenna recv).outcome = Except.ok false) :
    (addVis cfg chunk vis nAntenna recv).chunk = chunk ∧
      (addVis cfg chunk vis nAntenna recv).receivedDatagrams = recv := by
  by_cases hr : reachesDuplicateCheck cfg chunk.stokes nAntenna (identityOf vis)
  · rw [addVis_of_reaches cfg chunk vis nAntenna recv hr] at h ⊢
    by_cases hdup : identityOf vis ∈ recv
    · rw [if_pos hdup]; exact ⟨rfl, rfl⟩
    rw [if_neg hdup] at h
    by_cases hrow :
        ¬ (chunk.antenna1 (rowOf cfg nAntenna vis) = toUInt32 (cfg.idToAntenna1 vis.baselineid)) ∨
        ¬ (chunk.antenna2 (rowOf cfg nAntenna vis) = toUInt32 (cfg.idToAntenna2 vis.baselineid)) ∨
        ¬ (chunk.beam1 (rowOf cfg nAntenna vis) = toUInt32 (cfg.itsBeamIDMap vis.beamid)) ∨
        ¬ (chunk.beam2 (rowOf cfg nAntenna vis) = toUInt32 (cfg.itsBeamIDMap vis.beamid))
    · rw [if_pos hrow] at h; cases h
    rw [if_neg hrow] at h
    split at h
    · cases h
    · cases h
  · have := addVis_of_not_reaches cfg chunk vis nAntenna recv hr
    exact ⟨this.1, this.2.1⟩

/-- The channels of an accepted datagram, without the reductions modulo `2 ^ 32`. -/
theorem slice_channel_eq (cfg : Config) (slice i : Nat)
    (hsize : 16 * cfg.N_CHANNELS_PER_SLICE ≤ 2 ^ 32) (hs : slice < 16)
    (hi : i < cfg.N_CHANNELS_PER_SLICE) :
    (slice * cfg.N_CHANNELS_PER_SLICE % UINT + i) % UINT = slice * cfg.N_CHANNELS_PER_SLICE + i := by
  have h1 : (slice + 1) * cfg.N_CHANNELS_PER_SLICE ≤ 16 * cfg.N_CHANNELS_PER_SLICE :=
    Nat.mul_le_mul_right _ (by omega)
  have h2 : (slice + 1) * cfg.N_CHANNELS_PER_SLICE =
      slice * cfg.N_CHANNELS_PER_SLICE + cfg.N_CHANNELS_PER_SLICE := by ring
  unfold UINT
  rw [Nat.mod_eq_of_lt (by omega), Nat.mod_eq_of_lt (by omega)]

/-- A call of `addVis` that returns `true` leaves a cell as it was, or the cell belongs
to the datagram and its flag is cleared. -/
theorem addVis_cell_targets {F : Type} [Neg F] (cfg : Config) (chunk : VisChunk F)
    (vis : VisDatagram F) (nAntenna : Nat) (recv : List DatagramIdentity)
    (hsize : 16 * cfg.N_CHANNELS_PER_SLICE ≤ 2 ^ 32) (r ch q : Nat) :
    ((addVis cfg chunk vis nAntenna recv).chunk.visibility r ch q = chunk.visibility r ch q ∧
      (addVis cfg chunk vis nAntenna recv).chunk.flag r ch q = chunk.flag r ch q) ∨
    (targets cfg nAntenna chunk vis r ch q ∧
      (addVis cfg chunk vis nAntenna recv).chunk.flag r ch q = false) := by
  rcases addVis_cell cfg chunk vis nAntenna recv r ch q with h | ⟨hr, _, h1, ⟨i, hi, hch⟩, h3, h4⟩
  · exact Or.inl h
  · right
    have hs : vis.slice < 16 := hr.2.2.2.2.2.2.2.2
    rw [slice_channel_eq cfg vis.slice i hsize hs hi] at hch
    refine ⟨⟨h1, by omega, ?_, ?_⟩, h4⟩
    · have : (vis.slice + 1) * cfg.N_CHANNELS_PER_SLICE =
          vis.slice * cfg.N_CHANNELS_PER_SLICE + cfg.N_CHANNELS_PER_SLICE := by ring
      omega
    · rcases h3 with h3 | ⟨ha, hp, hq⟩
      · exact Or.inl h3
      · exact Or.inr ⟨hq, ha, hp⟩

/-- A call of `addVis` that returns `true` has cleared the flag of every cell that
belongs to the datagram. -/
theorem addVis_targets_unflagged {F : Type} [Neg F] (cfg : Config) (chunk : VisChunk F)
    (vis : VisDatagram F) (nAntenna : Nat) (recv : List DatagramIdentity)
    (hsize : 16 * cfg.N_CHANNELS_PER_SLICE ≤ 2 ^ 32)
    (h : (addVis cfg chunk vis nAntenna recv).outcome = Except.ok true) (r ch q : Nat)
    (ht : targets cfg nAntenna chunk vis r ch q) :
    (addVis cfg chunk vis nAntenna recv).chunk.flag r ch q = false := by
  obtain ⟨hr, _, _, hok, hchunk⟩ := addVis_accepted cfg chunk vis nAntenna recv h
  have hs : vis.slice < 16 := hr.2.2.2.2.2.2.2.2
  obtain ⟨hrow, hlo, hhi, hq⟩ := ht
  have h2 : (vis.slice + 1) * cfg.N_CHANNELS_PER_SLICE =
      vis.slice * cfg.N_CHANNELS_PER_SLICE + cfg.N_CHANNELS_PER_SLICE := by ring
  have hi : ch - vis.slice * cfg.N_CHANNELS_PER_SLICE < cfg.N_CHANNELS_PER_SLICE := by omega
  have hcells := addVisChannels_cells cfg vis _ _ _ _ _ chunk (by omega) hok _ hi
  rw [slice_channel_eq cfg vis.slice _ hsize hs hi] at hcells
  have hch : vis.slice * cfg.N_CHANNELS_PER_SLICE + (ch - vis.slice * cfg.N_CHANNELS_PER_SLICE) =
      ch := by omega
  rw [hch] at hcells
  rw [hchunk, hrow]
  rcases hq with hq | ⟨hq, ha, hp⟩
  · rw [hq]; exact hcells.2.1
  · rw [hq]
    have := hcells.2.2 ha hp
    exact this.2

/-- The cells that belong to a datagram depend on the chunk through its polarisation
axis only. -/
theorem targets_congr {F : Type} (cfg : Config) (nAntenna : Nat) (chunk chunk1 : VisChunk F)
    (vis : VisDatagram F) (r ch q : Nat) (h : chunk1.stokes = chunk.stokes) :
    targets cfg nAntenna chunk1 vis r ch q ↔ targets cfg nAntenna chunk vis r ch q := by
  unfold targets polOf
  rw [h]

/-- Unfolding of `addVisSeq` at a call that returns. -/
theorem addVisSeq_cons {F : Type} [Neg F] (cfg : Config) (nAntenna : Nat)
    (vis : VisDatagram F) (rest : List (VisDatagram F)) (chunk : VisChunk F)
    (recv : List DatagramIdentity) (c : VisChunk F) (r : List DatagramIdentity)
    (acc : List (VisDatagram F))
    (h : addVisSeq cfg nAntenna (vis :: rest) chunk recv = some (c, r, acc)) :
    ∃ added acc1, (addVis cfg chunk vis nAntenna recv).outcome = Except.ok added ∧
      addVisSeq cfg nAntenna rest (addVis cfg chunk vis nAntenna recv).chunk
        (addVis cfg chunk vis nAntenna recv).receivedDatagrams = some (c, r, acc1) ∧
      acc = if added then vis :: acc1 else acc1 := by
  unfold addVisSeq at h
  cases ho : (addVis cfg chunk vis nAntenna recv).outcome with
  | error e => rw [ho] at h; simp at h
  | ok added =>
    rw [ho] at h
    simp only at h
    cases hrest : addVisSeq cfg nAntenna rest (addVis cfg chunk vis nAntenna recv).chunk
        (addVis cfg chunk vis nAntenna recv).receivedDatagrams with
    | none => rw [hrest] at h; simp at h
    | some res =>
      obtain ⟨c1, r1, acc1⟩ := res
      rw [hrest] at h
      simp only [Option.some.injEq, Prod.mk.injEq] at h
      obtain ⟨h1, h2, h3⟩ := h
      subst h1 h2
      exact ⟨added, acc1, rfl, rfl, h3.symm⟩

/-- A sequence of calls of `addVis` that all return: a cell whose flag is still set has
kept its value and had its flag set before; the received-set has grown by the identities
of the accepted datagrams, which are datagrams of the sequence; and when no datagram was
accepted the chunk is unchanged. -/
theorem addVisSeq_frame {F : Type} [Neg F] (cfg : Config) (nAntenna : Nat)
    (ds : List (VisDatagram F)) (chunk : VisChunk F) (recv : List DatagramIdentity)
    (c : VisChunk F) (r : List DatagramIdentity) (acc : List (VisDatagram F))
    (h : addVisSeq cfg nAntenna ds chunk recv = some (c, r, acc)) :
    chunk.SameHeader c ∧
    (∀ row ch q, c.flag row ch q = true →
      c.visibility row ch q = chunk.visibility row ch q ∧ chunk.flag row ch q = true) ∧
    r = (acc.map identityOf).reverse ++ recv ∧
    (∀ d ∈ acc, d ∈ ds) ∧
    (acc = [] → c = chunk) := by
  induction ds generalizing chunk recv c r acc with
  | nil =>
    unfold addVisSeq at h
    simp only [Option.some.injEq, Prod.mk.injEq] at h
    obtain ⟨h1, h2, h3⟩ := h
    subst h1 h2 h3
    refine ⟨VisChunk.SameHeader.refl _, fun _ _ _ hf => ⟨rfl, hf⟩, by simp, ?_, fun _ => rfl⟩
    intro d hd; simp at hd
  | cons vis rest ih =>
    obtain ⟨added, acc1, ho, hrest, hacc⟩ := addVisSeq_cons cfg nAntenna vis rest chunk recv c r acc h
    obtain ⟨i1, i2, i5, i6, i7⟩ := ih _ _ c r acc1 hrest
    have hh := addVis_header cfg chunk vis nAntenna recv
    have hflagged : ∀ row ch q, c.flag row ch q = true →
        c.visibility row ch q = chunk.visibility row ch q ∧ chunk.flag row ch q = true := by
      intro row ch q hf
      obtain ⟨hv1, hf1⟩ := i2 row ch q hf
      rcases addVis_cell cfg chunk vis nAntenna recv row ch q with hc | ⟨_, _, _, _, _, hc⟩
      · exact ⟨hv1.trans hc.1, hc.2 ▸ hf1⟩
      · rw [hc] at hf1; cases hf1
    cases added with
    | false =>
      simp only [Bool.false_eq_true, if_false] at hacc
      subst hacc
      obtain ⟨e1, e2⟩ := addVis_rejected_frame cfg chunk vis nAntenna recv ho
      rw [e1] at i1 i7
      rw [e2] at i5
      exact ⟨i1, hflagged, i5, fun d hd => List.mem_cons_of_mem _ (i6 d hd), i7⟩
    | true =>
      simp only [if_true] at hacc
      subst hacc
      obtain ⟨_, _, hrecv, _, _⟩ := addVis_accepted cfg chunk vis nAntenna recv ho
      refine ⟨hh.trans i1, hflagged, ?_, ?_, ?_⟩
      · rw [i5, hrecv]
        simp
      · intro d hd
        rcases List.mem_cons.1 hd with hd | hd
        · subst hd; exact List.mem_cons_self _ _
        · exact List.mem_cons_of_mem _ (i6 d hd)
      · intro hnil; simp at hnil

/-- A sequence of calls of `addVis` that all return: a cell whose flag is clear had it
clear before or belongs to an accepted datagram, and the cells of every accepted
datagram are unflagged. -/
theorem addVisSeq_targets {F : Type} [Neg F] (cfg : Config) (nAntenna : Nat)
    (hsize : 16 * cfg.N_CHANNELS_PER_SLICE ≤ 2 ^ 32)
    (ds : List (VisDatagram F)) (chunk : VisChunk F) (recv : List DatagramIdentity)
    (c : VisChunk F) (r : List DatagramIdentity) (acc : List (VisDatagram F))
    (h : addVisSeq cfg nAntenna ds chunk recv = some (c, r, acc)) :
    (∀ row ch q, c.flag row ch q = false →
      chunk.flag row ch q = false ∨ ∃ d ∈ acc, targets cfg nAntenna chunk d row ch q) ∧
    (∀ d ∈ acc, ∀ row ch q, targets cfg nAntenna chunk d row ch q → c.flag row ch q = false) := by
  induction ds generalizing chunk recv c r acc with
  | nil =>
    unfold addVisSeq at h
    simp only [Option.some.injEq, Prod.mk.injEq] at h
    obtain ⟨h1, h2, h3⟩ := h
    subst h1 h2 h3
    refine ⟨fun _ _ _ hf => Or.inl hf, ?_⟩
    intro d hd; simp at hd
  | cons vis rest ih =>
    obtain ⟨added, acc1, ho, hrest, hacc⟩ := addVisSeq_cons cfg nAntenna vis rest chunk recv c r acc h
    obtain ⟨i3, i4⟩ := ih _ _ c r acc1 hrest
    obtain ⟨_, i2, _, _, _⟩ := addVisSeq_frame cfg nAntenna rest _ _ c r acc1 hrest
    have hh := addVis_header cfg chunk vis nAntenna recv
    have hst : (addVis cfg chunk vis nAntenna recv).chunk.stokes = chunk.stokes := hh.2.2.2.2.2.2.1
    cases added with
    | false =>
      simp only [Bool.false_eq_true, if_false] at hacc
      subst hacc
      obtain ⟨e1, e2⟩ := addVis_rejected_frame cfg chunk vis nAntenna recv ho
      rw [e1] at i3 i4
      exact ⟨i3, i4⟩
    | true =>
      simp only [if_true] at hacc
      subst hacc
      refine ⟨?_, ?_⟩
      · intro row ch q hf
        rcases i3 row ch q hf with h1 | ⟨d, hd, ht⟩
        · rcases addVis_cell_targets cfg chunk vis nAntenna recv hsize row ch q with hc | hc
          · left; rw [← hc.2]; exact h1
          · right; exact ⟨vis, List.mem_cons_self _ _, hc.1⟩
        · right
          exact ⟨d, List.mem_cons_of_mem _ hd, (targets_congr cfg nAntenna chunk _ d row ch q hst).1 ht⟩
      · intro d hd row ch q ht
        rcases List.mem_cons.1 hd with hd | hd
        · subst hd
          have hf1 := addVis_targets_unflagged cfg chunk d nAntenna recv hsize ho row ch q ht
          by_contra hne
          have hf : c.flag row ch q = true := by simpa using hne
          rw [(i2 row ch q hf).2] at hf1
          cases hf1
        · exact i4 d hd row ch q ((targets_congr cfg nAntenna chunk _ d row ch q hst).2 ht)

/-- C29. In every chunk obtained from `createVisChunk` followed by a sequence of calls
of `addVis` that all return, every cell whose flag is still set holds the value zero;
and a call of `addVis`, however it ends, changes the value of a cell only together with
clearing the flag of that cell. -/
theorem flagged_cells_hold_zero {F : Type} [Zero F] [Neg F] (cfg : Config)
    (timestamp nAntenna : Nat) (chunk0 : VisChunk F)
    (h0 : createVisChunk cfg timestamp = Except.ok chunk0)
    (ds : List (VisDatagram F)) (recv : List DatagramIdentity)
    (c : VisChunk F) (r : List DatagramIdentity) (acc : List (VisDatagram F))
    (h : addVisSeq cfg nAntenna ds chunk0 recv = some (c, r, acc)) :
    (∀ row ch q, c.flag row ch q = true → c.visibility row ch q = 0) ∧
    (∀ (chunk : VisChunk F) (vis : VisDatagram F) (recv1 : List DatagramIdentity) (row ch q : Nat),
      (addVis cfg chunk vis nAntenna recv1).chunk.visibility row ch q ≠
        chunk.visibility row ch q →
      (addVis cfg chunk vis nAntenna recv1).chunk.flag row ch q = false) := by
  obtain ⟨_, hzero, _, _⟩ := createVisChunk_fresh cfg timestamp chunk0 h0
  obtain ⟨_, hfl, _, _, _⟩ := addVisSeq_frame cfg nAntenna ds chunk0 recv c r acc h
  refine ⟨?_, ?_⟩
  · intro row ch q hf
    rw [(hfl row ch q hf).1, hzero]
  · intro chunk vis recv1 row ch q hne
    rcases addVis_cell cfg chunk vis nAntenna recv1 row ch q with hc | ⟨_, _, _, _, _, hc⟩
    · exact absurd hc.1 hne
    · exact hc

/-- C29 at a concrete input: the first four datagrams of the scenario on the fresh
chunk. -/
theorem flagged_cells_hold_zero_witness :
    (createVisChunk exampleConfig 10 = Except.ok freshChunk ∧
      addVisSeq exampleConfig 3 fourDatagrams freshChunk [] =
        some (fourDatagramsResult.1, fourDatagramsResult.2.1, fourDatagramsResult.2.2)) ∧
    fourDatagramsResult.1.flag 5 0 3 = true ∧
    ∀ row ch q, fourDatagramsResult.1.flag row ch q = true →
      fourDatagramsResult.1.visibility row ch q = 0 :=
  ⟨⟨by rfl, by rfl⟩, by decide,
    (flagged_cells_hold_zero exampleConfig 10 3 freshChunk (by rfl)
      fourDatagrams [] _ _ _ (by rfl)).1⟩

/-! ## The collecting loop as a sequence of calls of `addVis` -/

/-- One more call of `addVis` at the end of a sequence of calls. -/
theorem addVisSeq_snoc {F : Type} [Neg F] (cfg : Config) (nAntenna : Nat)
    (ds : List (VisDatagram F)) (vis : VisDatagram F) (chunk : VisChunk F)
    (recv : List DatagramIdentity) (c : VisChunk F) (r : List DatagramIdentity)
    (acc : List (VisDatagram F)) (added : Bool)
    (h : addVisSeq cfg nAntenna ds chunk recv = some (c, r, acc))
    (ho : (addVis cfg c vis nAntenna r).outcome = Except.ok added) :
    addVisSeq cfg nAntenna (ds ++ [vis]) chunk recv =
      some ((addVis cfg c vis nAntenna r).chunk, (addVis cfg c vis nAntenna r).receivedDatagrams,
        if added then acc ++ [vis] else acc) := by
  induction ds generalizing chunk recv acc with
  | nil =>
    unfold addVisSeq at h
    simp only [Option.some.injEq, Prod.mk.injEq] at h
    obtain ⟨h1, h2, h3⟩ := h
    subst h1 h2 h3
    show addVisSeq cfg nAntenna [vis] chunk recv = _
    unfold addVisSeq
    rw [ho]
    unfold addVisSeq
    cases added <;> rfl
  | cons d rest ih =>
    obtain ⟨added1, acc1, ho1, hrest, hacc⟩ := addVisSeq_cons cfg nAntenna d rest chunk recv c r acc h
    have := ih _ _ acc1 hrest
    show addVisSeq cfg nAntenna (d :: (rest ++ [vis])) chunk recv = _
    unfold addVisSeq
    rw [ho1]
    simp only
    rw [this, hacc]
    cases added <;> cases added1 <;> rfl

/-- A datagram that reaches the duplicate check and is not in the received-set is not
rejected: `addVis` returns `true` or raises. -/
theorem addVis_new_not_rejected {F : Type} [Neg F] (cfg : Config) (chunk : VisChunk F)
    (vis : VisDatagram F) (nAntenna : Nat) (recv : List DatagramIdentity)
    (hr : reachesDuplicateCheck cfg chunk.stokes nAntenna (identityOf vis))
    (hdup : identityOf vis ∉ recv) :
    (addVis cfg chunk vis nAntenna recv).outcome ≠ Except.ok false := by
  rw [addVis_of_reaches cfg chunk vis nAntenna recv hr, if_neg hdup]
  split_ifs
  · simp
  · split <;> simp

/-- A datagram that passes every check of `addVis` and is not in the received-set is
accepted on a chunk with the header of a chunk of `createVisChunk`. -/
theorem addVis_accepts {F : Type} [Zero F] [Neg F] (cfg : Config) (timestamp : Nat)
    (chunk0 chunk : VisChunk F) (h0 : createVisChunk cfg timestamp = Except.ok chunk0)
    (hh : chunk0.SameHeader chunk) (vis : VisDatagram F) (hv : accepts cfg vis)
    (recv : List DatagramIdentity) (hdup : identityOf vis ∉ recv) :
    (addVis cfg chunk vis cfg.nAntenna recv).outcome = Except.ok true := by
  obtain ⟨added, ha⟩ := addVis_neverRaises cfg timestamp chunk0 chunk h0 hh vis hv.2 recv
  have hst : chunk.stokes = linearAxis := by
    rw [hh.2.2.2.2.2.2.1]
    exact (createVisChunk_fresh cfg timestamp chunk0 h0).2.2.1
  have hr : reachesDuplicateCheck cfg chunk.stokes cfg.nAntenna (identityOf vis) := by
    rw [hst]; exact hv.1
  cases added with
  | true => exact ha
  | false => exact absurd ha (addVis_new_not_rejected cfg chunk vis cfg.nAntenna recv hr hdup)

/-- The account of the cycle holds when the collecting loop is entered. -/
theorem tally_start {F : Type} [Neg F] (cfg : Config) (T nAntenna : Nat)
    (self : NoMetadataSource F) (chunk : VisChunk F) :
    Tally cfg T nAntenna chunk self.offered (Collecting.start self chunk T) :=
  ⟨[], [], by simp [Collecting.start], by simp, rfl, le_refl _, rfl, rfl⟩

/-- Every pass through the collecting loop that does not raise keeps the account of the
cycle, and so does the pull that follows it. -/
theorem collectStep_tally {F : Type} [Neg F] (cfg : Config) (T N expected timeout : Nat)
    (chunk0 : VisChunk F) (offered0 : List (VisDatagram F)) (st : Collecting F)
    (h : Tally cfg T N chunk0 offered0 st) :
    match collectStep cfg T N expected st with
    | CollectStep.exit how st1 =>
      (how = LoopExit.done ∨ how = LoopExit.starved) → Tally cfg T N chunk0 offered0 st1
    | CollectStep.pull st1 =>
      ((LoopExit.starved = LoopExit.done ∨ LoopExit.starved = LoopExit.starved) →
        Tally cfg T N chunk0 offered0 st1) ∧
      ∀ p : Pull F, Tally cfg T N chunk0 offered0 { st1 with self := st1.self.pull p timeout } := by
  refine collectStep_cases cfg T N expected st
    (fun r => match r with
      | CollectStep.exit how st1 =>
        (how = LoopExit.done ∨ how = LoopExit.starved) → Tally cfg T N chunk0 offered0 st1
      | CollectStep.pull st1 =>
        ((LoopExit.starved = LoopExit.done ∨ LoopExit.starved = LoopExit.starved) →
          Tally cfg T N chunk0 offered0 st1) ∧
        ∀ p : Pull F, Tally cfg T N chunk0 offered0 { st1 with self := st1.self.pull p timeout })
    ?_ ?_ ?_ ?_ ?_ ?_
  · intro _ _; exact h
  · intro _ _ _ _; exact h
  · intro _ _ _ _ hh
    rcases hh with hh | hh <;> cases hh
  · intro vis _ _ _
    obtain ⟨ds, acc, h1, h2, h3, h4, h5, h6⟩ := h
    have hp : st.self.poll.offered = st.self.offered := (poll_frame st.self).2.2.1
    have key : Tally cfg T N chunk0 offered0 { st with self := st.self.poll } :=
      ⟨ds, acc, hp.trans h1, h2, h3, h4, h5, h6⟩
    exact ⟨fun _ => key, fun p => key⟩
  · intro vis e _ _ _ _ hh
    rcases hh with hh | hh <;> cases hh
  · intro vis added _ hts _ hout st1 hst1
    obtain ⟨ds, acc, h1, h2, h3, h4, h5, h6⟩ := h
    have hp : st.self.poll.offered = st.self.offered := (poll_frame st.self).2.2.1
    have hsnoc := addVisSeq_snoc cfg N ds vis chunk0 [] st.chunk st.receivedDatagrams acc added
      h3 hout
    have key : Tally cfg T N chunk0 offered0 st1 := by
      refine ⟨ds ++ [vis], if added then acc ++ [vis] else acc, ?_, ?_, ?_, ?_, ?_, ?_⟩
      · rw [hst1]
        show st.self.poll.offered ++ [vis] = _
        rw [hp, h1, List.append_assoc]
      · intro d hd
        rcases List.mem_append.1 hd with hd | hd
        · exact h2 d hd
        · simp at hd; rw [hd]; exact hts
      · rw [hst1]; exact hsnoc
      · cases added <;> simp <;> omega
      · rw [hst1]
        show (if added = true then (st.datagramCount + 1) % UINT else st.datagramCount) = _
        cases added
        · simp [h5]
        · simp [h5]
      · rw [hst1]
        show (if added = true then st.datagramsIgnored
          else (st.datagramsIgnored + 1) % UINT) = _
        cases added
        · simp only [Bool.false_eq_true, if_false, List.length_append, List.length_singleton]
          rw [h6]
          have : ds.length + 1 - acc.length = ds.length - acc.length + 1 := by omega
          rw [this]
          simp
        · simp only [if_true, List.length_append, List.length_singleton]
          rw [h6]
          have : ds.length + 1 - (acc.length + 1) = ds.length - acc.length := by omega
          rw [this]
    exact ⟨fun _ _ => key, fun _ => ⟨fun _ => key, fun p => key⟩⟩

/-- The account of the cycle holds whenever the collecting loop is left normally, and
whenever it is about to pull again. -/
theorem collect_tally {F : Type} [Neg F] (cfg : Config) (T N expected timeout : Nat)
    (chunk0 : VisChunk F) (offered0 : List (VisDatagram F))
    (pulls : List (Pull F)) (st : Collecting F) (h : Tally cfg T N chunk0 offered0 st)
    (hhow : (collect cfg T N expected timeout pulls st).1 = LoopExit.done ∨
      (collect cfg T N expected timeout pulls st).1 = LoopExit.starved) :
    Tally cfg T N chunk0 offered0 (collect cfg T N expected timeout pulls st).2.1 :=
  collect_induction cfg T N expected timeout (Tally cfg T N chunk0 offered0)
    (fun how st1 => (how = LoopExit.done ∨ how = LoopExit.starved) →
      Tally cfg T N chunk0 offered0 st1)
    (fun st hst => collectStep_tally cfg T N expected timeout chunk0 offered0 st hst)
    pulls st h hhow

/-! ## When the collecting loop stops -/

/-- The collecting loop is left normally only with no datagram buffered, with a datagram
of a later cycle buffered, or with the received count equal to the expected count. -/
theorem collect_exit_reason {F : Type} [Neg F] (cfg : Config) (T N expected timeout : Nat)
    (pulls : List (Pull F)) (st : Collecting F)
    (h : (collect cfg T N expected timeout pulls st).1 = LoopExit.done) :
    (collect cfg T N expected timeout pulls st).2.1.self.itsVis = none ∨
    (∃ d, (collect cfg T N expected timeout pulls st).2.1.self.itsVis = some d ∧
      T < d.timestamp) ∨
    (collect cfg T N expected timeout pulls st).2.1.datagramCount = expected := by
  refine collect_induction cfg T N expected timeout (fun _ => True)
    (fun how st1 => how = LoopExit.done →
      (st1.self.itsVis = none ∨ (∃ d, st1.self.itsVis = some d ∧ T < d.timestamp) ∨
        st1.datagramCount = expected))
    ?_ pulls st trivial h
  intro st _
  refine collectStep_cases cfg T N expected st
    (fun r => match r with
      | CollectStep.exit how st1 => how = LoopExit.done →
        (st1.self.itsVis = none ∨ (∃ d, st1.self.itsVis = some d ∧ T < d.timestamp) ∨
          st1.datagramCount = expected)
      | CollectStep.pull st1 =>
        (LoopExit.starved = LoopExit.done →
          (st1.self.itsVis = none ∨ (∃ d, st1.self.itsVis = some d ∧ T < d.timestamp) ∨
            st1.datagramCount = expected)) ∧
        ∀ _ : Pull F, True)
    ?_ ?_ ?_ ?_ ?_ ?_
  · intro hv _; exact Or.inl hv
  · intro vis hv hts _; exact Or.inr (Or.inl ⟨vis, hv, hts⟩)
  · intro _ _ _ _ hh; cases hh
  · intro _ _ _ _; exact ⟨(fun hh => by cases hh), fun _ => trivial⟩
  · intro _ _ _ _ _ _ hh; cases hh
  · intro vis added _ _ _ _ st1 _
    exact ⟨fun he _ => Or.inr (Or.inr he), fun _ => ⟨(fun hh => by cases hh), fun _ => trivial⟩⟩

/-- Whenever the collecting loop, entered with a datagram of the cycle buffered or with a
received count that differs from the expected count, is about to pull, the received
count differs from the expected count. -/
theorem collect_pull_count {F : Type} [Neg F] (cfg : Config) (T N expected timeout : Nat)
    (pulls : List (Pull F)) (st : Collecting F)
    (hst : st.datagramCount ≠ expected ∨ ∃ d, st.self.itsVis = some d ∧ d.timestamp = T)
    (h : (collect cfg T N expected timeout pulls st).1 = LoopExit.starved) :
    (collect cfg T N expected timeout pulls st).2.1.datagramCount ≠ expected := by
  refine collect_induction cfg T N expected timeout
    (fun st => st.datagramCount ≠ expected ∨ ∃ d, st.self.itsVis = some d ∧ d.timestamp = T)
    (fun how st1 => how = LoopExit.starved → st1.datagramCount ≠ expected)
    ?_ pulls st hst h
  intro st hI
  refine collectStep_cases cfg T N expected st
    (fun r => match r with
      | CollectStep.exit how st1 => how = LoopExit.starved → st1.datagramCount ≠ expected
      | CollectStep.pull st1 =>
        (LoopExit.starved = LoopExit.starved → st1.datagramCount ≠ expected) ∧
        ∀ p : Pull F,
          ({ st1 with self := st1.self.pull p timeout } : Collecting F).datagramCount ≠ expected ∨
          ∃ d, ({ st1 with self := st1.self.pull p timeout } : Collecting F).self.itsVis = some d ∧
            d.timestamp = T)
    ?_ ?_ ?_ ?_ ?_ ?_
  · intro _ hh; cases hh
  · intro _ _ _ hh; cases hh
  · intro _ _ _ _ hh; cases hh
  · intro vis hv hlate _
    have hc : st.datagramCount ≠ expected := by
      rcases hI with hI | ⟨d, hd, hT⟩
      · exact hI
      · rw [hv] at hd
        cases hd
        omega
    exact ⟨fun _ => hc, fun _ => Or.inl hc⟩
  · intro _ _ _ _ _ _ hh; cases hh
  · intro vis added _ _ _ _ st1 _
    exact ⟨(fun _ hh => by cases hh), fun hne => ⟨fun _ => hne, fun _ => Or.inl hne⟩⟩

/-- With a positive expected count, the received count stays below the expected count
at the head of the collecting loop and never exceeds it. -/
theorem collect_count_le {F : Type} [Neg F] (cfg : Config) (T N expected timeout : Nat)
    (pulls : List (Pull F)) (st : Collecting F) (hlt : expected < UINT)
    (hst : st.datagramCount < expected) :
    (collect cfg T N expected timeout pulls st).2.1.datagramCount ≤ expected := by
  refine collect_induction cfg T N expected timeout
    (fun st => st.datagramCount < expected)
    (fun _ st1 => st1.datagramCount ≤ expected)
    ?_ pulls st hst
  intro st hI
  refine collectStep_cases cfg T N expected st
    (fun r => match r with
      | CollectStep.exit _ st1 => st1.datagramCount ≤ expected
      | CollectStep.pull st1 =>
        st1.datagramCount ≤ expected ∧
        ∀ p : Pull F,
          ({ st1 with self := st1.self.pull p timeout } : Collecting F).datagramCount < expected)
    ?_ ?_ ?_ ?_ ?_ ?_
  · intro _; exact le_of_lt hI
  · intro _ _ _; exact le_of_lt hI
  · intro _ _ _ _; exact le_of_lt hI
  · intro _ _ _ _; exact ⟨le_of_lt hI, fun _ => hI⟩
  · intro _ _ _ _ _ _; exact le_of_lt hI
  · intro vis added _ _ _ _ st1 hst1
    have hc : st1.datagramCount ≤ expected := by
      rw [hst1]
      show (if added = true then (st.datagramCount + 1) % UINT else st.datagramCount) ≤ expected
      cases added
      · simp; omega
      · simp only [if_true]
        rw [Nat.mod_eq_of_lt (by omega)]
        omega
    exact ⟨fun _ => hc, fun hne => ⟨hc, fun _ => lt_of_le_of_ne hc hne⟩⟩

/-! ## What a call of `next` hands over -/

/-- A call of `next` that handed something over returned it. -/
theorem emitted_some {F : Type} (r : NextResult F) (out : Emitted F)
    (h : r.emitted = some out) : r.outcome = NextOutcome.returned out := by
  unfold NextResult.emitted at h
  cases ho : r.outcome with
  | returned o => rw [ho] at h; simp at h; rw [h]
  | raised e => rw [ho] at h; simp at h
  | starved => rw [ho] at h; simp at h

/-- A call of `next` that returned handed over what it returned. -/
theorem emitted_of_returned {F : Type} (r : NextResult F) (out : Emitted F)
    (h : r.outcome = NextOutcome.returned out) : r.emitted = some out := by
  unfold NextResult.emitted
  rw [h]

/-- A call of `next` with a cycle timestamp returned a chunk. -/
theorem returned_of_cycleTimestamp {F : Type} (r : NextResult F) (T : Nat)
    (h : r.cycleTimestamp = some T) : ∃ out, r.outcome = NextOutcome.returned out := by
  unfold NextResult.cycleTimestamp at h
  cases ho : r.outcome with
  | returned o => exact ⟨o, rfl⟩
  | raised e => rw [ho] at h; simp at h
  | starved => rw [ho] at h; simp at h

/-- The account of the cycle holds for what a call of `next` hands over. -/
theorem next_returned_tally {F : Type} [Zero F] [Neg F] (cfg : Config)
    (self : NoMetadataSource F) (pulls : List (Pull F)) (out : Emitted F)
    (h : (next cfg self pulls).outcome = NextOutcome.returned out) :
    ∃ (chunk0 : VisChunk F) (ds acc : List (VisDatagram F)),
      createVisChunk cfg out.currentTimestamp = Except.ok chunk0 ∧
      (next cfg self pulls).self.offered = self.offered ++ ds ∧
      (∀ d ∈ ds, d.timestamp = out.currentTimestamp) ∧
      addVisSeq cfg cfg.nAntenna ds chunk0 [] = some (out.chunk, out.receivedDatagrams, acc) ∧
      acc.length ≤ ds.length ∧
      out.datagramCount = acc.length % UINT ∧
      out.datagramsIgnored = (ds.length - acc.length) % UINT ∧
      out.datagramsExpected = datagramsExpectedOf cfg ∧
      out.packetsLostCount =
        toInt32 ((out.datagramsExpected + UINT - out.datagramCount) % UINT) := by
  obtain ⟨self1, pulls1, vis, chunk, st, pulls2, haw, hv, _, hc, _, hcol, hout, hself, _⟩ :=
    next_returned_anatomy cfg self pulls out h
  have hoff : self1.offered = self.offered := (awaitFirst_done pulls self self1 pulls1 haw).2.2
  have ht := collect_tally cfg vis.timestamp cfg.nAntenna (datagramsExpectedOf cfg)
    (cfg.interval * 2 % UINT) chunk self1.offered pulls1
    (Collecting.start self1 chunk vis.timestamp)
    (tally_start cfg vis.timestamp cfg.nAntenna self1 chunk) (by rw [hcol]; exact Or.inl rfl)
  rw [hcol] at ht
  obtain ⟨ds, acc, h1, h2, h3, h4, h5, h6⟩ := ht
  subst hout
  refine ⟨chunk, ds, acc, hc, ?_, h2, h3, h4, h5, h6, rfl, rfl⟩
  rw [hself, ← hoff]
  exact h1

/-- The received count of a call of `next` that returns with a positive expected count
does not exceed the expected count. -/
theorem next_returned_count_le {F : Type} [Zero F] [Neg F] (cfg : Config)
    (self : NoMetadataSource F) (pulls : List (Pull F)) (out : Emitted F)
    (h : (next cfg self pulls).outcome = NextOutcome.returned out)
    (hpos : 0 < out.datagramsExpected) :
    out.datagramCount ≤ out.datagramsExpected ∧ out.datagramsExpected < UINT := by
  obtain ⟨self1, pulls1, vis, chunk, st, pulls2, _, _, _, _, _, hcol, hout, _, _⟩ :=
    next_returned_anatomy cfg self pulls out h
  have hlt : datagramsExpectedOf cfg < UINT := Nat.mod_lt _ (by unfold UINT; omega)
  subst hout
  have := collect_count_le cfg vis.timestamp cfg.nAntenna (datagramsExpectedOf cfg)
    (cfg.interval * 2 % UINT) pulls1 (Collecting.start self1 chunk vis.timestamp) hlt hpos
  rw [hcol] at this
  exact ⟨this, hlt⟩

/-- A sequence of calls of `addVis` keeps the received-set free of repetitions. -/
theorem addVisSeq_nodup {F : Type} [Neg F] (cfg : Config) (nAntenna : Nat)
    (ds : List (VisDatagram F)) (chunk : VisChunk F) (recv : List DatagramIdentity)
    (c : VisChunk F) (r : List DatagramIdentity) (acc : List (VisDatagram F))
    (h : addVisSeq cfg nAntenna ds chunk recv = some (c, r, acc)) (hnd : recv.Nodup) :
    r.Nodup := by
  induction ds generalizing chunk recv acc with
  | nil =>
    unfold addVisSeq at h
    simp only [Option.some.injEq, Prod.mk.injEq] at h
    rw [← h.2.1]; exact hnd
  | cons vis rest ih =>
    obtain ⟨added, acc1, ho, hrest, _⟩ := addVisSeq_cons cfg nAntenna vis rest chunk recv c r acc h
    apply ih _ _ acc1 hrest
    cases added with
    | false => rw [(addVis_rejected_frame cfg chunk vis nAntenna recv ho).2]; exact hnd
    | true =>
      obtain ⟨_, hnew, hrecv, _, _⟩ := addVis_accepted cfg chunk vis nAntenna recv ho
      rw [hrecv]
      exact List.nodup_cons.2 ⟨hnew, hnd⟩

/-- C26. Whenever `next` returns a chunk and the expected count is positive, the
received count is at most the expected count, so the difference
`datagramsExpected - datagramCount`, computed in `casa::uInt`, does not wrap around: it
is the difference of the two numbers and lies in `[0, expected]`; the value submitted as
"PacketsLostCount" is this difference converted to `int32_t`. -/
theorem lost_count_does_not_wrap {F : Type} [Zero F] [Neg F] (cfg : Config)
    (self : NoMetadataSource F) (pulls : List (Pull F)) (out : Emitted F)
    (h : (next cfg self pulls).outcome = NextOutcome.returned out)
    (hpos : 0 < out.datagramsExpected) :
    out.datagramCount ≤ out.datagramsExpected ∧
    (out.datagramsExpected + UINT - out.datagramCount) % UINT =
      out.datagramsExpected - out.datagramCount ∧
    out.datagramsExpected - out.datagramCount ≤ out.datagramsExpected ∧
    out.packetsLostCount = toInt32 (out.datagramsExpected - out.datagramCount) := by
  obtain ⟨hle, hlt⟩ := next_returned_count_le cfg self pulls out h hpos
  obtain ⟨_, _, _, _, _, _, _, _, _, _, _, hlost⟩ := next_returned_tally cfg self pulls out h
  have hdiff : (out.datagramsExpected + UINT - out.datagramCount) % UINT =
      out.datagramsExpected - out.datagramCount := by
    have : out.datagramsExpected + UINT - out.datagramCount =
        (out.datagramsExpected - out.datagramCount) + UINT := by omega
    rw [this, Nat.add_mod_right, Nat.mod_eq_of_lt (by omega)]
  refine ⟨hle, hdiff, Nat.sub_le _ _, ?_⟩
  rw [hlost, hdiff]

/-- C26 at a concrete input: the first call of `next` on a datagram of timestamp 10
followed by a timeout. -/
theorem lost_count_does_not_wrap_witness :
    ∃ out : Emitted Int,
      (next exampleConfig (NoMetadataSource.init Int) lateSeedAnswers).outcome =
        NextOutcome.returned out ∧
      0 < out.datagramsExpected ∧
      out.datagramCount ≤ out.datagramsExpected ∧
      (out.datagramsExpected + UINT - out.datagramCount) % UINT =
        out.datagramsExpected - out.datagramCount ∧
      out.datagramsExpected - out.datagramCount ≤ out.datagramsExpected ∧
      out.packetsLostCount = toInt32 (out.datagramsExpected - out.datagramCount) := by
  obtain ⟨out, ho⟩ := returned_of_cycleTimestamp
    (next exampleConfig (NoMetadataSource.init Int) lateSeedAnswers) 10 (by decide)
  have hexp : out.datagramsExpected = 6 := by
    have := (next_returned_tally exampleConfig _ _ out ho).choose_spec.choose_spec.choose_spec
    rw [this.2.2.2.2.2.2.2.1]
    decide
  exact ⟨out, ho, by omega,
    lost_count_does_not_wrap exampleConfig (NoMetadataSource.init Int) lateSeedAnswers out ho
      (by omega)⟩

/-- C27. At every point of the collecting loop reached without a raised condition (the
loop has been left normally, or it is about to pull again), the received-set holds no
identity twice and the received count is the number of its identities; the received
count plus the ignored count is the number of datagrams handed to `addVis` in the cycle,
which all have the cycle timestamp `T` (the counters are `casa::uInt`, so the equalities
hold modulo `2 ^ 32`, and exactly while fewer than `2 ^ 32` datagrams have been handed
over).  A call of `addVis` that returns `true` has added the identity of the datagram,
which was not in the received-set; a call that returns `false` has left the
received-set as it was. -/
theorem counters_match_received_set {F : Type} [Zero F] [Neg F] (cfg : Config)
    (T N expected timeout : Nat) (self : NoMetadataSource F) (chunk : VisChunk F)
    (pulls : List (Pull F))
    (hhow :
      (collect cfg T N expected timeout pulls (Collecting.start self chunk T)).1 =
        LoopExit.done ∨
      (collect cfg T N expected timeout pulls (Collecting.start self chunk T)).1 =
        LoopExit.starved) :
    ((collect cfg T N expected timeout pulls
        (Collecting.start self chunk T)).2.1.receivedDatagrams.Nodup ∧
      (collect cfg T N expected timeout pulls (Collecting.start self chunk T)).2.1.datagramCount =
        (collect cfg T N expected timeout pulls
          (Collecting.start self chunk T)).2.1.receivedDatagrams.length % UINT ∧
      ∃ ds : List (VisDatagram F),
        (collect cfg T N expected timeout pulls (Collecting.start self chunk T)).2.1.self.offered =
          self.offered ++ ds ∧
        (∀ d ∈ ds, d.timestamp = T) ∧
        ((collect cfg T N expected timeout pulls
            (Collecting.start self chunk T)).2.1.datagramCount +
          (collect cfg T N expected timeout pulls
            (Collecting.start self chunk T)).2.1.datagramsIgnored) % UINT = ds.length % UINT ∧
        (ds.length < 2 ^ 32 →
          (collect cfg T N expected timeout pulls
              (Collecting.start self chunk T)).2.1.datagramCount =
            (collect cfg T N expected timeout pulls
              (Collecting.start self chunk T)).2.1.receivedDatagrams.length ∧
          (collect cfg T N expected timeout pulls
              (Collecting.start self chunk T)).2.1.datagramCount +
            (collect cfg T N expected timeout pulls
              (Collecting.start self chunk T)).2.1.datagramsIgnored = ds.length)) ∧
    (∀ (c : VisChunk F) (vis : VisDatagram F) (recv : List DatagramIdentity),
      ((addVis cfg c vis N recv).outcome = Except.ok true →
        identityOf vis ∉ recv ∧
        (addVis cfg c vis N recv).receivedDatagrams = identityOf vis :: recv) ∧
      ((addVis cfg c vis N recv).outcome = Except.ok false →
        (addVis cfg c vis N recv).receivedDatagrams = recv)) := by
  have ht := collect_tally cfg T N expected timeout chunk self.offered pulls
    (Collecting.start self chunk T) (tally_start cfg T N self chunk) hhow
  generalize (collect cfg T N expected timeout pulls (Collecting.start self chunk T)).2.1 = st
    at ht ⊢
  obtain ⟨ds, acc, h1, h2, h3, h4, h5, h6⟩ := ht
  obtain ⟨_, _, hrecv, _, _⟩ := addVisSeq_frame cfg N ds chunk [] _ _ acc h3
  have hnd := addVisSeq_nodup cfg N ds chunk [] _ _ acc h3 List.nodup_nil
  have hlen : st.receivedDatagrams.length = acc.length := by
    rw [hrecv]; simp
  refine ⟨⟨hnd, by rw [hlen]; exact h5, ds, h1, h2, ?_, ?_⟩, ?_⟩
  · rw [h5, h6]
    unfold UINT
    omega
  · intro hlt
    rw [hlen, h5, h6]
    unfold UINT
    omega
  · intro c vis recv
    refine ⟨fun h => ?_, fun h => (addVis_rejected_frame cfg c vis N recv h).2⟩
    obtain ⟨_, hnew, hr, _, _⟩ := addVis_accepted cfg c vis N recv h
    exact ⟨hnew, hr⟩

/-- C27 at a concrete input: the collecting loop of the cycle 10 on the fresh chunk, with
the datagram of baseline 0 buffered and then the datagram of baseline 1, the datagram of
baseline 0 again, and a timeout. -/
theorem counters_match_received_set_witness :
    (collect exampleConfig 10 3 6 10000000
        [answer (some (exampleDatagram 10 1)), answer (some (exampleDatagram 10 0)), answer none]
        (Collecting.start
          { NoMetadataSource.init Int with itsVis := some (exampleDatagram 10 0) }
          freshChunk 10)).1 = LoopExit.done ∧
    (collect exampleConfig 10 3 6 10000000
        [answer (some (exampleDatagram 10 1)), answer (some (exampleDatagram 10 0)), answer none]
        (Collecting.start
          { NoMetadataSource.init Int with itsVis := some (exampleDatagram 10 0) }
          freshChunk 10)).2.1.datagramCount =
      (collect exampleConfig 10 3 6 10000000
        [answer (some (exampleDatagram 10 1)), answer (some (exampleDatagram 10 0)), answer none]
        (Collecting.start
          { NoMetadataSource.init Int with itsVis := some (exampleDatagram 10 0) }
          freshChunk 10)).2.1.receivedDatagrams.length % UINT :=
  ⟨by decide,
    (counters_match_received_set exampleConfig 10 3 6 10000000
      { NoMetadataSource.init Int with itsVis := some (exampleDatagram 10 0) } freshChunk
      [answer (some (exampleDatagram 10 1)), answer (some (exampleDatagram 10 0)), answer none]
      (Or.inl (by decide))).1.2.1⟩

/-- C13. A call of `next` stops pulling exactly when the received count equals the
expected count, a pull returned no datagram, or the pulled datagram has a timestamp
greater than `T`.  (1) When `next` returns, one of the three holds, and the expected
count is `baselineMapSize * itsMaxNBeams * (localNChannels / N_CHANNELS_PER_SLICE)` in
`casa::uInt`.  (2) With no datagram buffered, or a datagram of a later cycle, the
collecting loop is left at once and consumes no answer of the Source.  (3) After the
insertion that brings the received count to the expected count the loop is left and
consumes no further answer.  (4) Whenever the collecting loop is about to pull, the
received count differs from the expected count. -/
theorem collecting_stops_exactly_when {F : Type} [Zero F] [Neg F] (cfg : Config) :
    (∀ (self : NoMetadataSource F) (pulls : List (Pull F)) (out : Emitted F),
      (next cfg self pulls).outcome = NextOutcome.returned out →
      out.datagramsExpected =
        cfg.baselineMapSize * cfg.itsMaxNBeams *
          (cfg.localNChannels / cfg.N_CHANNELS_PER_SLICE) % UINT ∧
      ((next cfg self pulls).self.itsVis = none ∨
        (∃ d, (next cfg self pulls).self.itsVis = some d ∧ out.currentTimestamp < d.timestamp) ∨
        out.datagramCount = out.datagramsExpected)) ∧
    (∀ (T N expected timeout : Nat) (pulls : List (Pull F)) (st : Collecting F),
      (st.self.itsVis = none ∨ ∃ d, st.self.itsVis = some d ∧ T < d.timestamp) →
      collect cfg T N expected timeout pulls st = (LoopExit.done, st, pulls)) ∧
    (∀ (T N expected timeout : Nat) (pulls : List (Pull F)) (st : Collecting F)
      (vis : VisDatagram F),
      st.self.itsVis = some vis → vis.timestamp = T → st.self.poll.itsInterrupted = false →
      (addVis cfg st.chunk vis N st.receivedDatagrams).outcome = Except.ok true →
      (st.datagramCount + 1) % UINT = expected →
      ∃ st1, collect cfg T N expected timeout pulls st = (LoopExit.done, st1, pulls) ∧
        st1.datagramCount = expected) ∧
    (∀ (T N expected timeout : Nat) (pulls : List (Pull F)) (self : NoMetadataSource F)
      (chunk : VisChunk F) (d : VisDatagram F),
      self.itsVis = some d → d.timestamp = T →
      (collect cfg T N expected timeout pulls (Collecting.start self chunk T)).1 =
        LoopExit.starved →
      (collect cfg T N expected timeout pulls (Collecting.start self chunk T)).2.1.datagramCount ≠
        expected) := by
  refine ⟨?_, ?_, ?_, ?_⟩
  · intro self pulls out h
    obtain ⟨self1, pulls1, vis, chunk, st, pulls2, _, _, _, _, _, hcol, hout, hself, _⟩ :=
      next_returned_anatomy cfg self pulls out h
    have hr := collect_exit_reason cfg vis.timestamp cfg.nAntenna (datagramsExpectedOf cfg)
      (cfg.interval * 2 % UINT) pulls1 (Collecting.start self1 chunk vis.timestamp)
      (by rw [hcol])
    rw [hcol] at hr
    subst hout
    rw [hself]
    exact ⟨rfl, hr⟩
  · intro T N expected timeout pulls st h
    rcases h with h | ⟨d, h, hts⟩
    · exact collect_of_exit cfg T N expected timeout pulls st st _
        (collectStep_none cfg T N expected st h)
    · exact collect_of_exit cfg T N expected timeout pulls st st _
        (collectStep_future cfg T N expected st d h hts)
  · intro T N expected timeout pulls st vis hv hts hint hout hcount
    have hstep := collectStep_current cfg T N expected st vis hv hts hint
    rw [hout] at hstep
    simp only [if_true] at hstep
    rw [if_pos hcount] at hstep
    exact ⟨_, collect_of_exit cfg T N expected timeout pulls st _ _ hstep, hcount⟩
  · intro T N expected timeout pulls self chunk d hv hts h
    exact collect_pull_count cfg T N expected timeout pulls (Collecting.start self chunk T)
      (Or.inr ⟨d, hv, hts⟩) h

/-- C13 at a concrete input: the first call of `next` on a datagram of timestamp 10
followed by a timeout returns with no datagram buffered. -/
theorem collecting_stops_exactly_when_witness :
    ∃ out : Emitted Int,
      (next exampleConfig (NoMetadataSource.init Int) lateSeedAnswers).outcome =
        NextOutcome.returned out ∧
      out.datagramsExpected = 6 ∧
      (next exampleConfig (NoMetadataSource.init Int) lateSeedAnswers).self.itsVis.isNone =
        true := by
  obtain ⟨out, ho⟩ := returned_of_cycleTimestamp
    (next exampleConfig (NoMetadataSource.init Int) lateSeedAnswers) 10 (by decide)
  have key := (collecting_stops_exactly_when exampleConfig).1 (NoMetadataSource.init Int)
    lateSeedAnswers out ho
  exact ⟨out, ho, by rw [key.1]; decide, by decide⟩

/-! ## A cycle of distinct valid datagrams -/

/-- The collecting loop on a run of distinct datagrams of the cycle that pass every
check, up to the expected count or a timeout: every datagram is accepted and the loop is
left normally. -/
theorem collect_accepting {F : Type} [Zero F] [Neg F] (cfg : Config) (timestamp : Nat)
    (chunk0 : VisChunk F) (h0 : createVisChunk cfg timestamp = Except.ok chunk0)
    (T expected timeout : Nat) (hexp : expected < UINT) (tail : List (Pull F))
    (ds : List (VisDatagram F)) :
    ∀ (d : VisDatagram F) (st : Collecting F),
      st.self.itsVis = some d → st.self.itsInterrupted = false →
      st.self.signalPending = false → chunk0.SameHeader st.chunk →
      (∀ x ∈ d :: ds, x.timestamp = T ∧ accepts cfg x ∧ identityOf x ∉ st.receivedDatagrams) →
      ((d :: ds).map identityOf).Nodup →
      st.datagramCount + (ds.length + 1) ≤ expected →
      (st.datagramCount + (ds.length + 1) = expected ∨
        ∃ p tail1, tail = p :: tail1 ∧ p.vis = none) →
      ∃ (st1 : Collecting F) (rem : List (Pull F)),
        collect cfg T cfg.nAntenna expected timeout (ds.map deliver ++ tail) st =
          (LoopExit.done, st1, rem) ∧
        addVisSeq cfg cfg.nAntenna (d :: ds) st.chunk st.receivedDatagrams =
          some (st1.chunk, st1.receivedDatagrams, d :: ds) ∧
        st1.datagramCount = st.datagramCount + (ds.length + 1) := by
  induction ds with
  | nil =>
    intro d st hv hi hs hh hx _ hle htail
    obtain ⟨hts, hacc, hnew⟩ := hx d (List.mem_cons_self _ _)
    have hp := poll_of_no_signal st.self hs
    have hout := addVis_accepts cfg timestamp chunk0 st.chunk h0 hh d hacc st.receivedDatagrams hnew
    have hstep := collectStep_current cfg T cfg.nAntenna expected st d hv hts (by rw [hp]; exact hi)
    rw [hout] at hstep
    simp only [if_true] at hstep
    have hmod : (st.datagramCount + 1) % UINT = st.datagramCount + 1 :=
      Nat.mod_eq_of_lt (by simp at hle; omega)
    rw [hmod] at hstep
    have hseq : addVisSeq cfg cfg.nAntenna [d] st.chunk st.receivedDatagrams =
        some ((addVis cfg st.chunk d cfg.nAntenna st.receivedDatagrams).chunk,
          (addVis cfg st.chunk d cfg.nAntenna st.receivedDatagrams).receivedDatagrams, [d]) := by
      unfold addVisSeq
      rw [hout]
      unfold addVisSeq
      rfl
    by_cases hc : st.datagramCount + 1 = expected
    · rw [if_pos hc] at hstep
      exact ⟨_, _, collect_of_exit cfg T cfg.nAntenna expected timeout _ st _ _ hstep, hseq, rfl⟩
    · rw [if_neg hc] at hstep
      obtain ⟨p, tail1, htl, hpv⟩ := htail.resolve_left (by simpa using hc)
      subst htl
      simp only [List.map_nil, List.nil_append]
      rw [collect_of_pull cfg T cfg.nAntenna expected timeout p tail1 st _ hstep]
      exact ⟨_, _, collect_of_exit cfg T cfg.nAntenna expected timeout _ _ _ _
        (collectStep_none cfg T cfg.nAntenna expected _ hpv), hseq, rfl⟩
  | cons d1 ds1 ih =>
    intro d st hv hi hs hh hx hnd hle htail
    obtain ⟨hts, hacc, hnew⟩ := hx d (List.mem_cons_self _ _)
    have hp := poll_of_no_signal st.self hs
    have hout := addVis_accepts cfg timestamp chunk0 st.chunk h0 hh d hacc st.receivedDatagrams hnew
    have hrecv := (addVis_accepted cfg st.chunk d cfg.nAntenna st.receivedDatagrams hout).2.2.1
    have hstep := collectStep_current cfg T cfg.nAntenna expected st d hv hts (by rw [hp]; exact hi)
    rw [hout] at hstep
    simp only [if_true] at hstep
    simp only [List.length_cons] at hle htail
    have hmod : (st.datagramCount + 1) % UINT = st.datagramCount + 1 :=
      Nat.mod_eq_of_lt (by omega)
    rw [hmod] at hstep
    have hc : ¬ (st.datagramCount + 1 = expected) := by omega
    rw [if_neg hc] at hstep
    simp only [List.map_cons, List.cons_append]
    rw [collect_of_pull cfg T cfg.nAntenna expected timeout (deliver d1) _ st _ hstep]
    have hnd1 : ((d1 :: ds1).map identityOf).Nodup := by
      simp only [List.map_cons] at hnd ⊢
      exact (List.nodup_cons.1 hnd).2
    have hnotin : ∀ x ∈ d1 :: ds1, identityOf x ≠ identityOf d := by
      intro x hxm heq
      simp only [List.map_cons] at hnd
      apply (List.nodup_cons.1 hnd).1
      rw [← heq]
      exact List.mem_map.2 ⟨x, hxm, rfl⟩
    obtain ⟨st1, rem, hcol, hseq, hcount⟩ := ih d1
      { self := ({ st.self.poll with offered := st.self.poll.offered ++ [d], itsVis := none } :
          NoMetadataSource F).pull (deliver d1) timeout
        chunk := (addVis cfg st.chunk d cfg.nAntenna st.receivedDatagrams).chunk
        receivedDatagrams := (addVis cfg st.chunk d cfg.nAntenna st.receivedDatagrams).receivedDatagrams
        datagramCount := st.datagramCount + 1
        datagramsIgnored := st.datagramsIgnored }
      rfl (by show st.self.poll.itsInterrupted = false; rw [hp]; exact hi)
      (by show (st.self.poll.signalPending || false) = false; rw [hp, hs]; rfl)
      (hh.trans (addVis_header cfg st.chunk d cfg.nAntenna st.receivedDatagrams))
      (by
        intro x hxm
        obtain ⟨a, b, c⟩ := hx x (List.mem_cons_of_mem _ hxm)
        refine ⟨a, b, ?_⟩
        show identityOf x ∉ (addVis cfg st.chunk d cfg.nAntenna st.receivedDatagrams).receivedDatagrams
        rw [hrecv]
        intro hmem
        rcases List.mem_cons.1 hmem with hmem | hmem
        · exact hnotin x hxm hmem
        · exact c hmem)
      hnd1
      (by show st.datagramCount + 1 + (ds1.length + 1) ≤ expected; omega)
      (by
        rcases htail with htail | htail
        · left; show st.datagramCount + 1 + (ds1.length + 1) = expected; omega
        · right; exact htail)
    refine ⟨st1, rem, hcol, ?_, ?_⟩
    · unfold addVisSeq
      rw [hout]
      simp only
      rw [hseq]
      rfl
    · rw [hcount]
      show st.datagramCount + 1 + (ds1.length + 1) = st.datagramCount + (ds1.length + 1 + 1)
      omega

/-- The first loop on an answer that delivers a datagram while nothing is pending. -/
theorem awaitFirst_deliver {F : Type} (self : NoMetadataSource F) (d : VisDatagram F)
    (rest : List (Pull F)) (hv : self.itsVis = none) (hi : self.itsInterrupted = false)
    (hs : self.signalPending = false) :
    awaitFirst (deliver d :: rest) self =
      (LoopExit.done, self.pull (deliver d) 10000000, rest) := by
  have hs1 : (self.pull (deliver d) 10000000).signalPending = false := by
    show (self.signalPending || false) = false
    rw [hs]; rfl
  have hp := poll_of_no_signal (self.pull (deliver d) 10000000) hs1
  unfold awaitFirst
  rw [hv]
  simp only [hp]
  have hi1 : (self.pull (deliver d) 10000000).itsInterrupted = false := hi
  rw [hi1]
  simp only [Bool.false_eq_true, if_false]
  exact awaitFirst_buffered rest _ d rfl

/-- The first loop on timeouts only does not come to an end. -/
theorem awaitFirst_timeouts {F : Type} (n : Nat) (self : NoMetadataSource F)
    (hv : self.itsVis = none) (hi : self.itsInterrupted = false)
    (hs : self.signalPending = false) :
    (awaitFirst (List.replicate n ({ vis := none, signal := false } : Pull F)) self).1 =
      LoopExit.starved := by
  induction n generalizing self with
  | zero =>
    simp only [List.replicate_zero]
    unfold awaitFirst
    rw [hv]
  | succ n ih =>
    simp only [List.replicate_succ]
    have hs1 : (self.pull ({ vis := none, signal := false } : Pull F) 10000000).signalPending =
        false := by
      show (self.signalPending || false) = false
      rw [hs]; rfl
    have hp := poll_of_no_signal (self.pull ({ vis := none, signal := false } : Pull F) 10000000) hs1
    unfold awaitFirst
    rw [hv]
    simp only [hp]
    have hi1 : (self.pull ({ vis := none, signal := false } : Pull F) 10000000).itsInterrupted =
        false := hi
    rw [hi1]
    simp only [Bool.false_eq_true, if_false]
    exact ih _ rfl hi hs1

/-- Whether one iteration of the channel loop raises depends on the chunk through its
number of channels only, which the iteration does not change. -/
theorem addVisChannel_status_congr {F : Type} [Neg F] (cfg : Config) (vis : VisDatagram F)
    (antenna1 antenna2 row chanOffset polidx chan : Nat) (c c1 : VisChunk F)
    (h : c.nChannel = c1.nChannel) :
    (addVisChannel cfg vis antenna1 antenna2 row chanOffset polidx chan c).1 =
        (addVisChannel cfg vis antenna1 antenna2 row chanOffset polidx chan c1).1 ∧
      (addVisChannel cfg vis antenna1 antenna2 row chanOffset polidx chan c).2.nChannel =
        (addVisChannel cfg vis antenna1 antenna2 row chanOffset polidx chan c1).2.nChannel := by
  unfold addVisChannel
  simp only [h]
  split_ifs <;> simp [h]

/-- Whether the channel loop raises depends on the chunk through its number of channels
only. -/
theorem addVisChannels_status_congr {F : Type} [Neg F] (cfg : Config) (vis : VisDatagram F)
    (antenna1 antenna2 row chanOffset polidx : Nat) (c c1 : VisChunk F)
    (h : c.nChannel = c1.nChannel) :
    (addVisChannels cfg vis antenna1 antenna2 row chanOffset polidx c).1 =
      (addVisChannels cfg vis antenna1 antenna2 row chanOffset polidx c1).1 := by
  unfold addVisChannels
  generalize cfg.N_CHANNELS_PER_SLICE = n
  suffices hs :
      ((List.range n).foldl (fun st chan =>
          match st.1 with
          | Except.error _ => st
          | Except.ok _ => addVisChannel cfg vis antenna1 antenna2 row chanOffset polidx chan st.2)
        (Except.ok (), c)).1 =
      ((List.range n).foldl (fun st chan =>
          match st.1 with
          | Except.error _ => st
          | Except.ok _ => addVisChannel cfg vis antenna1 antenna2 row chanOffset polidx chan st.2)
        (Except.ok (), c1)).1 ∧
      ((List.range n).foldl (fun st chan =>
          match st.1 with
          | Except.error _ => st
          | Except.ok _ => addVisChannel cfg vis antenna1 antenna2 row chanOffset polidx chan st.2)
        (Except.ok (), c)).2.nChannel =
      ((List.range n).foldl (fun st chan =>
          match st.1 with
          | Except.error _ => st
          | Except.ok _ => addVisChannel cfg vis antenna1 antenna2 row chanOffset polidx chan st.2)
        (Except.ok (), c1)).2.nChannel from hs.1
  induction n with
  | zero => exact ⟨rfl, h⟩
  | succ n ih =>
    rw [List.range_succ, List.foldl_append, List.foldl_append]
    simp only [List.foldl_cons, List.foldl_nil]
    generalize (List.range n).foldl (fun st chan =>
        match st.1 with
        | Except.error _ => st
        | Except.ok _ =>
          addVisChannel cfg vis antenna1 antenna2 row chanOffset polidx chan st.2)
        (Except.ok (), c) = s at ih ⊢
    generalize (List.range n).foldl (fun st chan =>
        match st.1 with
        | Except.error _ => st
        | Except.ok _ =>
          addVisChannel cfg vis antenna1 antenna2 row chanOffset polidx chan st.2)
        (Except.ok (), c1) = s1 at ih ⊢
    obtain ⟨o, k⟩ := s
    obtain ⟨o1, k1⟩ := s1
    obtain ⟨ih1, ih2⟩ := ih
    simp only at ih1 ih2
    subst ih1
    cases o with
    | error e => exact ⟨rfl, ih2⟩
    | ok u => exact addVisChannel_status_congr cfg vis antenna1 antenna2 row chanOffset polidx n k k1 ih2

/-- A datagram that `addVis` accepts on a chunk is accepted on every chunk with the same
header, with every received-set that does not hold its identity. -/
theorem addVis_accepted_transfer {F : Type} [Neg F] (cfg : Config) (c c1 : VisChunk F)
    (vis : VisDatagram F) (nAntenna : Nat) (recv recv1 : List DatagramIdentity)
    (h : (addVis cfg c vis nAntenna recv).outcome = Except.ok true)
    (hh : c.SameHeader c1) (hnew : identityOf vis ∉ recv1) :
    (addVis cfg c1 vis nAntenna recv1).outcome = Except.ok true := by
  obtain ⟨hr, hdup, _, hok, _⟩ := addVis_accepted cfg c vis nAntenna recv h
  obtain ⟨_, e2, _, _, _, _, e7, _, e9, e10, e11, e12⟩ := hh
  have hrow : ¬ (¬ (c.antenna1 (rowOf cfg nAntenna vis) = toUInt32 (cfg.idToAntenna1 vis.baselineid)) ∨
      ¬ (c.antenna2 (rowOf cfg nAntenna vis) = toUInt32 (cfg.idToAntenna2 vis.baselineid)) ∨
      ¬ (c.beam1 (rowOf cfg nAntenna vis) = toUInt32 (cfg.itsBeamIDMap vis.beamid)) ∨
      ¬ (c.beam2 (rowOf cfg nAntenna vis) = toUInt32 (cfg.itsBeamIDMap vis.beamid))) := by
    intro hrow
    rw [addVis_of_reaches cfg c vis nAntenna recv hr, if_neg hdup, if_pos hrow] at h
    cases h
  have hr1 : reachesDuplicateCheck cfg c1.stokes nAntenna (identityOf vis) := by
    rw [e7]; exact hr
  have hpol : polOf cfg c1 vis = polOf cfg c vis := by
    unfold polOf; rw [e7]
  rw [addVis_of_reaches cfg c1 vis nAntenna recv1 hr1, if_neg hnew, e9, e10, e11, e12,
    if_neg hrow, hpol]
  have hst := addVisChannels_status_congr cfg vis (toUInt32 (cfg.idToAntenna1 vis.baselineid))
    (toUInt32 (cfg.idToAntenna2 vis.baselineid)) (rowOf cfg nAntenna vis)
    (vis.slice * cfg.N_CHANNELS_PER_SLICE % UINT) (polOf cfg c vis) c1 c e2
  rw [hok] at hst
  generalize addVisChannels cfg vis (toUInt32 (cfg.idToAntenna1 vis.baselineid))
    (toUInt32 (cfg.idToAntenna2 vis.baselineid)) (rowOf cfg nAntenna vis)
    (vis.slice * cfg.N_CHANNELS_PER_SLICE % UINT) (polOf cfg c vis) c1 = res at hst ⊢
  obtain ⟨o, k⟩ := res
  simp only at hst
  subst hst
  rfl

/-- The value an accepted datagram leaves in one of its cells does not depend on the
chunk it is inserted into. -/
theorem addVis_written_congr {F : Type} [Neg F] (cfg : Config) (c c1 : VisChunk F)
    (vis : VisDatagram F) (nAntenna : Nat) (recv recv1 : List DatagramIdentity)
    (hsize : 16 * cfg.N_CHANNELS_PER_SLICE ≤ 2 ^ 32)
    (h : (addVis cfg c vis nAntenna recv).outcome = Except.ok true)
    (h1 : (addVis cfg c1 vis nAntenna recv1).outcome = Except.ok true)
    (hst : c1.stokes = c.stokes) (r ch q : Nat) (ht : targets cfg nAntenna c vis r ch q) :
    (addVis cfg c vis nAntenna recv).chunk.visibility r ch q =
      (addVis cfg c1 vis nAntenna recv1).chunk.visibility r ch q := by
  obtain ⟨hr, _, _, hok, hchunk⟩ := addVis_accepted cfg c vis nAntenna recv h
  obtain ⟨_, _, _, hok1, hchunk1⟩ := addVis_accepted cfg c1 vis nAntenna recv1 h1
  have hpol : polOf cfg c1 vis = polOf cfg c vis := by
    unfold polOf; rw [hst]
  rw [hpol] at hok1 hchunk1
  have hs : vis.slice < 16 := hr.2.2.2.2.2.2.2.2
  obtain ⟨hrow, hlo, hhi, hq⟩ := ht
  have h2 : (vis.slice + 1) * cfg.N_CHANNELS_PER_SLICE =
      vis.slice * cfg.N_CHANNELS_PER_SLICE + cfg.N_CHANNELS_PER_SLICE := by ring
  have hi : ch - vis.slice * cfg.N_CHANNELS_PER_SLICE < cfg.N_CHANNELS_PER_SLICE := by omega
  have hcells := addVisChannels_cells cfg vis _ _ _ _ _ c (by omega) hok _ hi
  have hcells1 := addVisChannels_cells cfg vis _ _ _ _ _ c1 (by omega) hok1 _ hi
  rw [slice_channel_eq cfg vis.slice _ hsize hs hi] at hcells hcells1
  have hch : vis.slice * cfg.N_CHANNELS_PER_SLICE + (ch - vis.slice * cfg.N_CHANNELS_PER_SLICE) =
      ch := by omega
  rw [hch] at hcells hcells1
  rw [hchunk, hchunk1, hrow]
  rcases hq with hq | ⟨hq, ha, hp⟩
  · rw [hq, hcells.1, hcells1.1]
  · rw [hq, (hcells.2.2 ha hp).1, (hcells1.2.2 ha hp).1]

/-- The cells of two datagrams of different rows, of different slices, or of different
polarisation indexes without an overlap between a synthesised index 2 and a received
index 2, are disjoint. -/
theorem targets_disjoint {F : Type} (cfg : Config) (nAntenna : Nat) (chunk : VisChunk F)
    (d1 d2 : VisDatagram F)
    (hdisj : rowOf cfg nAntenna d1 ≠ rowOf cfg nAntenna d2 ∨ d1.slice ≠ d2.slice ∨
      (polOf cfg chunk d1 ≠ polOf cfg chunk d2 ∧
        ¬ (toUInt32 (cfg.idToAntenna1 d1.baselineid) = toUInt32 (cfg.idToAntenna2 d1.baselineid) ∧
          polOf cfg chunk d1 = 1 ∧ polOf cfg chunk d2 = 2) ∧
        ¬ (toUInt32 (cfg.idToAntenna1 d2.baselineid) = toUInt32 (cfg.idToAntenna2 d2.baselineid) ∧
          polOf cfg chunk d2 = 1 ∧ polOf cfg chunk d1 = 2)))
    (r ch q : Nat) :
    ¬ (targets cfg nAntenna chunk d1 r ch q ∧ targets cfg nAntenna chunk d2 r ch q) := by
  rintro ⟨⟨a1, a2, a3, a4⟩, ⟨b1, b2, b3, b4⟩⟩
  rcases hdisj with h | h | ⟨h1, h2, h3⟩
  · exact h (a1.symm.trans b1)
  · apply h
    by_contra hne
    rcases Nat.lt_or_gt_of_ne hne with hlt | hlt
    · have : (d1.slice + 1) * cfg.N_CHANNELS_PER_SLICE ≤ d2.slice * cfg.N_CHANNELS_PER_SLICE :=
        Nat.mul_le_mul_right _ hlt
      omega
    · have : (d2.slice + 1) * cfg.N_CHANNELS_PER_SLICE ≤ d1.slice * cfg.N_CHANNELS_PER_SLICE :=
        Nat.mul_le_mul_right _ hlt
      omega
  · rcases a4 with a4 | ⟨a4, a5, a6⟩
    · rcases b4 with b4 | ⟨b4, b5, b6⟩
      · exact h1 (a4.symm.trans b4)
      · exact h3 ⟨b5, b6, by omega⟩
    · rcases b4 with b4 | ⟨b4, b5, b6⟩
      · exact h2 ⟨a5, a6, by omega⟩
      · exact h1 (a6.trans b6.symm)

/-- C28. Two datagrams `d1` and `d2` that `addVis` accepts on the same chunk and
received-set, with distinct identities and disjoint cells (different rows, or different
slices, or different polarisation indexes with no overlap between the synthesised index 2
of an autocorrelation of index 1 and a received index 2): inserting `d1` then `d2` and
inserting `d2` then `d1` are both accepted at both steps and give the same values, the
same flags and the same received-set (the same identities).  The constant
`N_CHANNELS_PER_SLICE` is taken small enough for the 16 slices to be addressed in
`casa::uInt`. -/
theorem addVis_commutes_on_disjoint_cells {F : Type} [Neg F] (cfg : Config)
    (chunk : VisChunk F) (d1 d2 : VisDatagram F) (nAntenna : Nat) (recv : List DatagramIdentity)
    (hsize : 16 * cfg.N_CHANNELS_PER_SLICE ≤ 2 ^ 32)
    (h1 : (addVis cfg chunk d1 nAntenna recv).outcome = Except.ok true)
    (h2 : (addVis cfg chunk d2 nAntenna recv).outcome = Except.ok true)
    (hid : identityOf d1 ≠ identityOf d2)
    (hdisj : rowOf cfg nAntenna d1 ≠ rowOf cfg nAntenna d2 ∨ d1.slice ≠ d2.slice ∨
      (polOf cfg chunk d1 ≠ polOf cfg chunk d2 ∧
        ¬ (toUInt32 (cfg.idToAntenna1 d1.baselineid) = toUInt32 (cfg.idToAntenna2 d1.baselineid) ∧
          polOf cfg chunk d1 = 1 ∧ polOf cfg chunk d2 = 2) ∧
        ¬ (toUInt32 (cfg.idToAntenna1 d2.baselineid) = toUInt32 (cfg.idToAntenna2 d2.baselineid) ∧
          polOf cfg chunk d2 = 1 ∧ polOf cfg chunk d1 = 2))) :
    (addVis cfg (addVis cfg chunk d1 nAntenna recv).chunk d2 nAntenna
        (addVis cfg chunk d1 nAntenna recv).receivedDatagrams).outcome = Except.ok true ∧
    (addVis cfg (addVis cfg chunk d2 nAntenna recv).chunk d1 nAntenna
        (addVis cfg chunk d2 nAntenna recv).receivedDatagrams).outcome = Except.ok true ∧
    (∀ r ch q,
      (addVis cfg (addVis cfg chunk d1 nAntenna recv).chunk d2 nAntenna
          (addVis cfg chunk d1 nAntenna recv).receivedDatagrams).chunk.visibility r ch q =
        (addVis cfg (addVis cfg chunk d2 nAntenna recv).chunk d1 nAntenna
          (addVis cfg chunk d2 nAntenna recv).receivedDatagrams).chunk.visibility r ch q ∧
      (addVis cfg (addVis cfg chunk d1 nAntenna recv).chunk d2 nAntenna
          (addVis cfg chunk d1 nAntenna recv).receivedDatagrams).chunk.flag r ch q =
        (addVis cfg (addVis cfg chunk d2 nAntenna recv).chunk d1 nAntenna
          (addVis cfg chunk d2 nAntenna recv).receivedDatagrams).chunk.flag r ch q) ∧
    (∀ id,
      id ∈ (addVis cfg (addVis cfg chunk d1 nAntenna recv).chunk d2 nAntenna
          (addVis cfg chunk d1 nAntenna recv).receivedDatagrams).receivedDatagrams ↔
        id ∈ (addVis cfg (addVis cfg chunk d2 nAntenna recv).chunk d1 nAntenna
          (addVis cfg chunk d2 nAntenna recv).receivedDatagrams).receivedDatagrams) := by
  obtain ⟨_, hn1, hr1, _, _⟩ := addVis_accepted cfg chunk d1 nAntenna recv h1
  obtain ⟨_, hn2, hr2, _, _⟩ := addVis_accepted cfg chunk d2 nAntenna recv h2
  have hh1 := addVis_header cfg chunk d1 nAntenna recv
  have hh2 := addVis_header cfg chunk d2 nAntenna recv
  have hs1 : (addVis cfg chunk d1 nAntenna recv).chunk.stokes = chunk.stokes := hh1.2.2.2.2.2.2.1
  have hs2 : (addVis cfg chunk d2 nAntenna recv).chunk.stokes = chunk.stokes := hh2.2.2.2.2.2.2.1
  have hA : (addVis cfg (addVis cfg chunk d1 nAntenna recv).chunk d2 nAntenna
      (addVis cfg chunk d1 nAntenna recv).receivedDatagrams).outcome = Except.ok true := by
    apply addVis_accepted_transfer cfg chunk _ d2 nAntenna recv _ h2 hh1
    rw [hr1]
    intro hmem
    rcases List.mem_cons.1 hmem with hmem | hmem
    · exact hid hmem.symm
    · exact hn2 hmem
  have hB : (addVis cfg (addVis cfg chunk d2 nAntenna recv).chunk d1 nAntenna
      (addVis cfg chunk d2 nAntenna recv).receivedDatagrams).outcome = Except.ok true := by
    apply addVis_accepted_transfer cfg chunk _ d1 nAntenna recv _ h1 hh2
    rw [hr2]
    intro hmem
    rcases List.mem_cons.1 hmem with hmem | hmem
    · exact hid hmem
    · exact hn1 hmem
  refine ⟨hA, hB, ?_, ?_⟩
  · intro r ch q
    have hno := targets_disjoint cfg nAntenna chunk d1 d2 hdisj r ch q
    have cA := addVis_cell_targets cfg (addVis cfg chunk d1 nAntenna recv).chunk d2 nAntenna
      (addVis cfg chunk d1 nAntenna recv).receivedDatagrams hsize r ch q
    have cB := addVis_cell_targets cfg (addVis cfg chunk d2 nAntenna recv).chunk d1 nAntenna
      (addVis cfg chunk d2 nAntenna recv).receivedDatagrams hsize r ch q
    have c1 := addVis_cell_targets cfg chunk d1 nAntenna recv hsize r ch q
    have c2 := addVis_cell_targets cfg chunk d2 nAntenna recv hsize r ch q
    rw [targets_congr cfg nAntenna chunk _ d2 r ch q hs1] at cA
    rw [targets_congr cfg nAntenna chunk _ d1 r ch q hs2] at cB
    by_cases t1 : targets cfg nAntenna chunk d1 r ch q
    · have t2 : ¬ targets cfg nAntenna chunk d2 r ch q := fun t2 => hno ⟨t1, t2⟩
      have eA := cA.resolve_right (fun hx => t2 hx.1)
      have e2 := c2.resolve_right (fun hx => t2 hx.1)
      have fB := addVis_targets_unflagged cfg _ d1 nAntenna _ hsize hB r ch q
        ((targets_congr cfg nAntenna chunk _ d1 r ch q hs2).2 t1)
      have f1 := addVis_targets_unflagged cfg chunk d1 nAntenna recv hsize h1 r ch q t1
      have w := addVis_written_congr cfg chunk (addVis cfg chunk d2 nAntenna recv).chunk d1
        nAntenna recv (addVis cfg chunk d2 nAntenna recv).receivedDatagrams hsize h1 hB hs2
        r ch q t1
      exact ⟨by rw [eA.1, w], by rw [eA.2, f1, fB]⟩
    · have e1 := c1.resolve_right (fun hx => t1 hx.1)
      have eB := cB.resolve_right (fun hx => t1 hx.1)
      by_cases t2 : targets cfg nAntenna chunk d2 r ch q
      · have fA := addVis_targets_unflagged cfg _ d2 nAntenna _ hsize hA r ch q
          ((targets_congr cfg nAntenna chunk _ d2 r ch q hs1).2 t2)
        have f2 := addVis_targets_unflagged cfg chunk d2 nAntenna recv hsize h2 r ch q t2
        have w := addVis_written_congr cfg chunk (addVis cfg chunk d1 nAntenna recv).chunk d2
          nAntenna recv (addVis cfg chunk d1 nAntenna recv).receivedDatagrams hsize h2 hA hs1
          r ch q t2
        exact ⟨by rw [eB.1, ← w], by rw [eB.2, f2, fA]⟩
      · have eA := cA.resolve_right (fun hx => t2 hx.1)
        have e2 := c2.resolve_right (fun hx => t2 hx.1)
        exact ⟨by rw [eA.1, e1.1, eB.1, e2.1], by rw [eA.2, e1.2, eB.2, e2.2]⟩
  · intro id
    rw [(addVis_accepted cfg _ d2 nAntenna _ hA).2.2.1, (addVis_accepted cfg _ d1 nAntenna _ hB).2.2.1,
      hr1, hr2]
    simp only [List.mem_cons]
    tauto

/-- C28 at a concrete input: the datagrams of the baselines 1 and 2 of the scenario
(rows 1 and 2) on the fresh chunk. -/
theorem addVis_commutes_on_disjoint_cells_witness :
    (16 * exampleConfig.N_CHANNELS_PER_SLICE ≤ 2 ^ 32 ∧
      (addVis exampleConfig freshChunk (exampleDatagram 10 1) 3 []).outcome = Except.ok true ∧
      (addVis exampleConfig freshChunk (exampleDatagram 10 2) 3 []).outcome = Except.ok true ∧
      identityOf (exampleDatagram 10 1) ≠ identityOf (exampleDatagram 10 2) ∧
      rowOf exampleConfig 3 (exampleDatagram 10 1) ≠ rowOf exampleConfig 3 (exampleDatagram 10 2)) ∧
    ∀ r ch q,
      (addVis exampleConfig (addVis exampleConfig freshChunk (exampleDatagram 10 1) 3 []).chunk
          (exampleDatagram 10 2) 3
          (addVis exampleConfig freshChunk (exampleDatagram 10 1) 3 []).receivedDatagrams
        ).chunk.visibility r ch q =
      (addVis exampleConfig (addVis exampleConfig freshChunk (exampleDatagram 10 2) 3 []).chunk
          (exampleDatagram 10 1) 3
          (addVis exampleConfig freshChunk (exampleDatagram 10 2) 3 []).receivedDatagrams
        ).chunk.visibility r ch q :=
  ⟨⟨by decide, by rfl, by rfl, by decide, by decide⟩,
    fun r ch q =>
      ((addVis_commutes_on_disjoint_cells exampleConfig freshChunk (exampleDatagram 10 1)
        (exampleDatagram 10 2) 3 [] (by decide) (by rfl) (by rfl) (by decide)
        (Or.inl (by decide))).2.2.1 r ch q).1⟩

/-! ## The check of the channel count and the timeout of the first pull -/

/-- C22. When the owned channel count is not divisible by the number of channels per
slice, `next` returns no chunk, whatever the state and the answers of the Source are;
and once the first loop has delivered a seed datagram the call ends with a raised
`ASKAPCHECK`: the check of the timestamp, a check of `createVisChunk`, or, when these
pass, the check "Number of channels must be divisible by N_CHANNELS_PER_SLICE". -/
theorem next_fails_when_channels_not_divisible {F : Type} [Zero F] [Neg F] (cfg : Config)
    (hnd : cfg.localNChannels % cfg.N_CHANNELS_PER_SLICE ≠ 0) :
    (∀ (self : NoMetadataSource F) (pulls : List (Pull F)) (out : Emitted F),
      (next cfg self pulls).outcome ≠ NextOutcome.returned out) ∧
    (∀ (self : NoMetadataSource F) (pulls : List (Pull F)) (vis : VisDatagram F),
      (awaitFirst pulls self).1 = LoopExit.done →
      (awaitFirst pulls self).2.1.itsVis = some vis →
      ∃ e, (next cfg self pulls).outcome = NextOutcome.raised e ∧
        (e = AskapError.ConsecutiveSameTimestamp ∨
          (createVisChunk cfg vis.timestamp : Except AskapError (VisChunk F)) = Except.error e ∨
          e = AskapError.ChannelsNotDivisible) ∧
        (vis.timestamp ≠ self.itsLastTimestamp →
          (∃ chunk : VisChunk F, createVisChunk cfg vis.timestamp = Except.ok chunk) →
          e = AskapError.ChannelsNotDivisible)) := by
  refine ⟨?_, ?_⟩
  · intro self pulls out h
    obtain ⟨_, _, _, _, _, _, _, _, _, _, hdiv, _⟩ := next_returned_anatomy cfg self pulls out h
    exact hnd hdiv
  · intro self pulls vis hd hv
    have hlast : (awaitFirst pulls self).2.1.itsLastTimestamp = self.itsLastTimestamp := by
      have := awaitFirst_done pulls self (awaitFirst pulls self).2.1 (awaitFirst pulls self).2.2
        (by rw [← hd])
      exact this.2.1
    rw [next_of_seed cfg self pulls vis hd hv]
    unfold assemble
    dsimp only
    by_cases hts : vis.timestamp ≠ (awaitFirst pulls self).2.1.itsLastTimestamp
    · rw [if_neg (not_not_intro hts)]
      cases hc : (createVisChunk cfg vis.timestamp : Except AskapError (VisChunk F)) with
      | error e =>
        refine ⟨e, rfl, Or.inr (Or.inl rfl), ?_⟩
        rintro _ ⟨chunk, hchunk⟩
        cases hchunk
      | ok chunk =>
        simp only
        rw [if_pos hnd]
        exact ⟨_, rfl, Or.inr (Or.inr rfl), fun _ _ => rfl⟩
    · rw [if_pos hts]
      refine ⟨_, rfl, Or.inl rfl, ?_⟩
      intro h
      rw [← hlast] at h
      exact absurd h hts

/-- C22 at a concrete input: 5 owned channels with 4 channels per slice. -/
theorem next_fails_when_channels_not_divisible_witness :
    unevenConfig.localNChannels % unevenConfig.N_CHANNELS_PER_SLICE ≠ 0 ∧
    ∀ out : Emitted Int,
      (next unevenConfig (NoMetadataSource.init Int) lateSeedAnswers).outcome ≠
        NextOutcome.returned out :=
  ⟨by decide,
    (next_fails_when_channels_not_divisible unevenConfig (by decide)).1
      (NoMetadataSource.init Int) lateSeedAnswers⟩

/-- C23 (evaluation of the code). The pull with which `next` waits for the first
datagram passes the timeout `10000000` to the Source, that is 10 seconds in
microseconds, not the `1000000` of the claim and of the comment "1 second timeout" at
line 113. -/
theorem first_pull_timeout_is_ten_seconds :
    (awaitFirst [answer (some (exampleDatagram 10 0))] (NoMetadataSource.init Int)).2.1.timeouts =
      [10000000] ∧
    (awaitFirst [answer none, answer (some (exampleDatagram 10 0))]
      (NoMetadataSource.init Int)).2.1.timeouts = [10000000, 10000000] ∧
    (10000000 : Nat) = 10 * 1000000 := by
  refine ⟨by decide, by decide, by decide⟩

/-! ## `parseBeamMap` -/

/-- The conversion to `casa::Int` leaves a value below `2 ^ 31` as it is. -/
theorem toInt32_of_lt (n : Nat) (h : n < 2 ^ 31) : toInt32 n = (n : Int) := by
  unfold toInt32 UINT
  rw [Nat.mod_eq_of_lt (by omega), if_pos h]

/-- The conversion to `casa::uInt` leaves a non-negative value below `2 ^ 32` as it is. -/
theorem toUInt32_of_nonneg (i : Int) (h0 : 0 ≤ i) (h : i < 2 ^ 32) :
    ((toUInt32 i : Nat) : Int) = i := by
  unfold toUInt32 UINT
  have : i % ((2 ^ 32 : Nat) : Int) = i := Int.emod_eq_of_lt h0 (by norm_num; exact h)
  rw [this]
  exact Int.toNat_of_nonneg h0

/-- The loop of `parseBeamMap` started at 0: after `k` iterations the running value is
an upper bound of the mapped values of the raw beams below `k`, and it is 0 or one of
these values. -/
theorem parseBeamMapLoop_spec (itsBeamIDMap : Nat → Int) (k : Nat)
    (hmap : ∀ b, b < k → itsBeamIDMap b < 2 ^ 31) :
    ((List.range k).foldl
        (fun itsMaxNBeams beam =>
          if itsBeamIDMap beam > toInt32 itsMaxNBeams then toUInt32 (itsBeamIDMap beam)
          else itsMaxNBeams) 0) < 2 ^ 31 ∧
    (∀ b, b < k → itsBeamIDMap b ≤
      (((List.range k).foldl
        (fun itsMaxNBeams beam =>
          if itsBeamIDMap beam > toInt32 itsMaxNBeams then toUInt32 (itsBeamIDMap beam)
          else itsMaxNBeams) 0 : Nat) : Int)) ∧
    (((List.range k).foldl
        (fun itsMaxNBeams beam =>
          if itsBeamIDMap beam > toInt32 itsMaxNBeams then toUInt32 (itsBeamIDMap beam)
          else itsMaxNBeams) 0) = 0 ∨
      ∃ b, b < k ∧ itsBeamIDMap b =
        (((List.range k).foldl
          (fun itsMaxNBeams beam =>
            if itsBeamIDMap beam > toInt32 itsMaxNBeams then toUInt32 (itsBeamIDMap beam)
            else itsMaxNBeams) 0 : Nat) : Int)) := by
  induction k with
  | zero =>
    refine ⟨by simp, ?_, Or.inl rfl⟩
    intro b hb; omega
  | succ k ih =>
    obtain ⟨i1, i2, i3⟩ := ih (fun b hb => hmap b (by omega))
    rw [List.range_succ, List.foldl_append]
    simp only [List.foldl_cons, List.foldl_nil]
    generalize (List.range k).foldl
        (fun itsMaxNBeams beam =>
          if itsBeamIDMap beam > toInt32 itsMaxNBeams then toUInt32 (itsBeamIDMap beam)
          else itsMaxNBeams) 0 = cur at i1 i2 i3 ⊢
    rw [toInt32_of_lt cur i1]
    have hk := hmap k (by omega)
    by_cases hgt : itsBeamIDMap k > (cur : Int)
    · rw [if_pos hgt]
      have hcast := toUInt32_of_nonneg (itsBeamIDMap k) (by omega) (by omega)
      refine ⟨by omega, ?_, Or.inr ⟨k, by omega, hcast.symm⟩⟩
      intro b hb
      rw [hcast]
      by_cases hbk : b = k
      · subst hbk; exact le_refl _
      · have := i2 b (by omega)
        omega
    · rw [if_neg hgt]
      refine ⟨i1, ?_, ?_⟩
      · intro b hb
        by_cases hbk : b = k
        · subst hbk; omega
        · exact i2 b (by omega)
      · rcases i3 with i3 | ⟨b, hb, hbe⟩
        · exact Or.inl i3
        · exact Or.inr ⟨b, by omega, hbe⟩

/-- C30. When the parameter "maxbeams" is absent or 0 (`itsMaxNBeams = 0` on entry),
`parseBeamMap` sets the number of beams to write to `1 + m`, where `m` is the largest
non-negative value the beam map gives to a raw beam id in `0 .. nBeamsInConfig`
inclusive (`m = 0` if there is none).  Hence the number is at least 1, every raw beam id
in that range maps to a value strictly below it (or to a negative value), and with the
identity map it is `nBeamsInConfig + 1`.  The raw beam counter and the mapped values are
`int`: `nBeamsInConfig + 1` and the mapped values are taken below `2 ^ 31`. -/
theorem parseBeamMap_beams_to_write (itsBeamIDMap : Nat → Int)
    (nBeamsInConfig itsBeamsToReceive : Nat) (hn : nBeamsInConfig + 1 < 2 ^ 31)
    (hmap : ∀ b, b ≤ nBeamsInConfig → itsBeamIDMap b < 2 ^ 31) :
    1 ≤ (parseBeamMap itsBeamIDMap nBeamsInConfig 0 itsBeamsToReceive).1 ∧
    (∀ b, b ≤ nBeamsInConfig →
      itsBeamIDMap b < ((parseBeamMap itsBeamIDMap nBeamsInConfig 0 itsBeamsToReceive).1 : Int)) ∧
    (((parseBeamMap itsBeamIDMap nBeamsInConfig 0 itsBeamsToReceive).1 = 1 ∧
        ∀ b, b ≤ nBeamsInConfig → itsBeamIDMap b ≤ 0) ∨
      ∃ b, b ≤ nBeamsInConfig ∧ 0 ≤ itsBeamIDMap b ∧
        itsBeamIDMap b + 1 =
          ((parseBeamMap itsBeamIDMap nBeamsInConfig 0 itsBeamsToReceive).1 : Int)) ∧
    ((∀ b, b ≤ nBeamsInConfig → itsBeamIDMap b = (b : Int)) →
      (parseBeamMap itsBeamIDMap nBeamsInConfig 0 itsBeamsToReceive).1 = nBeamsInConfig + 1) := by
  have hcount : (toInt32 nBeamsInConfig + 1).toNat = nBeamsInConfig + 1 := by
    rw [toInt32_of_lt nBeamsInConfig (by omega)]
    omega
  obtain ⟨i1, i2, i3⟩ := parseBeamMapLoop_spec itsBeamIDMap (nBeamsInConfig + 1)
    (fun b hb => hmap b (by omega))
  have hM : (parseBeamMap itsBeamIDMap nBeamsInConfig 0 itsBeamsToReceive).1 =
      (List.range (nBeamsInConfig + 1)).foldl
        (fun itsMaxNBeams beam =>
          if itsBeamIDMap beam > toInt32 itsMaxNBeams then toUInt32 (itsBeamIDMap beam)
          else itsMaxNBeams) 0 + 1 := by
    unfold parseBeamMap parseBeamMapLoop
    simp only [if_true]
    rw [hcount]
    unfold UINT
    rw [Nat.mod_eq_of_lt (by omega)]
  rw [hM]
  generalize (List.range (nBeamsInConfig + 1)).foldl
      (fun itsMaxNBeams beam =>
        if itsBeamIDMap beam > toInt32 itsMaxNBeams then toUInt32 (itsBeamIDMap beam)
        else itsMaxNBeams) 0 = m at i1 i2 i3 ⊢
  refine ⟨by omega, ?_, ?_, ?_⟩
  · intro b hb
    have := i2 b (by omega)
    push_cast
    omega
  · rcases i3 with i3 | ⟨b, hb, hbe⟩
    · left
      refine ⟨by omega, ?_⟩
      intro b hb
      have := i2 b (by omega)
      omega
    · right
      refine ⟨b, by omega, by omega, ?_⟩
      push_cast
      omega
  · intro hid
    have hle := i2 nBeamsInConfig (by omega)
    rw [hid nBeamsInConfig (le_refl _)] at hle
    rcases i3 with i3 | ⟨b, hb, hbe⟩
    · omega
    · rw [hid b (by omega)] at hbe
      omega

/-- C30 at a concrete input: the identity beam map of the scenario with one beam in the
configuration. -/
theorem parseBeamMap_beams_to_write_witness :
    ((1 : Nat) + 1 < 2 ^ 31 ∧
      ∀ b, b ≤ 1 → exampleConfig.itsBeamIDMap b < 2 ^ 31) ∧
    (parseBeamMap exampleConfig.itsBeamIDMap 1 0 0).1 = 2 ∧
    1 ≤ (parseBeamMap exampleConfig.itsBeamIDMap 1 0 0).1 :=
  ⟨⟨by decide, by decide⟩, by decide,
    (parseBeamMap_beams_to_write exampleConfig.itsBeamIDMap 1 0 (by decide) (by decide)).1⟩

/-! ## The product of two `ComplexDiffMatrix` -/

/-- The accumulation loop of `operator*` computes the sum of the products. -/
theorem foldl_add_eq_sum {R : Type} [Semiring R] (f : Nat → R) (k : Nat) :
    (List.range k).foldl (fun acc index => acc + f index) 0 =
      Finset.sum (Finset.range k) f := by
  induction k with
  | zero => simp
  | succ k ih =>
    rw [List.range_succ, List.foldl_append, Finset.sum_range_succ, ← ih]
    rfl

/-- The loop of `operator*` after `count` iterations: the running pair has reached the
flat position `count`, and at every earlier position `pos` the pair used was the row and
the column of `pos` and the element written is the sum of the products. -/
theorem mulLoop_spec {R : Type} [Semiring R] (in1 in2 result : ComplexDiffMatrix R)
    (m : Nat) (hlen : result.itsElements.length = result.itsNRows * m)
    (hsz : result.itsNRows * m < SIZE_T) (count : Nat) (hc : count ≤ result.itsNRows * m) :
    (mulLoop in1 in2 result count).elements.length = result.itsNRows * m ∧
    (mulLoop in1 in2 result count).curRow ≤ result.itsNRows ∧
    result.itsNRows * (mulLoop in1 in2 result count).curCol +
      (mulLoop in1 in2 result count).curRow = count ∧
    (mulLoop in1 in2 result count).cursors.length = count ∧
    ∀ pos, pos < count → ∃ r c, r < result.itsNRows ∧ result.itsNRows * c + r = pos ∧
      (mulLoop in1 in2 result count).cursors.getD pos (0, 0) = (r, c) ∧
      (mulLoop in1 in2 result count).elements.getD pos 0 =
        (List.range in1.itsNColumns).foldl
          (fun acc index => acc + in1.get r index * in2.get index c) 0 := by
  induction count with
  | zero =>
    refine ⟨hlen, Nat.zero_le _, by simp [mulLoop], by simp [mulLoop], ?_⟩
    intro pos hpos; omega
  | succ count ih =>
    obtain ⟨i1, i2, i3, i4, i5⟩ := ih (by omega)
    have hstep : mulLoop in1 in2 result (count + 1) =
        mulStep in1 in2 result.itsNRows (mulLoop in1 in2 result count) count := by
      unfold mulLoop
      rw [List.range_succ, List.foldl_append]
      rfl
    rw [hstep]
    generalize mulLoop in1 in2 result count = st at i1 i2 i3 i4 i5 ⊢
    have hnpos : 0 < result.itsNRows := by
      rcases Nat.eq_zero_or_pos result.itsNRows with h0 | h0
      · rw [h0] at hc; simp at hc
      · exact h0
    have hmpos : 0 < m := by
      rcases Nat.eq_zero_or_pos m with h0 | h0
      · rw [h0] at hc; simp at hc
      · exact h0
    have hnle : result.itsNRows ≤ result.itsNRows * m := Nat.le_mul_of_pos_right _ hmpos
    have hcolle : st.curCol ≤ result.itsNRows * st.curCol := Nat.le_mul_of_pos_left _ hnpos
    have hsucc : result.itsNRows * (st.curCol + 1) = result.itsNRows * st.curCol + result.itsNRows :=
      Nat.mul_succ _ _
    -- the pair used by this iteration
    obtain ⟨r, c, hcur, hr, hpos⟩ : ∃ r c,
        (if st.curRow ≥ result.itsNRows then (0, (st.curCol + 1) % SIZE_T)
          else (st.curRow, st.curCol)) = (r, c) ∧
        r < result.itsNRows ∧ result.itsNRows * c + r = count := by
      by_cases hge : st.curRow ≥ result.itsNRows
      · refine ⟨0, st.curCol + 1, ?_, hnpos, by omega⟩
        rw [if_pos hge, Nat.mod_eq_of_lt (by omega)]
      · exact ⟨st.curRow, st.curCol, by rw [if_neg hge], by omega, i3⟩
    unfold mulStep
    simp only [hcur]
    have hr1 : (r + 1) % SIZE_T = r + 1 := Nat.mod_eq_of_lt (by omega)
    rw [hr1]
    refine ⟨by simp [i1], by omega, by omega, by simp [i4], ?_⟩
    intro pos hp
    by_cases hpc : pos = count
    · subst hpc
      refine ⟨r, c, hr, hpos, ?_, ?_⟩
      · rw [List.getD_eq_getElem?_getD, List.getElem?_append_right (by omega)]
        simp [i4]
      · rw [List.getD_eq_getElem?_getD, List.getElem?_set_self (by omega)]
        simp
    · obtain ⟨r1, c1, h1, h2, h3, h4⟩ := i5 pos (by omega)
      refine ⟨r1, c1, h1, h2, ?_, ?_⟩
      · rw [← h3, List.getD_eq_getElem?_getD, List.getD_eq_getElem?_getD,
          List.getElem?_append_left (by omega)]
      · rw [← h4, List.getD_eq_getElem?_getD, List.getD_eq_getElem?_getD,
          List.getElem?_set_ne (fun h => hpc h.symm)]


/-- C24. For `in1` with `n` rows and `k` columns and `in2` with `k` rows and `m` columns,
`operator*` returns a matrix with `n` rows and `m` columns (holding `n * m` elements)
whose element (`r`, `c`), for every `r < n` and `c < m`, is the sum over `j < k` of
`in1(r, j) * in2(j, c)`; and at every flat position `pos` the running pair (`curRow`,
`curCol`) of the loop is the row and the column of `pos`: `n * curCol + curRow = pos` with
`curRow < n` and `curCol < m`.  The element type is an abstract semiring, and `n * m`
fits `size_t`, as the storage of the result requires. -/
theorem ComplexDiffMatrix_mul_spec {R : Type} [Semiring R] (in1 in2 : ComplexDiffMatrix R)
    (_hshape : in1.itsNColumns = in2.itsNRows)
    (hsz : in1.itsNRows * in2.itsNColumns < SIZE_T) :
    (in1.mul in2).itsNRows = in1.itsNRows ∧ (in1.mul in2).itsNColumns = in2.itsNColumns ∧
    (in1.mul in2).WellFormed ∧
    (∀ r c, r < in1.itsNRows → c < in2.itsNColumns →
      (in1.mul in2).get r c =
        Finset.sum (Finset.range in1.itsNColumns) (fun j => in1.get r j * in2.get j c)) ∧
    (∀ pos, pos < in1.itsNRows * in2.itsNColumns →
      ∃ curRow curCol,
        (mulLoop in1 in2 (ComplexDiffMatrix.new in1.itsNRows in2.itsNColumns)
          (in1.itsNRows * in2.itsNColumns)).cursors.getD pos (0, 0) = (curRow, curCol) ∧
        curRow < in1.itsNRows ∧ curCol < in2.itsNColumns ∧
        in1.itsNRows * curCol + curRow = pos) := by
  have hlen : (ComplexDiffMatrix.new in1.itsNRows in2.itsNColumns :
      ComplexDiffMatrix R).itsElements.length = in1.itsNRows * in2.itsNColumns := by
    unfold ComplexDiffMatrix.new
    simp [Nat.mod_eq_of_lt hsz]
  obtain ⟨s1, _, _, _, s5⟩ := mulLoop_spec in1 in2
    (ComplexDiffMatrix.new in1.itsNRows in2.itsNColumns) in2.itsNColumns hlen hsz
    (in1.itsNRows * in2.itsNColumns) (le_refl _)
  have hcol : ∀ r c, r < in1.itsNRows → in1.itsNRows * c + r < in1.itsNRows * in2.itsNColumns →
      c < in2.itsNColumns := by
    intro r c _ h
    by_contra hge
    have : in1.itsNRows * in2.itsNColumns ≤ in1.itsNRows * c :=
      Nat.mul_le_mul_left _ (by omega)
    omega
  have hmul : (in1.mul in2).itsElements =
      (mulLoop in1 in2 (ComplexDiffMatrix.new in1.itsNRows in2.itsNColumns)
        (in1.itsNRows * in2.itsNColumns)).elements := by
    unfold ComplexDiffMatrix.mul
    simp only
    rw [hlen]
  refine ⟨rfl, rfl, ⟨hsz, ?_⟩, ?_, ?_⟩
  · rw [hmul]; exact s1
  · intro r c hr hc
    have hpos : in1.itsNRows * c + r < in1.itsNRows * in2.itsNColumns := by
      have : in1.itsNRows * (c + 1) ≤ in1.itsNRows * in2.itsNColumns :=
        Nat.mul_le_mul_left _ (by omega)
      rw [Nat.mul_succ] at this
      omega
    obtain ⟨r1, c1, h1, h2, _, h4⟩ := s5 _ hpos
    replace h1 : r1 < in1.itsNRows := h1
    replace h2 : in1.itsNRows * c1 + r1 = in1.itsNRows * c + r := h2
    have hrc : r1 = r ∧ c1 = c := by
      have hn : 0 < in1.itsNRows := by omega
      have e1 : (in1.itsNRows * c1 + r1) % in1.itsNRows = r1 := by
        rw [Nat.mul_add_mod]; exact Nat.mod_eq_of_lt h1
      have e2 : (in1.itsNRows * c + r) % in1.itsNRows = r := by
        rw [Nat.mul_add_mod]; exact Nat.mod_eq_of_lt hr
      have hr1 : r1 = r := by rw [← e1, ← e2, h2]
      subst hr1
      have : in1.itsNRows * c1 = in1.itsNRows * c := by omega
      exact ⟨rfl, Nat.eq_of_mul_eq_mul_left hn this⟩
    obtain ⟨e1, e2⟩ := hrc
    subst e1 e2
    unfold ComplexDiffMatrix.get
    rw [hmul]
    show (mulLoop in1 in2 (ComplexDiffMatrix.new in1.itsNRows in2.itsNColumns)
      (in1.itsNRows * in2.itsNColumns)).elements.getD
        ((in1.itsNRows * c1 + r1) % SIZE_T) 0 = _
    rw [Nat.mod_eq_of_lt (by omega), h4]
    exact foldl_add_eq_sum (fun j => in1.itsElements.getD ((in1.itsNRows * j + r1) % SIZE_T) 0 *
      in2.itsElements.getD ((in2.itsNRows * c1 + j) % SIZE_T) 0) in1.itsNColumns
  · intro pos hpos
    obtain ⟨r1, c1, h1, h2, h3, _⟩ := s5 pos hpos
    replace h1 : r1 < in1.itsNRows := h1
    replace h2 : in1.itsNRows * c1 + r1 = pos := h2
    exact ⟨r1, c1, h3, h1, hcol r1 c1 h1 (by omega), h2⟩

/-- C24 at a concrete input: the product of a 2 x 3 and a 3 x 2 integer matrix. -/
theorem ComplexDiffMatrix_mul_spec_witness :
    (exampleMatrixA.itsNColumns = exampleMatrixB.itsNRows ∧
      exampleMatrixA.itsNRows * exampleMatrixB.itsNColumns < SIZE_T) ∧
    (exampleMatrixA.mul exampleMatrixB).itsElements = [11, 14, 18, 22] ∧
    (exampleMatrixA.mul exampleMatrixB).get 1 0 =
      Finset.sum (Finset.range exampleMatrixA.itsNColumns)
        (fun j => exampleMatrixA.get 1 j * exampleMatrixB.get j 0) :=
  ⟨⟨by decide, by decide⟩, by decide,
    (ComplexDiffMatrix_mul_spec exampleMatrixA exampleMatrixB (by decide) (by decide)).2.2.2.1
      1 0 (by decide) (by decide)⟩

/-! ## The averaging loop of `splitMainTable` -/

/-- The innermost loop over a list of channels that all pass the assertion: the sum, the
combined flag and the record of the channels. -/
theorem averageFold_ok {C : Type} [Zero C] [Add C] (nChanIn : Nat) (indata : Nat → C)
    (inflag : Nat → Bool) (L : List Nat) (st : C × Bool × List Nat)
    (h : ∀ i ∈ L, i < nChanIn) :
    L.foldlM
      (fun (st : C × Bool × List Nat) i =>
        if ¬ (i < nChanIn) then Except.error SplitError.AssertionFailed else
        let sum := st.1 + indata i
        let outputFlag := if st.2.1 = false ∧ inflag i = true then true else st.2.1
        Except.ok (sum, outputFlag, st.2.2 ++ [i])) st =
    Except.ok (L.foldl (fun s i => s + indata i) st.1, (st.2.1 || L.any inflag), st.2.2 ++ L) := by
  induction L generalizing st with
  | nil =>
    simp only [List.foldlM_nil, List.foldl_nil, List.any_nil, Bool.or_false, List.append_nil]
    rfl
  | cons i L ih =>
    have hi : i < nChanIn := h i (List.mem_cons_self _ _)
    rw [List.foldlM_cons]
    simp only [hi, not_true_eq_false, if_false]
    show (Except.ok _ >>= _) = _
    rw [show ∀ (x : C × Bool × List Nat) (f : C × Bool × List Nat → Except SplitError _),
      (Except.ok x >>= f) = f x from fun _ _ => rfl]
    rw [ih _ (fun j hj => h j (List.mem_cons_of_mem _ hj))]
    congr 1
    refine Prod.ext rfl (Prod.ext ?_ ?_)
    · simp only [List.any_cons]
      cases st.2.1 <;> cases inflag i <;> simp
    · simp

/-- The innermost loop of `splitMainTable` for an output channel whose `width` input
channels lie below `nChanIn`. -/
theorem averageChannels_ok {C : Type} [Zero C] [Add C] (width nChanIn destChan : Nat)
    (indata : Nat → C) (inflag : Nat → Bool)
    (hfit : destChan * width + width ≤ nChanIn) (hlt : nChanIn < UINT) :
    averageChannels width nChanIn destChan indata inflag =
      Except.ok ((List.range' (destChan * width) width).foldl (fun s i => s + indata i) 0,
        (List.range' (destChan * width) width).any inflag,
        List.range' (destChan * width) width) := by
  unfold averageChannels
  simp only
  rw [Nat.mod_eq_of_lt (by omega), Nat.mod_eq_of_lt (by omega), Nat.add_sub_cancel_left]
  rw [averageFold_ok nChanIn indata inflag _ _ (by
    intro i hi
    rw [List.mem_range'_1] at hi
    omega)]
  simp

/-- A loop over `0 .. n - 1` whose body keeps an invariant and does not raise returns
with the invariant. -/
theorem foldlM_range_inv {σ ε : Type} (n : Nat) (body : σ → Nat → Except ε σ)
    (P : Nat → σ → Prop) (init : σ) (h0 : P 0 init)
    (hstep : ∀ i st, i < n → P i st → ∃ st1, body st i = Except.ok st1 ∧ P (i + 1) st1) :
    ∃ st1, (List.range n).foldlM body init = Except.ok st1 ∧ P n st1 := by
  induction n with
  | zero => exact ⟨init, rfl, h0⟩
  | succ n ih =>
    obtain ⟨st1, h1, hp⟩ := ih (fun i st hi hP => hstep i st (by omega) hP)
    obtain ⟨st2, h2, hp2⟩ := hstep n st1 (by omega) hp
    refine ⟨st2, ?_, hp2⟩
    rw [List.range_succ, List.foldlM_append, h1]
    show (List.foldlM body st1 [n]) = _
    rw [List.foldlM_cons, h2]
    rfl

/-- The body of the triple loop of `splitMainTable` for an output channel whose `width`
input channels lie below `nChanIn`. -/
theorem averageCell_ok {C : Type} [Zero C] [Add C] (avg : C → Nat → C) (width nChanIn : Nat)
    (indata : Nat → Nat → Nat → C) (inflag : Nat → Nat → Nat → Bool)
    (pol destChan r : Nat) (out : OutCubes C)
    (hfit : destChan * width + width ≤ nChanIn) (hlt : nChanIn < UINT) :
    averageCell avg width nChanIn indata inflag pol destChan r out =
      Except.ok
        { outdata := setAt3 out.outdata pol destChan r
            (avg ((List.range' (destChan * width) width).foldl (fun s i => s + indata pol i r) 0)
              width)
          outflag := setAt3 out.outflag pol destChan r
            ((List.range' (destChan * width) width).any (fun i => inflag pol i r)) } := by
  unfold averageCell
  rw [averageChannels_ok width nChanIn destChan _ _ hfit hlt]

/-- The averaging branch of `splitMainTable` for a channel range that `width` divides:
the triple loop returns, and every output flag is the disjunction of the `width` input
flags of its output channel. -/
theorem averageBlock_ok {C : Type} [Zero C] [Add C] (avg : C → Nat → C)
    (startChan endChan width nPol nRows : Nat)
    (indata : Nat → Nat → Nat → C) (inflag : Nat → Nat → Nat → Bool)
    (hdiv : splitNChanIn startChan endChan % width = 0) :
    ∃ out : OutCubes C,
      averageBlock avg startChan endChan width nPol nRows indata inflag = Except.ok out ∧
      ∀ pol destChan r, pol < nPol → destChan < splitNChanIn startChan endChan / width →
        r < nRows →
        out.outflag pol destChan r =
          (List.range' (destChan * width) width).any (fun i => inflag pol i r) := by
  have hlt : splitNChanIn startChan endChan < UINT := Nat.mod_lt _ (by unfold UINT; omega)
  have hmul : splitNChanIn startChan endChan / width * width = splitNChanIn startChan endChan :=
    Nat.div_mul_cancel (Nat.dvd_of_mod_eq_zero hdiv)
  have hfit : ∀ d, d < splitNChanIn startChan endChan / width →
      d * width + width ≤ splitNChanIn startChan endChan := by
    intro d hd
    have : (d + 1) * width ≤ splitNChanIn startChan endChan / width * width :=
      Nat.mul_le_mul_right _ hd
    rw [Nat.succ_mul] at this
    omega
  unfold averageBlock
  simp only
  generalize hI : splitNChanIn startChan endChan = nChanIn at hlt hmul hfit ⊢
  -- the cells written before the iteration (p, d, r)
  obtain ⟨out, hout, hinv⟩ := foldlM_range_inv nPol
    (fun out pol =>
      (List.range (nChanIn / width)).foldlM
        (fun out destChan =>
          (List.range nRows).foldlM
            (fun out r => averageCell avg width nChanIn indata inflag pol destChan r out)
            out)
        out)
    (fun p (out : OutCubes C) => ∀ p1 d1 r1, p1 < p → d1 < nChanIn / width → r1 < nRows →
      out.outflag p1 d1 r1 = (List.range' (d1 * width) width).any (fun i => inflag p1 i r1))
    { outdata := fun _ _ _ => 0, outflag := fun _ _ _ => false }
    (by intro p1 d1 r1 hp; omega)
    (by
      intro p st _ hP
      obtain ⟨st1, h1, hQ⟩ := foldlM_range_inv (nChanIn / width)
        (fun out destChan =>
          (List.range nRows).foldlM
            (fun out r => averageCell avg width nChanIn indata inflag p destChan r out)
            out)
        (fun d (out : OutCubes C) => ∀ p1 d1 r1, d1 < nChanIn / width → r1 < nRows →
          (p1 < p ∨ (p1 = p ∧ d1 < d)) →
          out.outflag p1 d1 r1 = (List.range' (d1 * width) width).any (fun i => inflag p1 i r1))
        st
        (by
          intro p1 d1 r1 hd hr hc
          rcases hc with hc | hc
          · exact hP p1 d1 r1 hc hd hr
          · omega)
        (by
          intro d st2 hd hQ
          obtain ⟨st3, h3, hR⟩ := foldlM_range_inv nRows
            (fun out r => averageCell avg width nChanIn indata inflag p d r out)
            (fun r (out : OutCubes C) => ∀ p1 d1 r1, d1 < nChanIn / width → r1 < nRows →
              (p1 < p ∨ (p1 = p ∧ (d1 < d ∨ (d1 = d ∧ r1 < r)))) →
              out.outflag p1 d1 r1 =
                (List.range' (d1 * width) width).any (fun i => inflag p1 i r1))
            st2
            (by
              intro p1 d1 r1 hd1 hr1 hc
              apply hQ p1 d1 r1 hd1 hr1
              rcases hc with hc | ⟨hc, hc2 | hc2⟩
              · exact Or.inl hc
              · exact Or.inr ⟨hc, hc2⟩
              · omega)
            (by
              intro r st4 hr hR
              refine ⟨_, averageCell_ok avg width nChanIn indata inflag p d r st4 (hfit d hd) hlt, ?_⟩
              · intro p1 d1 r1 hd1 hr1 hc
                simp only [setAt3]
                by_cases hcell : p1 = p ∧ d1 = d ∧ r1 = r
                · obtain ⟨e1, e2, e3⟩ := hcell
                  subst e1 e2 e3
                  rw [if_pos ⟨rfl, rfl, rfl⟩]
                · rw [if_neg hcell]
                  apply hR p1 d1 r1 hd1 hr1
                  rcases hc with hc | ⟨hc, hc2 | ⟨hc2, hc3⟩⟩
                  · exact Or.inl hc
                  · exact Or.inr ⟨hc, Or.inl hc2⟩
                  · refine Or.inr ⟨hc, Or.inr ⟨hc2, ?_⟩⟩
                    have : r1 ≠ r := fun h => hcell ⟨hc, hc2, h⟩
                    omega)
          refine ⟨st3, h3, ?_⟩
          intro p1 d1 r1 hd1 hr1 hc
          apply hR p1 d1 r1 hd1 hr1
          rcases hc with hc | ⟨hc, hc2⟩
          · exact Or.inl hc
          · refine Or.inr ⟨hc, ?_⟩
            by_cases hdd : d1 = d
            · exact Or.inr ⟨hdd, hr1⟩
            · exact Or.inl (by omega))
      refine ⟨st1, h1, ?_⟩
      intro p1 d1 r1 hp1 hd1 hr1
      apply hQ p1 d1 r1 hd1 hr1
      by_cases hpp : p1 = p
      · exact Or.inr ⟨hpp, hd1⟩
      · exact Or.inl (by omega))
  exact ⟨out, hout, fun pol destChan r hp hd hr => hinv pol destChan r hp hd hr⟩

/-- C25. In the averaging branch of `splitMainTable` (`width > 1`) with
`endChan >= startChan` and `nChanIn = endChan - startChan + 1` divisible by `width`:
(1) `nChanIn` is `endChan - startChan + 1` in `casa::uInt`; (2) for every output channel
`destChan < nChanOut` the averaging loop visits the input channels
`destChan * width .. destChan * width + width - 1`, all below `nChanIn`, so the assertion
never fails; (3) every input channel below `nChanIn` is visited for exactly one output
channel; (4) the triple loop returns, and the output flag at (`pol`, `destChan`, `r`) is
set if and only if one of these `width` input flags is set. -/
theorem splitMainTable_averaging {C : Type} [Zero C] [Add C] (avg : C → Nat → C)
    (startChan endChan width nPol nRows : Nat)
    (indata : Nat → Nat → Nat → C) (inflag : Nat → Nat → Nat → Bool)
    (hw : 1 < width) (hle : startChan ≤ endChan)
    (hdiv : splitNChanIn startChan endChan % width = 0) :
    splitNChanIn startChan endChan = (endChan - startChan + 1) % UINT ∧
    (∀ pol destChan r, destChan < splitNChanIn startChan endChan / width →
      (∃ sum flag,
        averageChannels width (splitNChanIn startChan endChan) destChan
          (fun i => indata pol i r) (fun i => inflag pol i r) =
          Except.ok (sum, flag, List.range' (destChan * width) width)) ∧
      ∀ i ∈ List.range' (destChan * width) width, i < splitNChanIn startChan endChan) ∧
    (∀ i, i < splitNChanIn startChan endChan →
      ∃ destChan, (destChan < splitNChanIn startChan endChan / width ∧
          i ∈ List.range' (destChan * width) width) ∧
        ∀ other, other < splitNChanIn startChan endChan / width ∧
          i ∈ List.range' (other * width) width → other = destChan) ∧
    (∃ out : OutCubes C,
      averageBlock avg startChan endChan width nPol nRows indata inflag = Except.ok out ∧
      ∀ pol destChan r, pol < nPol → destChan < splitNChanIn startChan endChan / width →
        r < nRows →
        (out.outflag pol destChan r = true ↔
          ∃ i, destChan * width ≤ i ∧ i ≤ destChan * width + width - 1 ∧
            inflag pol i r = true)) := by
  have hlt : splitNChanIn startChan endChan < UINT := Nat.mod_lt _ (by unfold UINT; omega)
  have hmul : splitNChanIn startChan endChan / width * width = splitNChanIn startChan endChan :=
    Nat.div_mul_cancel (Nat.dvd_of_mod_eq_zero hdiv)
  have hfit : ∀ d, d < splitNChanIn startChan endChan / width →
      d * width + width ≤ splitNChanIn startChan endChan := by
    intro d hd
    have : (d + 1) * width ≤ splitNChanIn startChan endChan / width * width :=
      Nat.mul_le_mul_right _ hd
    rw [Nat.succ_mul] at this
    omega
  refine ⟨?_, ?_, ?_, ?_⟩
  · unfold splitNChanIn
    have : endChan + UINT - startChan + 1 = (endChan - startChan + 1) + UINT := by omega
    rw [this, Nat.add_mod_right]
  · intro pol destChan r hd
    refine ⟨⟨_, _, averageChannels_ok width _ destChan _ _ (hfit destChan hd) hlt⟩, ?_⟩
    intro i hi
    rw [List.mem_range'_1] at hi
    have := hfit destChan hd
    omega
  · intro i hi
    have hwpos : 0 < width := by omega
    refine ⟨i / width, ⟨?_, ?_⟩, ?_⟩
    · apply Nat.div_lt_of_lt_mul
      rw [Nat.mul_comm, hmul]
      exact hi
    · rw [List.mem_range'_1]
      have h1 := Nat.div_mul_le_self i width
      have h2 := Nat.lt_div_mul_add (a := i) hwpos
      omega
    · rintro other ⟨_, hmem⟩
      rw [List.mem_range'_1] at hmem
      symm
      apply Nat.div_eq_of_lt_le
      · exact hmem.1
      · rw [Nat.succ_mul]; exact hmem.2
  · obtain ⟨out, hout, hflag⟩ := averageBlock_ok avg startChan endChan width nPol nRows
      indata inflag hdiv
    refine ⟨out, hout, ?_⟩
    intro pol destChan r hp hd hr
    rw [hflag pol destChan r hp hd hr, List.any_eq_true]
    constructor
    · rintro ⟨i, hi, hf⟩
      rw [List.mem_range'_1] at hi
      exact ⟨i, hi.1, by omega, hf⟩
    · rintro ⟨i, h1, h2, hf⟩
      exact ⟨i, by rw [List.mem_range'_1]; omega, hf⟩

/-- C25 at a concrete input: channels 1 to 4 averaged in pairs, 2 polarisations, 1 row,
with only the input flag of polarisation 0, channel 3 set. -/
theorem splitMainTable_averaging_witness :
    ((1 : Nat) < 2 ∧ (1 : Nat) ≤ 4 ∧ splitNChanIn 1 4 % 2 = 0) ∧
    splitNChanIn 1 4 = 4 ∧
    (averageBlock (fun (s : Int) w => s / (w : Int)) 1 4 2 2 1
      (fun pol i r => ((pol + i + r : Nat) : Int)) exampleInflag).isOk = true ∧
    ∃ out : OutCubes Int,
      averageBlock (fun (s : Int) w => s / (w : Int)) 1 4 2 2 1
        (fun pol i r => ((pol + i + r : Nat) : Int)) exampleInflag = Except.ok out ∧
      ∀ pol destChan r, pol < 2 → destChan < splitNChanIn 1 4 / 2 → r < 1 →
        (out.outflag pol destChan r = true ↔
          ∃ i, destChan * 2 ≤ i ∧ i ≤ destChan * 2 + 2 - 1 ∧ exampleInflag pol i r = true) :=
  ⟨⟨by decide, by decide, by decide⟩, by decide, by rfl,
    (splitMainTable_averaging (fun (s : Int) w => s / (w : Int)) 1 4 2 2 1
      (fun pol i r => ((pol + i + r : Nat) : Int)) exampleInflag (by decide) (by decide)
      (by decide)).2.2.2⟩

end Askap
